import Mathlib

/-! # Inframate front-end stores: ticket aggregate store and TTL cache

A shallow embedding of `frontend/src/stores/tickets.js` and of the data cache of
`frontend/src/stores/ui.js`.

Conventions of the embedding.
* A reactive `ref` is a field of an explicit state record; an action is a function
  from the state before the call to the state after it, paired with what the
  action returns (`Except.ok`) or re-throws (`Except.error`).
* The outcome of every `await api.…` is an argument of the action
  (`Except ApiError response`): the Ticket Service is a black box.
* `Date.now()` is an argument `now`, in milliseconds.
* An optional field is an `Option`; `none` stands for every falsy JavaScript value of
  that field (`undefined`, `null`, the empty string) and `some v` for a truthy one.
* Counters are natural numbers, so `Math.max(0, c - n)` is the truncated
  subtraction `c - n` of `Nat`.
-/

namespace Inframate

/-! ## Data model -/

/-- The five values of a ticket's `status`. -/
inductive Status where
  | s_new
  | s_open
  | s_pending
  | s_resolved
  | s_closed
deriving DecidableEq, Repr

/-- A ticket record. `rest` holds the remaining fields, which the store never reads. -/
structure Ticket where
  id : Nat
  status : Option Status
  priority : Option String
  ticket_type : Option String
  assigned_to_id : Option Nat
  requester_id : Option Nat
  sla_breached : Bool
  comments : List String
  rest : List (String × String)
deriving DecidableEq, Repr

/-- The `stats` aggregate, with the nine fields of its initial value in `tickets.js`.
`by_priority` and `by_type` are JavaScript objects used as tag → count maps: a list of
entries in insertion order. -/
structure TicketStats where
  total : Nat
  n_new : Nat
  n_open : Nat
  n_pending : Nat
  n_resolved : Nat
  n_closed : Nat
  sla_breached : Nat
  by_priority : List (String × Nat)
  by_type : List (String × Nat)
deriving DecidableEq, Repr

/-- A rejected remote call; `detail` is `err.response?.data?.detail`. -/
structure ApiError where
  detail : Option String
deriving DecidableEq, Repr

/-- The reactive state of the tickets store. -/
structure Store where
  tickets : List Ticket
  currentTicket : Option Ticket
  stats : TicketStats
  loading : Bool
  error : Option String
deriving DecidableEq, Repr

/-! ## JavaScript object and array primitives -/

/-- Property read `obj[key]` on a tag → count object; `none` is `undefined`. -/
def lookupTag : List (String × Nat) → String → Option Nat
  | [], _ => none
  | (k, v) :: m, key => if k = key then some v else lookupTag m key

/-- Property write `obj[key] = v`: an existing entry is overwritten in place, a new one
is added after the existing ones. -/
def assignTag : List (String × Nat) → String → Nat → List (String × Nat)
  | [], key, v => [(key, v)]
  | (k, c) :: m, key, v => if k = key then (k, v) :: m else (k, c) :: assignTag m key v

/-- The count a tag stands for: the entry's value, 0 when there is no entry. -/
def tagCount (m : List (String × Nat)) (key : String) : Nat :=
  (lookupTag m key).getD 0

/-- Sum of the counts of a tag → count object. -/
def tagSum (m : List (String × Nat)) : Nat :=
  (m.map Prod.snd).sum

/-- Array method `findIndex(t => t.id === id)`; `none` is the result `-1`. -/
def findIndex : List Ticket → Nat → Option Nat
  | [], _ => none
  | t :: ts, id => if t.id = id then some 0 else (findIndex ts id).map (· + 1)

/-- Array method `find(t => t.id === id)`. -/
def findTicket : List Ticket → Nat → Option Ticket
  | [], _ => none
  | t :: ts, id => if t.id = id then some t else findTicket ts id

/-- Array method `splice(i, 1)`, for `i` a valid index or beyond the end. -/
def spliceOut : List Ticket → Nat → List Ticket
  | [], _ => []
  | _ :: ts, 0 => ts
  | t :: ts, i + 1 => t :: spliceOut ts i

/-- Array method `splice(i, 0, x)`: an index beyond the end inserts at the end. -/
def spliceIn : List Ticket → Nat → Ticket → List Ticket
  | ts, 0, x => x :: ts
  | [], _ + 1, x => [x]
  | t :: ts, i + 1, x => t :: spliceIn ts i x

/-- Indexed write `arr[i] = f(arr[i])` for an index `i` returned by `findIndex`. -/
def modifyAt : List Ticket → Nat → (Ticket → Ticket) → List Ticket
  | [], _, _ => []
  | t :: ts, 0, f => f t :: ts
  | t :: ts, i + 1, f => t :: modifyAt ts i f

/-- The idiom `idx = arr.findIndex(t => t.id === id); if (idx !== -1) arr[idx] = f(arr[idx])`. -/
def updateById (ts : List Ticket) (id : Nat) (f : Ticket → Ticket) : List Ticket :=
  match findIndex ts id with
  | some idx => modifyAt ts idx f
  | none => ts

/-- The read `stats.value[status]` for a status value. -/
def TicketStats.counter (s : TicketStats) : Status → Nat
  | .s_new => s.n_new
  | .s_open => s.n_open
  | .s_pending => s.n_pending
  | .s_resolved => s.n_resolved
  | .s_closed => s.n_closed

/-- The write `stats.value[status] = v` for a status value. -/
def TicketStats.setCounter (s : TicketStats) : Status → Nat → TicketStats
  | .s_new, v => { s with n_new := v }
  | .s_open, v => { s with n_open := v }
  | .s_pending, v => { s with n_pending := v }
  | .s_resolved, v => { s with n_resolved := v }
  | .s_closed, v => { s with n_closed := v }

/-- `Object.assign(target, source)` for two stats objects: every own field of the
source is written onto the target. -/
def objectAssign (target source : TicketStats) : TicketStats :=
  { target with
    total := source.total
    n_new := source.n_new
    n_open := source.n_open
    n_pending := source.n_pending
    n_resolved := source.n_resolved
    n_closed := source.n_closed
    sla_breached := source.sla_breached
    by_priority := source.by_priority
    by_type := source.by_type }

/-- The display string `err.response?.data?.detail || fallback`. -/
def errorMessage (err : ApiError) (fallback : String) : String :=
  err.detail.getD fallback

/-! ## Optimistic UI helpers (tickets.js, lines 34-79) -/

/-- `updateStatsForStatusChange(oldStatus, newStatus, count)`. Every status counter is a
field of the stats object, so the guards `stats.value[s] !== undefined` hold and only the
truthiness of the two status arguments decides. -/
def updateStatsForStatusChange (s : TicketStats) (oldStatus newStatus : Option Status)
    (count : Nat) : TicketStats :=
  let s1 := match oldStatus with
    | some o => s.setCounter o (s.counter o - count)
    | none => s
  match newStatus with
  | some n => s1.setCounter n (s1.counter n + count)
  | none => s1

/-- The branch `if (obj[tag] !== undefined) obj[tag] += 1 else obj[tag] = 1`. -/
def bumpTag (m : List (String × Nat)) (tag : String) : List (String × Nat) :=
  match lookupTag m tag with
  | some c => assignTag m tag (c + 1)
  | none => assignTag m tag 1

/-- `incrementStatsForNewTicket(status, priority, ticketType)`. -/
def incrementStatsForNewTicket (s : TicketStats) (status : Status)
    (priority ticketType : String) : TicketStats :=
  let s1 := { s with total := s.total + 1 }
  let s2 := s1.setCounter status (s1.counter status + 1)
  let s3 := { s2 with by_priority := bumpTag s2.by_priority priority }
  { s3 with by_type := bumpTag s3.by_type ticketType }

/-- The guarded decrement
`if (tag && obj[tag] !== undefined) obj[tag] = Math.max(0, obj[tag] - 1)`. -/
def dropTag (m : List (String × Nat)) (tag : Option String) : List (String × Nat) :=
  match tag with
  | some p =>
    match lookupTag m p with
    | some c => assignTag m p (c - 1)
    | none => m
  | none => m

/-- `decrementStatsForDeletedTicket(ticket)`. -/
def decrementStatsForDeletedTicket (s : TicketStats) (ticket : Ticket) : TicketStats :=
  let s1 := { s with total := s.total - 1 }
  let s2 := match ticket.status with
    | some st => s1.setCounter st (s1.counter st - 1)
    | none => s1
  let s3 := { s2 with by_priority := dropTag s2.by_priority ticket.priority }
  let s4 := { s3 with by_type := dropTag s3.by_type ticket.ticket_type }
  if ticket.sla_breached ∧ s4.sla_breached > 0 then
    { s4 with sla_breached := s4.sla_breached - 1 }
  else s4

/-! ## Actions (tickets.js, lines 97-477) -/

/-- An opaque `response.data` the store hands back without reading it. -/
abbrev Payload := String

/-- `fetchTicketStats()`: the stats aggregate is replaced by the response. -/
def fetchTicketStats (st : Store) (remote : Except ApiError TicketStats) :
    Store × Except ApiError TicketStats :=
  match remote with
  | .ok data => ({ st with stats := data }, .ok data)
  | .error err => (st, .error err)

/-- `fetchTicket(id)`: the current-detail record is replaced by the response. -/
def fetchTicket (st : Store) (_id : Nat) (remote : Except ApiError Ticket) :
    Store × Except ApiError Ticket :=
  let st0 := { st with loading := true, error := none }
  match remote with
  | .ok data => ({ st0 with currentTicket := some data, loading := false }, .ok data)
  | .error err =>
    ({ st0 with error := some (errorMessage err "Failed to fetch ticket"), loading := false },
      .error err)

/-- `createTicket(ticketData)`: `remote` is the outcome of `api.post('/tickets/')`. -/
def createTicket (st : Store) (remote : Except ApiError Ticket) :
    Store × Except ApiError Ticket :=
  let st0 := { st with loading := true, error := none }
  match remote with
  | .ok data =>
    let st1 := { st0 with tickets := data :: st0.tickets }
    let st2 := { st1 with
      stats := incrementStatsForNewTicket st1.stats (data.status.getD .s_new)
        (data.priority.getD "medium") (data.ticket_type.getD "incident") }
    ({ st2 with loading := false }, .ok data)
  | .error err =>
    ({ st0 with error := some (errorMessage err "Failed to create ticket"), loading := false },
      .error err)

/-- `deleteTicket(id)`: `remote` is the outcome of `api.delete`. -/
def deleteTicket (st : Store) (id : Nat) (remote : Except ApiError Unit) :
    Store × Except ApiError Unit :=
  let st0 := { st with loading := true, error := none }
  let ticketIndex := findIndex st0.tickets id
  let removedTicket := ticketIndex.bind (fun i => st0.tickets.get? i)
  let st1 := match ticketIndex with
    | some i => { st0 with tickets := spliceOut st0.tickets i }
    | none => st0
  match remote with
  | .ok _ =>
    let st2 := if st1.currentTicket.map (·.id) = some id then
        { st1 with currentTicket := none } else st1
    let st3 := match removedTicket with
      | some t => { st2 with stats := decrementStatsForDeletedTicket st2.stats t }
      | none => st2
    ({ st3 with loading := false }, .ok ())
  | .error err =>
    let st2 := match removedTicket, ticketIndex with
      | some t, some i => { st1 with tickets := spliceIn st1.tickets i t }
      | _, _ => st1
    ({ st2 with error := some (errorMessage err "Failed to delete ticket"), loading := false },
      .error err)

/-- `resolveTicket(ticketId, resolution, resolutionCode)`: `remote` is the outcome of the
resolve call, `detail` the outcome of the `fetchTicket` that follows it. -/
def resolveTicket (st : Store) (ticketId : Nat) (remote : Except ApiError Payload)
    (detail : Except ApiError Ticket) : Store × Except ApiError Payload :=
  let originalStatus := (findTicket st.tickets ticketId).bind (·.status)
  match remote with
  | .error err =>
    ({ st with error := some (errorMessage err "Failed to resolve ticket") }, .error err)
  | .ok data =>
    match fetchTicket st ticketId detail with
    | (st1, .error err) =>
      ({ st1 with error := some (errorMessage err "Failed to resolve ticket") }, .error err)
    | (st1, .ok _) =>
      let st2 := if originalStatus.isSome ∧ originalStatus ≠ some .s_resolved then
          { st1 with stats :=
              updateStatsForStatusChange st1.stats originalStatus (some .s_resolved) 1 }
        else st1
      (st2, .ok data)

/-- `closeTicket(ticketId)`. -/
def closeTicket (st : Store) (ticketId : Nat) (remote : Except ApiError Payload)
    (detail : Except ApiError Ticket) : Store × Except ApiError Payload :=
  let originalStatus := (findTicket st.tickets ticketId).bind (·.status)
  match remote with
  | .error err =>
    ({ st with error := some (errorMessage err "Failed to close ticket") }, .error err)
  | .ok data =>
    match fetchTicket st ticketId detail with
    | (st1, .error err) =>
      ({ st1 with error := some (errorMessage err "Failed to close ticket") }, .error err)
    | (st1, .ok _) =>
      let st2 := if originalStatus.isSome ∧ originalStatus ≠ some .s_closed then
          { st1 with stats :=
              updateStatsForStatusChange st1.stats originalStatus (some .s_closed) 1 }
        else st1
      (st2, .ok data)

/-- `reopenTicket(ticketId, reason)`. -/
def reopenTicket (st : Store) (ticketId : Nat) (remote : Except ApiError Payload)
    (detail : Except ApiError Ticket) : Store × Except ApiError Payload :=
  let originalStatus := (findTicket st.tickets ticketId).bind (·.status)
  match remote with
  | .error err =>
    ({ st with error := some (errorMessage err "Failed to reopen ticket") }, .error err)
  | .ok data =>
    match fetchTicket st ticketId detail with
    | (st1, .error err) =>
      ({ st1 with error := some (errorMessage err "Failed to reopen ticket") }, .error err)
    | (st1, .ok _) =>
      let st2 := if originalStatus.isSome ∧ originalStatus ≠ some .s_open then
          { st1 with stats :=
              updateStatsForStatusChange st1.stats originalStatus (some .s_open) 1 }
        else st1
      (st2, .ok data)

/-! ### Bulk operations -/

/-- One round of the loop that writes the target status on the local records:
`idx = findIndex(t => t.id === ticket.id); if (idx !== -1) tickets[idx] = {...tickets[idx], status}`. -/
def writeStatus (newStatus : Status) (st : Store) (ticket : Ticket) : Store :=
  { st with
    tickets := updateById st.tickets ticket.id (fun t => { t with status := some newStatus }) }

/-- `bulkCloseTickets(ticketIds)`: `remote` is the outcome of `api.post('/tickets/bulk-close')`. -/
def bulkCloseTickets (st : Store) (ticketIds : List Nat) (remote : Except ApiError Payload) :
    Store × Except ApiError Payload :=
  let originalStats := st.stats
  let affectedTickets :=
    st.tickets.filter (fun t => decide (t.id ∈ ticketIds) && decide (t.status ≠ some .s_closed))
  let st1 := affectedTickets.foldl
    (fun s ticket =>
      { s with stats := updateStatsForStatusChange s.stats ticket.status (some .s_closed) 1 })
    st
  match remote with
  | .ok data => (affectedTickets.foldl (writeStatus .s_closed) st1, .ok data)
  | .error err =>
    ({ st1 with
        stats := objectAssign st1.stats originalStats
        error := some (errorMessage err "Failed to close tickets") },
      .error err)

/-- `bulkUpdateStatus(ticketIds, newStatus)`. -/
def bulkUpdateStatus (st : Store) (ticketIds : List Nat) (newStatus : Status)
    (remote : Except ApiError Payload) : Store × Except ApiError Payload :=
  let originalStats := st.stats
  let affectedTickets :=
    st.tickets.filter (fun t => decide (t.id ∈ ticketIds) && decide (t.status ≠ some newStatus))
  let st1 := affectedTickets.foldl
    (fun s ticket =>
      { s with stats := updateStatsForStatusChange s.stats ticket.status (some newStatus) 1 })
    st
  match remote with
  | .ok data => (affectedTickets.foldl (writeStatus newStatus) st1, .ok data)
  | .error err =>
    ({ st1 with
        stats := objectAssign st1.stats originalStats
        error := some (errorMessage err "Failed to update ticket status") },
      .error err)

/-- The saved `{ id, assigned_to_id, status }` of `bulkAssignTickets`. -/
structure OriginalState where
  id : Nat
  assigned_to_id : Option Nat
  status : Option Status
deriving DecidableEq, Repr

/-- One round of the optimistic loop of `bulkAssignTickets`: the record at the found index
takes the assignee, and a record whose status is then `new` is opened, with the matching
counter transition. -/
def assignStep (userId : Option Nat) (st : Store) (ticket : Ticket) : Store :=
  match findIndex st.tickets ticket.id with
  | some idx =>
    let ts1 := modifyAt st.tickets idx (fun t => { t with assigned_to_id := userId })
    if (ts1.get? idx).bind (·.status) = some .s_new then
      { st with
        stats := updateStatsForStatusChange st.stats (some .s_new) (some .s_open) 1
        tickets := modifyAt ts1 idx (fun t => { t with status := some .s_open }) }
    else { st with tickets := ts1 }
  | none => st

/-- One round of the rollback loop of `bulkAssignTickets`. -/
def restoreAssignment (st : Store) (original : OriginalState) : Store :=
  { st with
    tickets := updateById st.tickets original.id (fun t =>
      { t with assigned_to_id := original.assigned_to_id, status := original.status }) }

/-- `bulkAssignTickets(ticketIds, userId)`. -/
def bulkAssignTickets (st : Store) (ticketIds : List Nat) (userId : Option Nat)
    (remote : Except ApiError Payload) : Store × Except ApiError Payload :=
  let affectedTickets := st.tickets.filter (fun t => decide (t.id ∈ ticketIds))
  let originalStates := affectedTickets.map
    (fun t => ({ id := t.id, assigned_to_id := t.assigned_to_id, status := t.status } :
      OriginalState))
  let st1 := affectedTickets.foldl (assignStep userId) st
  match remote with
  | .ok data => (st1, .ok data)
  | .error err =>
    let st2 := originalStates.foldl restoreAssignment st1
    ({ st2 with error := some (errorMessage err "Failed to assign tickets") }, .error err)

/-- The write `obj[tag] = (obj[tag] || 0) + 1`. -/
def raiseTag (m : List (String × Nat)) (tag : String) : List (String × Nat) :=
  assignTag m tag ((lookupTag m tag).getD 0 + 1)

/-- One round of the optimistic loop of `bulkUpdatePriority`; `ticket` is the record as
it was when the affected tickets were selected. -/
def priorityStep (newPriority : String) (st : Store) (ticket : Ticket) : Store :=
  match findIndex st.tickets ticket.id with
  | some idx =>
    { st with
      stats := { st.stats with
        by_priority := raiseTag (dropTag st.stats.by_priority ticket.priority) newPriority }
      tickets := modifyAt st.tickets idx (fun t => { t with priority := some newPriority }) }
  | none => st

/-- One round of the rollback loop of `bulkUpdatePriority`. -/
def restorePriority (st : Store) (original : Nat × Option String) : Store :=
  { st with
    tickets := updateById st.tickets original.1 (fun t => { t with priority := original.2 }) }

/-- `bulkUpdatePriority(ticketIds, newPriority)`: `refetch` is the outcome of the
`fetchTicketStats()` of the failure path. -/
def bulkUpdatePriority (st : Store) (ticketIds : List Nat) (newPriority : String)
    (remote : Except ApiError Payload) (refetch : Except ApiError TicketStats) :
    Store × Except ApiError Payload :=
  let affectedTickets := st.tickets.filter (fun t => decide (t.id ∈ ticketIds))
  let originalPriorities := affectedTickets.map (fun t => (t.id, t.priority))
  let st1 := affectedTickets.foldl (priorityStep newPriority) st
  match remote with
  | .ok data => (st1, .ok data)
  | .error err =>
    let st2 := originalPriorities.foldl restorePriority st1
    match fetchTicketStats st2 refetch with
    | (st3, .ok _) =>
      ({ st3 with error := some (errorMessage err "Failed to update ticket priority") },
        .error err)
    | (st3, .error err2) => (st3, .error err2)

/-- One round of the optimistic loop of `bulkUpdateType`. -/
def typeStep (newType : String) (st : Store) (ticket : Ticket) : Store :=
  match findIndex st.tickets ticket.id with
  | some idx =>
    { st with
      stats := { st.stats with
        by_type := raiseTag (dropTag st.stats.by_type ticket.ticket_type) newType }
      tickets := modifyAt st.tickets idx (fun t => { t with ticket_type := some newType }) }
  | none => st

/-- One round of the rollback loop of `bulkUpdateType`. -/
def restoreType (st : Store) (original : Nat × Option String) : Store :=
  { st with
    tickets := updateById st.tickets original.1 (fun t => { t with ticket_type := original.2 }) }

/-- `bulkUpdateType(ticketIds, newType)`. -/
def bulkUpdateType (st : Store) (ticketIds : List Nat) (newType : String)
    (remote : Except ApiError Payload) (refetch : Except ApiError TicketStats) :
    Store × Except ApiError Payload :=
  let affectedTickets := st.tickets.filter (fun t => decide (t.id ∈ ticketIds))
  let originalTypes := affectedTickets.map (fun t => (t.id, t.ticket_type))
  let st1 := affectedTickets.foldl (typeStep newType) st
  match remote with
  | .ok data => (st1, .ok data)
  | .error err =>
    let st2 := originalTypes.foldl restoreType st1
    match fetchTicketStats st2 refetch with
    | (st3, .ok _) =>
      ({ st3 with error := some (errorMessage err "Failed to update ticket type") },
        .error err)
    | (st3, .error err2) => (st3, .error err2)

/-! ## Data cache (ui.js, lines 8-9 and 112-155) -/

/-- Cache TTL in milliseconds (30 seconds). -/
def CACHE_TTL : Nat := 30000

/-- A cache entry `{ data, timestamp, ttl }`. -/
structure CacheEntry where
  data : Payload
  timestamp : Nat
  ttl : Nat
deriving DecidableEq, Repr

/-- The `Map` behind `dataCache`: its entries in insertion order. -/
abbrev DataCache := List (String × CacheEntry)

/-- `Map.prototype.get`. -/
def mapGet : DataCache → String → Option CacheEntry
  | [], _ => none
  | (k, e) :: m, key => if k = key then some e else mapGet m key

/-- `Map.prototype.set`: an existing key keeps its place, a new key goes last. -/
def mapSet : DataCache → String → CacheEntry → DataCache
  | [], key, e => [(key, e)]
  | (k, e0) :: m, key, e => if k = key then (k, e) :: m else (k, e0) :: mapSet m key e

/-- `Map.prototype.delete`. -/
def mapDelete : DataCache → String → DataCache
  | [], _ => []
  | (k, e) :: m, key => if k = key then m else (k, e) :: mapDelete m key

/-- `getCachedData(key)` read at time `now`: the store afterwards and the returned data,
`none` for `null`. -/
def getCachedData (cache : DataCache) (key : String) (now : Nat) :
    DataCache × Option Payload :=
  match mapGet cache key with
  | none => (cache, none)
  | some entry =>
    if (now : Int) - (entry.timestamp : Int) > (CACHE_TTL : Int) then
      (mapDelete cache key, none)
    else (cache, some entry.data)

/-- `setCachedData(key, data, ttl)` written at time `now`; `ttl = none` is the omitted
argument, which takes the default `CACHE_TTL`. -/
def setCachedData (cache : DataCache) (key : String) (data : Payload) (ttl : Option Nat)
    (now : Nat) : DataCache :=
  mapSet cache key { data := data, timestamp := now, ttl := ttl.getD CACHE_TTL }

/-! ## Data cache, invalidation (ui.js, lines 157-184) -/

/-- `invalidateCache(key)`. -/
def invalidateCache (cache : DataCache) (key : String) : DataCache :=
  mapDelete cache key

/-- The test `key.startsWith(pre)`. -/
def startsWith (key pre : String) : Bool :=
  pre.data.isPrefixOf key.data

/-- `invalidateCachePrefix(pre)`: a new `Map` is filled, in iteration order, with the entries
whose key does not start with `pre`. -/
def invalidateCachePrefix (cache : DataCache) (pre : String) : DataCache :=
  cache.foldl
    (fun newCache kv => if startsWith kv.1 pre then newCache else mapSet newCache kv.1 kv.2) []

/-- `clearCache()`. -/
def clearCache (_cache : DataCache) : DataCache := []

/-! ## Overlay management (ui.js, lines 26-110) -/

/-- The three callbacks an overlay entry can hold. -/
inductive HandlerKind where
  | close
  | freeze
  | unfreeze
deriving DecidableEq, Repr

/-- An entry of `overlayStack`. A callback is represented by its identity; `none` is `null`.
The stack is a list whose last element is the top. -/
structure OverlayEntry where
  type : String
  closeHandler : Option Nat
  timestamp : Nat
  freezeCallback : Option Nat
  unfreezeCallback : Option Nat
deriving DecidableEq, Repr

/-- What an overlay operation does to its surroundings, in the order in which it happens:
`invoke kind index handler` is the call of the callback `handler`, held in slot `kind` by the
entry at position `index` of the array the operation works on; `assign stack` is the write
`overlayStack.value = stack`. A callback is opaque: its call is recorded, what it does itself
is outside the model. -/
inductive Effect where
  | invoke (kind : HandlerKind) (index : Nat) (handler : Nat)
  | assign (stack : List OverlayEntry)
deriving DecidableEq, Repr

/-- The call `if (lastOverlay.freezeCallback) lastOverlay.freezeCallback()` on the last entry
of a non-empty array. -/
def freezeTop (currentStack : List OverlayEntry) : List Effect :=
  match currentStack.getLast? with
  | some lastOverlay =>
    match lastOverlay.freezeCallback with
    | some f => [.invoke .freeze (currentStack.length - 1) f]
    | none => []
  | none => []

/-- The call `if (lastOverlay.unfreezeCallback) lastOverlay.unfreezeCallback()` on the last
entry of a non-empty array. -/
def unfreezeTop (currentStack : List OverlayEntry) : List Effect :=
  match currentStack.getLast? with
  | some lastOverlay =>
    match lastOverlay.unfreezeCallback with
    | some u => [.invoke .unfreeze (currentStack.length - 1) u]
    | none => []
  | none => []

/-- `registerOverlay(type, closeHandler)` at time `now`: the stack afterwards and what
happened on the way. -/
def registerOverlay (stack : List OverlayEntry) (type : String) (closeHandler : Nat)
    (now : Nat) : List OverlayEntry × List Effect :=
  let frozen := freezeTop stack
  let currentStack := stack ++
    [{ type := type, closeHandler := some closeHandler, timestamp := now,
       freezeCallback := none, unfreezeCallback := none }]
  (currentStack, frozen ++ [.assign currentStack])

/-- `setOverlayCallbacks(freezeCallback, unfreezeCallback)`. -/
def setOverlayCallbacks (stack : List OverlayEntry) (freezeCallback unfreezeCallback : Nat) :
    List OverlayEntry × List Effect :=
  match stack.getLast? with
  | some top =>
    let currentStack := stack.dropLast ++
      [{ top with
         freezeCallback := some freezeCallback, unfreezeCallback := some unfreezeCallback }]
    (currentStack, [.assign currentStack])
  | none => (stack, [])

/-- Array method `findLastIndex(o => o.type === type)`; `none` is the result `-1`. -/
def findLastIndex : List OverlayEntry → String → Option Nat
  | [], _ => none
  | o :: os, type =>
    match findLastIndex os type with
    | some i => some (i + 1)
    | none => if o.type = type then some 0 else none

/-- `unregisterOverlay(type)`. -/
def unregisterOverlay (stack : List OverlayEntry) (type : String) :
    List OverlayEntry × List Effect :=
  match findLastIndex stack type with
  | some index =>
    let currentStack := stack.eraseIdx index
    (currentStack, .assign currentStack :: unfreezeTop currentStack)
  | none => (stack, [])

/-- The loop of `closeAllOverlays` over the reversed array: the head of the reversed array
is the entry that stands right above the `os.length` entries after it. -/
def closeEach : List OverlayEntry → List Effect
  | [] => []
  | overlay :: os =>
    (match overlay.closeHandler with
      | some h => [.invoke .close os.length h]
      | none => []) ++ closeEach os

/-- `closeAllOverlays()`. -/
def closeAllOverlays (stack : List OverlayEntry) : List OverlayEntry × List Effect :=
  ([], closeEach stack.reverse ++ [.assign []])

/-- The computed `hasActiveOverlay`. -/
def hasActiveOverlay (stack : List OverlayEntry) : Bool :=
  decide (stack.length > 0)

/-- The computed `overlayCount`. -/
def overlayCount (stack : List OverlayEntry) : Nat :=
  stack.length

/-! ## Remaining actions and getters of tickets.js -/

/-- A `response.data` that is merged into a record: a field is `none` when the response has
no such key and `some v` when it has the key with value `v`; `rest` lists the other keys
of the response. -/
structure TicketPatch where
  id : Option Nat
  status : Option (Option Status)
  priority : Option (Option String)
  ticket_type : Option (Option String)
  assigned_to_id : Option (Option Nat)
  requester_id : Option (Option Nat)
  sla_breached : Option Bool
  comments : Option (List String)
  rest : List (String × String)
deriving DecidableEq, Repr

/-- Property write `obj[key] = v` on the remaining fields of a record. -/
def assignField : List (String × String) → String → String → List (String × String)
  | [], key, v => [(key, v)]
  | (k, c) :: m, key, v => if k = key then (k, v) :: m else (k, c) :: assignField m key v

/-- The object spread `{ ...t, ...r }`: every key of `r` wins, every key absent from `r`
keeps the value it has in `t`. -/
def shallowMerge (t : Ticket) (r : TicketPatch) : Ticket :=
  { id := r.id.getD t.id
    status := r.status.getD t.status
    priority := r.priority.getD t.priority
    ticket_type := r.ticket_type.getD t.ticket_type
    assigned_to_id := r.assigned_to_id.getD t.assigned_to_id
    requester_id := r.requester_id.getD t.requester_id
    sla_breached := r.sla_breached.getD t.sla_breached
    comments := r.comments.getD t.comments
    rest := r.rest.foldl (fun acc kv => assignField acc kv.1 kv.2) t.rest }

/-- The getter `openTickets`. -/
def openTickets (tickets : List Ticket) : List Ticket :=
  tickets.filter (fun t =>
    [some Status.s_new, some Status.s_open, some Status.s_pending].contains t.status)

/-- The getter `myTickets`; `userId` is `authStore.user?.id`, `none` when there is no user.
The guard `!userId` also catches the number 0. -/
def myTickets (tickets : List Ticket) (userId : Option Nat) : List Ticket :=
  match userId with
  | none => []
  | some u =>
    if u = 0 then []
    else tickets.filter (fun t =>
      decide (t.assigned_to_id = some u) || decide (t.requester_id = some u))

/-- `updateTicket(id, ticketData)`: `remote` is the outcome of `api.put`, `refetch` the
outcome of the `fetchTicketStats()` that follows it. -/
def updateTicket (st : Store) (id : Nat) (remote : Except ApiError TicketPatch)
    (refetch : Except ApiError TicketStats) : Store × Except ApiError TicketPatch :=
  let st0 := { st with loading := true, error := none }
  match remote with
  | .ok data =>
    let st1 := { st0 with tickets := updateById st0.tickets id (fun t => shallowMerge t data) }
    let st2 := if st1.currentTicket.map (·.id) = some id then
        { st1 with currentTicket := st1.currentTicket.map (fun t => shallowMerge t data) }
      else st1
    match fetchTicketStats st2 refetch with
    | (st3, .ok _) => ({ st3 with loading := false }, .ok data)
    | (st3, .error err) =>
      ({ st3 with error := some (errorMessage err "Failed to update ticket"), loading := false },
        .error err)
  | .error err =>
    ({ st0 with error := some (errorMessage err "Failed to update ticket"), loading := false },
      .error err)

/-- `addComment(ticketId, commentData)`: `remote` is the outcome of `api.post`. -/
def addComment (st : Store) (ticketId : Nat) (remote : Except ApiError String) :
    Store × Except ApiError String :=
  match remote with
  | .ok data =>
    if st.currentTicket.map (·.id) = some ticketId then
      ({ st with
          currentTicket := st.currentTicket.map (fun t =>
            { t with comments := t.comments ++ [data] }) },
        .ok data)
    else (st, .ok data)
  | .error err =>
    ({ st with error := some (errorMessage err "Failed to add comment") }, .error err)

/-- `assignTicket(ticketId, userId)`: `remote` is the outcome of the assign call, `detail`
the outcome of the `fetchTicket` that follows it. -/
def assignTicket (st : Store) (ticketId : Nat) (_userId : Nat)
    (remote : Except ApiError Payload) (detail : Except ApiError Ticket) :
    Store × Except ApiError Payload :=
  match remote with
  | .error err =>
    ({ st with error := some (errorMessage err "Failed to assign ticket") }, .error err)
  | .ok data =>
    match fetchTicket st ticketId detail with
    | (st1, .error err) =>
      ({ st1 with error := some (errorMessage err "Failed to assign ticket") }, .error err)
    | (st1, .ok _) => (st1, .ok data)

/-! ## The keydown listener of ui.js (lines 278-286) -/

/-- The `keydown` listener: on `Escape` with a non-empty stack the close handler of the last
entry is called when it is set; the listener writes nothing. -/
def onKeydown (stack : List OverlayEntry) (key : String) : List OverlayEntry × List Effect :=
  if key = "Escape" ∧ stack.length > 0 then
    match stack.getLast? with
    | some topOverlay =>
      match topOverlay.closeHandler with
      | some h => (stack, [.invoke .close (stack.length - 1) h])
      | none => (stack, [])
    | none => (stack, [])
  else (stack, [])

/-! ## Descriptions used in the statements -/

/-- What one round of the optimistic loop of `bulkAssignTickets` makes of the record it
finds: the assignee is set, and a `new` record is opened. -/
def autoOpen (userId : Option Nat) (t : Ticket) : Ticket :=
  if t.status = some .s_new then { t with assigned_to_id := userId, status := some .s_open }
  else { t with assigned_to_id := userId }

/-- The stats invariant of the data model: `total` equals the sum of the five status
counters, the sum of the `by_priority` counts and the sum of the `by_type` counts. -/
def statsConsistent (s : TicketStats) : Prop :=
  s.total = s.n_new + s.n_open + s.n_pending + s.n_resolved + s.n_closed ∧
  s.total = tagSum s.by_priority ∧
  s.total = tagSum s.by_type

/-- The stats account for the local collection: every local ticket has a status, a priority
and a type, and the counter of that status, the `by_priority` count of that priority and the
`by_type` count of that type are each at least the number of local tickets carrying it. -/
def statsCover (st : Store) : Bool :=
  st.tickets.all (fun t =>
    match t.status, t.priority, t.ticket_type with
    | some x, some p, some k =>
      decide (st.tickets.countP (fun u => decide (u.status = some x)) ≤ st.stats.counter x) &&
      decide (st.tickets.countP (fun u => decide (u.priority = some p)) ≤
        tagCount st.stats.by_priority p) &&
      decide (st.tickets.countP (fun u => decide (u.ticket_type = some k)) ≤
        tagCount st.stats.by_type k)
    | _, _, _ => false)

/-- The frozen flags of the overlays behind the entries of a stack, position by position:
the call of the freeze handler of the entry at a position sets the flag at that position,
the call of its unfreeze handler clears it, and nothing else touches a flag. -/
def applyEffect (flags : List Bool) : Effect → List Bool
  | .invoke .freeze i _ => flags.set i true
  | .invoke .unfreeze i _ => flags.set i false
  | .invoke .close _ _ => flags
  | .assign _ => flags

/-- An overlay stack together with the frozen flag of each of its entries. -/
structure Tracked where
  stack : List OverlayEntry
  frozen : List Bool
deriving DecidableEq, Repr

/-- `registerOverlay` immediately followed by `setOverlayCallbacks`, with the flags: the
calls of the registration act on the flags of the entries it found, and the new entry starts
with a cleared flag. -/
def Tracked.register (t : Tracked) (type : String)
    (closeHandler now freezeCallback unfreezeCallback : Nat) : Tracked :=
  let r := registerOverlay t.stack type closeHandler now
  let flags := r.2.foldl applyEffect t.frozen ++ [false]
  let r2 := setOverlayCallbacks r.1 freezeCallback unfreezeCallback
  { stack := r2.1, frozen := r2.2.foldl applyEffect flags }

/-- `unregisterOverlay` with the flags: the flag of the removed entry goes with it, then the
calls of the operation act on the flags of the entries that remain. -/
def Tracked.unregister (t : Tracked) (type : String) : Tracked :=
  let r := unregisterOverlay t.stack type
  let flags := match findLastIndex t.stack type with
    | some index => t.frozen.eraseIdx index
    | none => t.frozen
  { stack := r.1, frozen := r.2.foldl applyEffect flags }

/-- `closeAllOverlays` with the flags: only the flags of entries still on the stack are
kept. -/
def Tracked.closeAll (t : Tracked) : Tracked :=
  let r := closeAllOverlays t.stack
  { stack := r.1, frozen := (r.2.foldl applyEffect t.frozen).take r.1.length }

/-- The states reachable from the empty stack by registrations (each immediately followed by
the attachment of the overlay's freeze and unfreeze handlers), unregistrations and
`closeAllOverlays`. -/
inductive Reachable : Tracked → Prop where
  | empty : Reachable { stack := [], frozen := [] }
  | register (t : Tracked) (type : String)
      (closeHandler now freezeCallback unfreezeCallback : Nat) :
      Reachable t → Reachable (t.register type closeHandler now freezeCallback unfreezeCallback)
  | unregister (t : Tracked) (type : String) : Reachable t → Reachable (t.unregister type)
  | closeAll (t : Tracked) : Reachable t → Reachable t.closeAll

/-- One unit moved from the counter of status `s` to the counter of status `t`: nothing
changes when `s = t`; otherwise the counter of `s` goes down by one, floored at zero, the
counter of `t` goes up by one, and no other field of the stats changes. -/
def movedOne (before after : TicketStats) (s t : Status) : Prop :=
  (s = t → after = before) ∧
  (s ≠ t →
    (∀ x : Status, after.counter x =
      if x = t then before.counter x + 1
      else if x = s then before.counter x - 1 else before.counter x) ∧
    after.total = before.total ∧ after.sla_breached = before.sla_breached ∧
    after.by_priority = before.by_priority ∧ after.by_type = before.by_type)

/-- Property read `obj[key]` on the remaining fields of a record; `none` is `undefined`. -/
def lookupField : List (String × String) → String → Option String
  | [], _ => none
  | (k, v) :: m, key => if k = key then some v else lookupField m key

/-- The sum of the five status counters. -/
def statusSum (s : TicketStats) : Nat :=
  s.n_new + s.n_open + s.n_pending + s.n_resolved + s.n_closed

/-! ## Sample states -/

/-- A `new` ticket with a breached SLA. -/
def sampleT1 : Ticket :=
  { id := 1, status := some .s_new, priority := some "high", ticket_type := some "incident",
    assigned_to_id := none, requester_id := some 7, sla_breached := true, comments := [],
    rest := [] }

/-- An `open` ticket. -/
def sampleT2 : Ticket :=
  { id := 2, status := some .s_open, priority := some "low", ticket_type := some "request",
    assigned_to_id := some 4, requester_id := some 7, sla_breached := false, comments := [],
    rest := [] }

/-- The stats `{total: 10, new: 3, open: 4, closed: 3}` of the bulk-close scenarios. -/
def sampleStats : TicketStats :=
  { total := 10, n_new := 3, n_open := 4, n_pending := 0, n_resolved := 0, n_closed := 3,
    sla_breached := 1, by_priority := [("high", 6), ("low", 4)],
    by_type := [("incident", 5), ("request", 5)] }

/-- A store holding the two sample tickets. -/
def sampleStore : Store :=
  { tickets := [sampleT1, sampleT2], currentTicket := none, stats := sampleStats,
    loading := false, error := none }

/-- A store whose only local ticket is `pending` while the stats, which satisfy the
invariant, count no pending ticket. -/
def staleStore : Store :=
  { tickets := [{ sampleT1 with status := some .s_pending }], currentTicket := none,
    stats := sampleStats, loading := false, error := none }

/-- A cache with two keys under the prefix `ticket:` and one outside it; the first entry was
set at time 0 with a TTL of 60000 ms. -/
def sampleCache : DataCache :=
  [("ticket:1", { data := "a", timestamp := 0, ttl := 60000 }),
   ("user:2", { data := "b", timestamp := 0, ttl := 30000 }),
   ("ticket:3", { data := "c", timestamp := 10, ttl := 30000 })]

/-- The overlay `modal-a` with close handler 1, freeze handler 11 and unfreeze handler 12. -/
def sampleOverlayA : OverlayEntry :=
  { type := "modal-a", closeHandler := some 1, timestamp := 100, freezeCallback := some 11,
    unfreezeCallback := some 12 }

/-- The overlay `modal-b` with close handler 2, freeze handler 21 and unfreeze handler 22. -/
def sampleOverlayB : OverlayEntry :=
  { type := "modal-b", closeHandler := some 2, timestamp := 200, freezeCallback := some 21,
    unfreezeCallback := some 22 }

/-- The tracked stack after registering `modal-a` and then `modal-b`, each with its
handlers attached right away. -/
def sampleTracked : Tracked :=
  (({ stack := [], frozen := [] } : Tracked).register "modal-a" 1 100 11 12).register
    "modal-b" 2 200 21 22

/-- A response that carries a new status and one further key and no other field. -/
def samplePatch : TicketPatch :=
  { id := none, status := some (some .s_pending), priority := none, ticket_type := none,
    assigned_to_id := none, requester_id := none, sla_breached := none, comments := none,
    rest := [("title", "Printer on fire")] }

/-- A ticket assigned to a user whose identifier is the number 0. -/
def sampleT0 : Ticket :=
  { id := 3, status := some .s_open, priority := some "low", ticket_type := some "request",
    assigned_to_id := some 0, requester_id := some 7, sla_breached := false, comments := [],
    rest := [] }

/-! ## Lemmas on the primitives -/

theorem objectAssign_source (t s : TicketStats) : objectAssign t s = s := by
  cases s; rfl

theorem lookupTag_assignTag (m : List (String × Nat)) (k k' : String) (v : Nat) :
    lookupTag (assignTag m k v) k' = if k' = k then some v else lookupTag m k' := by
  induction m with
  | nil =>
    by_cases h : k' = k
    · simp [assignTag, lookupTag, h]
    · have h' : ¬ k = k' := fun e => h e.symm
      simp [assignTag, lookupTag, h, h']
  | cons a m ih =>
    obtain ⟨a1, a2⟩ := a
    by_cases h1 : a1 = k
    · by_cases h : k' = k
      · simp [assignTag, lookupTag, h1, h]
      · have h' : ¬ k = k' := fun e => h e.symm
        simp [assignTag, lookupTag, h1, h, h']
    · by_cases h2 : a1 = k'
      · have h : ¬ k' = k := fun e => h1 (h2.trans e)
        simp [assignTag, lookupTag, h1, h2, h]
      · simp [assignTag, lookupTag, h1, h2, ih]

theorem findIndex_append (pre post : List Ticket) (t : Ticket) (id : Nat)
    (hpre : ∀ x ∈ pre, x.id ≠ id) (ht : t.id = id) :
    findIndex (pre ++ t :: post) id = some pre.length := by
  induction pre with
  | nil => simp [findIndex, ht]
  | cons a pre ih =>
    have ha : a.id ≠ id := hpre a (List.mem_cons_self _ _)
    have ih' := ih (fun x hx => hpre x (List.mem_cons_of_mem _ hx))
    simp [findIndex, ha, ih']

theorem spliceOut_append (pre post : List Ticket) (t : Ticket) :
    spliceOut (pre ++ t :: post) pre.length = pre ++ post := by
  induction pre with
  | nil => simp [spliceOut]
  | cons a pre ih => simp [spliceOut, ih]

theorem spliceIn_append (pre post : List Ticket) (t : Ticket) :
    spliceIn (pre ++ post) pre.length t = pre ++ t :: post := by
  induction pre with
  | nil => simp [spliceIn]
  | cons a pre ih => simp [spliceIn, ih]

theorem findIndex_split (ts : List Ticket) (id i : Nat) (h : findIndex ts id = some i) :
    ∃ pre t post, ts = pre ++ t :: post ∧ pre.length = i ∧ t.id = id ∧
      ∀ x ∈ pre, x.id ≠ id := by
  induction ts generalizing i with
  | nil => simp [findIndex] at h
  | cons a ts ih =>
    by_cases ha : a.id = id
    · simp [findIndex, ha] at h
      exact ⟨[], a, ts, by simp, by simp [h], ha, by simp⟩
    · simp [findIndex, ha] at h
      obtain ⟨j, hj, hij⟩ := h
      obtain ⟨pre, t, post, hts, hlen, htid, hpre⟩ := ih j hj
      refine ⟨a :: pre, t, post, by simp [hts], by simp [hlen, hij], htid, ?_⟩
      intro x hx
      rcases List.mem_cons.mp hx with rfl | hx
      · exact ha
      · exact hpre x hx

/-- C1: when the remote call of `bulkCloseTickets(ids)` or of `bulkUpdateStatus(ids, status)`
fails, the stats aggregate after the operation equals the stats aggregate before it, field
for field (total, the five status counters, sla_breached, by_priority, by_type). -/
theorem bulk_status_failure_restores_stats (st : Store) (ids : List Nat) (newStatus : Status) (err : ApiError) :
    (bulkCloseTickets st ids (.error err)).1.stats = st.stats ∧
    (bulkUpdateStatus st ids newStatus (.error err)).1.stats = st.stats := by
  constructor <;> simp [bulkCloseTickets, bulkUpdateStatus, objectAssign_source]

theorem get?_append_length (pre post : List Ticket) (t : Ticket) :
    (pre ++ t :: post).get? pre.length = some t := by
  induction pre with
  | nil => simp
  | cons a pre ih => simpa using ih

/-- C5: when the remote call of `deleteTicket(id)` fails, the ticket collection after the
operation equals the collection before it (the removed record is back at its index, every
other record keeps its position) and the stats aggregate equals the pre-delete stats. -/
theorem deleteTicket_failure_restores (st : Store) (id : Nat) (err : ApiError) :
    (deleteTicket st id (.error err)).1.tickets = st.tickets ∧
    (deleteTicket st id (.error err)).1.stats = st.stats := by
  cases h : findIndex st.tickets id with
  | none => simp [deleteTicket, h]
  | some i =>
    obtain ⟨pre, t, post, hts, hlen, -, -⟩ := findIndex_split _ _ _ h
    subst hlen
    have hg := get?_append_length pre post t
    rw [hts] at h
    simp only [deleteTicket, hts, h, Option.bind, hg, spliceOut_append, spliceIn_append,
      and_self]

/-- C8: when the remote call of `createTicket` fails, the ticket collection and the stats
aggregate after the operation are equal to those before it. -/
theorem createTicket_failure_untouched (st : Store) (err : ApiError) :
    (createTicket st (.error err)).1.tickets = st.tickets ∧
    (createTicket st (.error err)).1.stats = st.stats := by
  simp [createTicket]

theorem mapGet_mapSet_self (c : DataCache) (k : String) (e : CacheEntry) :
    mapGet (mapSet c k e) k = some e := by
  induction c with
  | nil => simp [mapSet, mapGet]
  | cons a c ih =>
    obtain ⟨a1, a2⟩ := a
    by_cases h : a1 = k
    · simp [mapSet, mapGet, h]
    · simp [mapSet, mapGet, h, ih]

/-- What the code does: expiry of a freshly set entry is decided by `CACHE_TTL`, whatever
TTL was given to `setCachedData`. -/
theorem getCachedData_after_set (c : DataCache) (k : String) (v : Payload) (ttl : Option Nat)
    (t0 t : Nat) :
    getCachedData (setCachedData c k v ttl t0) k t =
      if t0 + 30000 < t then (mapDelete (setCachedData c k v ttl t0) k, none)
      else (setCachedData c k v ttl t0, some v) := by
  unfold getCachedData
  rw [setCachedData, mapGet_mapSet_self]
  simp only [CACHE_TTL]
  by_cases h : t0 + 30000 < t
  · have h2 : (t : Int) - (t0 : Int) > ((30000 : Nat) : Int) := by push_cast; omega
    rw [if_pos h, if_pos h2]
  · have h2 : ¬ ((t : Int) - (t0 : Int) > ((30000 : Nat) : Int)) := by push_cast; omega
    rw [if_neg h, if_neg h2]

/-- C10 (evaluation of the code where it departs from the claim): an entry set with TTL
1000 ms and read 1001 ms later is still returned and stays in the store, and an entry set
with TTL 60000 ms and read 40000 ms later is reported absent and removed; the entry's own
TTL plays no part, expiry is always decided by `CACHE_TTL` = 30000 ms. -/
theorem getCachedData_ignores_entry_ttl :
    getCachedData (setCachedData [] "k" "v" (some 1000) 5) "k" (5 + 1001) =
      (setCachedData [] "k" "v" (some 1000) 5, some "v") ∧
    getCachedData (setCachedData [] "k" "v" (some 60000) 5) "k" (5 + 40000) =
      ([], none) := by
  constructor
  · rw [getCachedData_after_set]; simp
  · rw [getCachedData_after_set]; simp [setCachedData, mapSet, mapDelete]

theorem counter_setCounter (s : TicketStats) (a b : Status) (v : Nat) :
    (s.setCounter a v).counter b = if b = a then v else s.counter b := by
  cases a <;> cases b <;> simp [TicketStats.setCounter, TicketStats.counter]

theorem setCounter_frame (s : TicketStats) (a : Status) (v : Nat) :
    (s.setCounter a v).total = s.total ∧ (s.setCounter a v).sla_breached = s.sla_breached ∧
    (s.setCounter a v).by_priority = s.by_priority ∧ (s.setCounter a v).by_type = s.by_type := by
  cases a <;> simp [TicketStats.setCounter]

theorem lookupTag_bumpTag (m : List (String × Nat)) (k k' : String) :
    lookupTag (bumpTag m k) k' = if k' = k then some (tagCount m k + 1) else lookupTag m k' := by
  unfold bumpTag tagCount
  cases h : lookupTag m k with
  | none => simp [lookupTag_assignTag]
  | some c => simp [lookupTag_assignTag]

theorem tagCount_dropTag_some (m : List (String × Nat)) (k k' : String) :
    tagCount (dropTag m (some k)) k' = if k' = k then tagCount m k - 1 else tagCount m k' := by
  simp only [dropTag, tagCount]
  cases h : lookupTag m k with
  | none =>
    by_cases hk : k' = k
    · simp [hk, h]
    · simp [hk]
  | some c =>
    by_cases hk : k' = k
    · simp [lookupTag_assignTag, hk, h]
    · simp [lookupTag_assignTag, hk]

/-- C7: a successful `createTicket` with response record `r` puts `r` at the front of the
collection (the previous records follow in their order), increases `total` by 1, increases
the counter of `r.status` (`new` when the response has none) by 1, and increases
`by_priority[r.priority]` and `by_type[r.ticket_type]` (`medium` / `incident` when the
response has none) by 1 each, an absent entry being created with count 1; every other
counter, every other tag entry and `sla_breached` are unchanged. -/
theorem createTicket_success_effect (st : Store) (r : Ticket) :
    (createTicket st (.ok r)).1.tickets = r :: st.tickets ∧
    (createTicket st (.ok r)).1.stats.total = st.stats.total + 1 ∧
    (∀ x : Status, (createTicket st (.ok r)).1.stats.counter x =
      if x = r.status.getD .s_new then st.stats.counter x + 1 else st.stats.counter x) ∧
    (∀ k : String, lookupTag (createTicket st (.ok r)).1.stats.by_priority k =
      if k = r.priority.getD "medium" then some (tagCount st.stats.by_priority k + 1)
      else lookupTag st.stats.by_priority k) ∧
    (∀ k : String, lookupTag (createTicket st (.ok r)).1.stats.by_type k =
      if k = r.ticket_type.getD "incident" then some (tagCount st.stats.by_type k + 1)
      else lookupTag st.stats.by_type k) ∧
    (createTicket st (.ok r)).1.stats.sla_breached = st.stats.sla_breached := by
  refine ⟨?_, ?_, ?_, ?_, ?_, ?_⟩
  · simp [createTicket]
  · simp [createTicket, incrementStatsForNewTicket, (setCounter_frame _ _ _).1]
  · intro x
    cases x <;> cases hs : r.status.getD .s_new <;>
      simp [createTicket, incrementStatsForNewTicket, TicketStats.setCounter,
        TicketStats.counter, hs]
  · intro k
    simp only [createTicket, incrementStatsForNewTicket, lookupTag_bumpTag,
      (setCounter_frame _ _ _).2.2.1]
    by_cases h : k = r.priority.getD "medium"
    · rw [if_pos h, if_pos h, h]
    · rw [if_neg h, if_neg h]
  · intro k
    simp only [createTicket, incrementStatsForNewTicket, lookupTag_bumpTag,
      (setCounter_frame _ _ _).2.2.2]
    by_cases h : k = r.ticket_type.getD "incident"
    · rw [if_pos h, if_pos h, h]
    · rw [if_neg h, if_neg h]
  · simp [createTicket, incrementStatsForNewTicket, (setCounter_frame _ _ _).2.1]

theorem lookupTag_dropTag (m : List (String × Nat)) (o : Option String) (k : String) :
    lookupTag (dropTag m o) k =
      if o = some k then (lookupTag m k).map (· - 1) else lookupTag m k := by
  cases o with
  | none => simp [dropTag]
  | some p =>
    simp only [dropTag]
    cases h : lookupTag m p with
    | none =>
      by_cases hk : p = k
      · subst hk; simp [h]
      · simp [hk]
    | some c =>
      by_cases hk : p = k
      · subst hk; simp [lookupTag_assignTag, h]
      · have hk' : ¬ k = p := fun e => hk e.symm
        simp [lookupTag_assignTag, hk, hk']

theorem decrement_counter (s : TicketStats) (t : Ticket) (x : Status) :
    (decrementStatsForDeletedTicket s t).counter x =
      if t.status = some x then s.counter x - 1 else s.counter x := by
  unfold decrementStatsForDeletedTicket
  cases hst : t.status with
  | none => cases x <;> simp only [TicketStats.counter] <;> split <;> simp
  | some y =>
    cases x <;> cases y <;> simp only [TicketStats.counter, TicketStats.setCounter] <;>
      split <;> simp

theorem decrement_fields (s : TicketStats) (t : Ticket) :
    (decrementStatsForDeletedTicket s t).total = s.total - 1 ∧
    (decrementStatsForDeletedTicket s t).by_priority = dropTag s.by_priority t.priority ∧
    (decrementStatsForDeletedTicket s t).by_type = dropTag s.by_type t.ticket_type ∧
    (decrementStatsForDeletedTicket s t).sla_breached =
      if t.sla_breached = true then s.sla_breached - 1 else s.sla_breached := by
  by_cases hb : t.sla_breached = true
  · by_cases h0 : 0 < s.sla_breached
    · cases hst : t.status with
      | none => simp [decrementStatsForDeletedTicket, hst, hb, h0]
      | some y =>
        cases y <;> simp [decrementStatsForDeletedTicket, hst, hb, h0, TicketStats.setCounter]
    · have hz : s.sla_breached = 0 := by omega
      cases hst : t.status with
      | none => simp [decrementStatsForDeletedTicket, hst, hb, hz]
      | some y =>
        cases y <;> simp [decrementStatsForDeletedTicket, hst, hb, hz, TicketStats.setCounter]
  · cases hst : t.status with
    | none => simp [decrementStatsForDeletedTicket, hst, hb]
    | some y =>
      cases y <;> simp [decrementStatsForDeletedTicket, hst, hb, TicketStats.setCounter]

/-- C6: when the first record with the given id is `t`, a successful `deleteTicket(id)`
removes exactly that record (the rest keep their order) and decrements `total`, the counter
of `t.status`, the `by_priority` entry of `t.priority` and the `by_type` entry of
`t.ticket_type` by one each, floored at zero, leaving every other counter and entry as it
was; `sla_breached` goes down by exactly 1 when `t.sla_breached` is true and the counter is
positive, stays 0 when it is 0, and is unchanged when `t.sla_breached` is false. -/
theorem deleteTicket_success_effect (st : Store) (id : Nat) (pre post : List Ticket) (t : Ticket)
    (hts : st.tickets = pre ++ t :: post) (hpre : ∀ x ∈ pre, x.id ≠ id) (ht : t.id = id) :
    (deleteTicket st id (.ok ())).1.tickets = pre ++ post ∧
    (deleteTicket st id (.ok ())).1.stats.total = st.stats.total - 1 ∧
    (∀ x : Status, (deleteTicket st id (.ok ())).1.stats.counter x =
      if t.status = some x then st.stats.counter x - 1 else st.stats.counter x) ∧
    (∀ k : String, lookupTag (deleteTicket st id (.ok ())).1.stats.by_priority k =
      if t.priority = some k then (lookupTag st.stats.by_priority k).map (· - 1)
      else lookupTag st.stats.by_priority k) ∧
    (∀ k : String, lookupTag (deleteTicket st id (.ok ())).1.stats.by_type k =
      if t.ticket_type = some k then (lookupTag st.stats.by_type k).map (· - 1)
      else lookupTag st.stats.by_type k) ∧
    (t.sla_breached = true → 0 < st.stats.sla_breached →
      (deleteTicket st id (.ok ())).1.stats.sla_breached + 1 = st.stats.sla_breached) ∧
    (st.stats.sla_breached = 0 → (deleteTicket st id (.ok ())).1.stats.sla_breached = 0) ∧
    (t.sla_breached = false →
      (deleteTicket st id (.ok ())).1.stats.sla_breached = st.stats.sla_breached) := by
  have hfi : findIndex (pre ++ t :: post) id = some pre.length :=
    findIndex_append pre post t id hpre ht
  have hg := get?_append_length pre post t
  have hstats : (deleteTicket st id (.ok ())).1.stats = decrementStatsForDeletedTicket st.stats t := by
    simp only [deleteTicket, hts, hfi, Option.bind, hg]
    split <;> rfl
  have htk : (deleteTicket st id (.ok ())).1.tickets = pre ++ post := by
    simp only [deleteTicket, hts, hfi, Option.bind, hg]
    split <;> simp [spliceOut_append]
  obtain ⟨h1, h2, h3, h4⟩ := decrement_fields st.stats t
  rw [hstats]
  refine ⟨htk, h1, fun x => decrement_counter _ _ x, ?_, ?_, ?_, ?_, ?_⟩
  · intro k; rw [h2, lookupTag_dropTag]
  · intro k; rw [h3, lookupTag_dropTag]
  · intro hb h0; rw [h4, if_pos hb]; omega
  · intro h0; rw [h4]; split <;> omega
  · intro hb; rw [h4]; simp [hb]

theorem modifyAt_append (pre post : List Ticket) (t : Ticket) (f : Ticket → Ticket) :
    modifyAt (pre ++ t :: post) pre.length f = pre ++ f t :: post := by
  induction pre with
  | nil => simp [modifyAt]
  | cons a pre ih => simp [modifyAt, ih]

theorem findIndex_none_iff (ts : List Ticket) (id : Nat) :
    findIndex ts id = none ↔ ∀ x ∈ ts, x.id ≠ id := by
  induction ts with
  | nil => simp [findIndex]
  | cons a ts ih =>
    by_cases ha : a.id = id
    · simp [findIndex, ha]
    · simp [findIndex, ha, ih]

/-- Shape of `updateById`: the first record with the id is rewritten, if there is one. -/
theorem updateById_cases (ts : List Ticket) (id : Nat) (f : Ticket → Ticket) :
    ((∀ x ∈ ts, x.id ≠ id) ∧ updateById ts id f = ts) ∨
    ∃ pre t post, ts = pre ++ t :: post ∧ (∀ x ∈ pre, x.id ≠ id) ∧ t.id = id ∧
      updateById ts id f = pre ++ f t :: post := by
  cases h : findIndex ts id with
  | none =>
    left
    exact ⟨(findIndex_none_iff ts id).mp h, by simp [updateById, h]⟩
  | some i =>
    right
    obtain ⟨pre, t, post, hts, hlen, htid, hpre⟩ := findIndex_split ts id i h
    subst hlen
    refine ⟨pre, t, post, hts, hpre, htid, ?_⟩
    simp only [updateById, h]
    rw [hts, modifyAt_append]

theorem map_ite_id_of_forall_ne (ts : List Ticket) (id : Nat) (f : Ticket → Ticket)
    (h : ∀ x ∈ ts, x.id ≠ id) :
    ts.map (fun t => if t.id = id then f t else t) = ts := by
  induction ts with
  | nil => rfl
  | cons a ts ih =>
    have ha : a.id ≠ id := h a (List.mem_cons_self _ _)
    simp [ha, ih (fun x hx => h x (List.mem_cons_of_mem _ hx))]

theorem updateById_eq_map (ts : List Ticket) (id : Nat) (f : Ticket → Ticket)
    (hnd : (ts.map (·.id)).Nodup) :
    updateById ts id f = ts.map (fun t => if t.id = id then f t else t) := by
  rcases updateById_cases ts id f with ⟨hne, hu⟩ | ⟨pre, t, post, hts, hpre, htid, hu⟩
  · rw [hu, map_ite_id_of_forall_ne ts id f hne]
  · rw [hu, hts]
    rw [hts] at hnd
    have hpost : ∀ x ∈ post, x.id ≠ id := by
      intro x hx hxid
      simp only [List.map_append, List.map_cons] at hnd
      have h2 := (List.nodup_append.mp hnd).2.1
      have h3 := (List.nodup_cons.mp h2).1
      apply h3
      rw [htid, ← hxid]
      exact List.mem_map_of_mem _ hx
    simp [htid, map_ite_id_of_forall_ne pre id f hpre, map_ite_id_of_forall_ne post id f hpost]

theorem map_id_updateById (ts : List Ticket) (id : Nat) (f : Ticket → Ticket)
    (hf : ∀ t, (f t).id = t.id) :
    (updateById ts id f).map (·.id) = ts.map (·.id) := by
  rcases updateById_cases ts id f with ⟨-, hu⟩ | ⟨pre, t, post, hts, -, -, hu⟩
  · rw [hu]
  · rw [hu, hts]; simp [hf]

theorem foldl_updateById_eq_map {β : Type} (key : β → Nat) (F : β → Ticket → Ticket)
    (hF : ∀ b t, (F b t).id = t.id) (O : List β) (ts : List Ticket)
    (hnd : (ts.map (·.id)).Nodup) :
    O.foldl (fun l o => updateById l (key o) (F o)) ts =
      ts.map (fun t => O.foldl (fun u o => if u.id = key o then F o u else u) t) := by
  induction O generalizing ts with
  | nil => simp
  | cons o O ih =>
    simp only [List.foldl_cons]
    have hnd' : ((updateById ts (key o) (F o)).map (·.id)).Nodup := by
      rw [map_id_updateById _ _ _ (hF o)]; exact hnd
    rw [ih _ hnd', updateById_eq_map _ _ _ hnd, List.map_map]
    rfl

theorem foldl_writeStatus (ns : Status) (A : List Ticket) (st : Store) :
    A.foldl (writeStatus ns) st =
      { st with
        tickets := (A.foldl
          (fun l a => updateById l a.id (fun t => { t with status := some ns })) st.tickets) } := by
  induction A generalizing st with
  | nil => rfl
  | cons a A ih => simp only [List.foldl_cons, ih]; rfl

theorem foldl_stats_only (f : TicketStats → Ticket → TicketStats) (A : List Ticket)
    (st : Store) :
    A.foldl (fun s ticket => { s with stats := f s.stats ticket }) st =
      { st with stats := A.foldl f st.stats } := by
  induction A generalizing st with
  | nil => rfl
  | cons a A ih => simp only [List.foldl_cons, ih]

theorem foldl_setStatus_pointwise (ns : Status) (A : List Ticket) (t : Ticket) :
    A.foldl (fun u (a : Ticket) => if u.id = a.id then { u with status := some ns } else u) t =
      if t.id ∈ A.map (·.id) then { t with status := some ns } else t := by
  induction A generalizing t with
  | nil => simp
  | cons a A ih =>
    simp only [List.foldl_cons, List.map_cons, List.mem_cons]
    by_cases h : t.id = a.id
    · rw [if_pos h, ih]
      simp [h]
    · rw [if_neg h, ih]
      simp [h]

theorem updateStats_counter (s : TicketStats) (o : Option Status) (n x : Status)
    (h : o ≠ some n) :
    (updateStatsForStatusChange s o (some n) 1).counter x =
      if x = n then s.counter x + 1
      else if o = some x then s.counter x - 1 else s.counter x := by
  cases o with
  | none => cases n <;> cases x <;>
      simp [updateStatsForStatusChange, TicketStats.setCounter, TicketStats.counter]
  | some y =>
    cases y <;> cases n <;> cases x <;>
      simp_all [updateStatsForStatusChange, TicketStats.setCounter, TicketStats.counter]

theorem updateStats_frame (s : TicketStats) (o n : Option Status) (c : Nat) :
    (updateStatsForStatusChange s o n c).total = s.total ∧
    (updateStatsForStatusChange s o n c).sla_breached = s.sla_breached ∧
    (updateStatsForStatusChange s o n c).by_priority = s.by_priority ∧
    (updateStatsForStatusChange s o n c).by_type = s.by_type := by
  cases o <;> cases n <;>
    simp [updateStatsForStatusChange, (setCounter_frame _ _ _).1, (setCounter_frame _ _ _).2.1,
      (setCounter_frame _ _ _).2.2.1, (setCounter_frame _ _ _).2.2.2]

theorem foldl_updateStats_counter (ns : Status) (A : List Ticket) (s : TicketStats)
    (hA : ∀ t ∈ A, t.status ≠ some ns) (x : Status) :
    (A.foldl (fun s (t : Ticket) => updateStatsForStatusChange s t.status (some ns) 1) s).counter x =
      if x = ns then s.counter x + A.length
      else s.counter x - A.countP (fun t => decide (t.status = some x)) := by
  induction A generalizing s with
  | nil => simp
  | cons a A ih =>
    have ha : a.status ≠ some ns := hA a (List.mem_cons_self _ _)
    have hA' : ∀ t ∈ A, t.status ≠ some ns := fun t ht => hA t (List.mem_cons_of_mem _ ht)
    simp only [List.foldl_cons]
    rw [ih _ hA', updateStats_counter _ _ _ _ ha, List.countP_cons, List.length_cons]
    by_cases hx : x = ns
    · simp only [hx, if_true]; omega
    · simp only [hx, if_false]
      by_cases hs : a.status = some x
      · simp only [hs, if_true, decide_True]; omega
      · simp only [hs, if_false, decide_False]; simp

theorem foldl_updateStats_frame (ns : Status) (A : List Ticket) (s : TicketStats) :
    (A.foldl (fun s (t : Ticket) => updateStatsForStatusChange s t.status (some ns) 1) s).total
      = s.total ∧
    (A.foldl (fun s (t : Ticket) => updateStatsForStatusChange s t.status (some ns) 1)
      s).sla_breached = s.sla_breached ∧
    (A.foldl (fun s (t : Ticket) => updateStatsForStatusChange s t.status (some ns) 1)
      s).by_priority = s.by_priority ∧
    (A.foldl (fun s (t : Ticket) => updateStatsForStatusChange s t.status (some ns) 1)
      s).by_type = s.by_type := by
  induction A generalizing s with
  | nil => simp
  | cons a A ih =>
    simp only [List.foldl_cons]
    obtain ⟨h1, h2, h3, h4⟩ := ih (updateStatsForStatusChange s a.status (some ns) 1)
    obtain ⟨g1, g2, g3, g4⟩ := updateStats_frame s a.status (some ns) 1
    exact ⟨h1.trans g1, h2.trans g2, h3.trans g3, h4.trans g4⟩

theorem bulkCloseTickets_ok (st : Store) (ids : List Nat) (data : Payload) :
    (bulkCloseTickets st ids (.ok data)).1 =
      { st with
        stats := ((st.tickets.filter
            (fun t => decide (t.id ∈ ids) && decide (t.status ≠ some .s_closed))).foldl
          (fun s (t : Ticket) => updateStatsForStatusChange s t.status (some .s_closed) 1)
          st.stats)
        tickets := ((st.tickets.filter
            (fun t => decide (t.id ∈ ids) && decide (t.status ≠ some .s_closed))).foldl
          (fun l a => updateById l a.id (fun t => { t with status := some .s_closed }))
          st.tickets) } := by
  simp only [bulkCloseTickets]
  rw [foldl_stats_only
    (fun s (t : Ticket) => updateStatsForStatusChange s t.status (some .s_closed) 1),
    foldl_writeStatus]

/-- C2: with unique ticket ids, after a successful `bulkCloseTickets(ids)` every local ticket
whose id is in `ids` has status `closed` and every other ticket is unchanged, `total` is
unchanged, the `closed` counter has grown by the number of local tickets in `ids` that were
not already closed, and each other status counter has shrunk, floored at zero, by the number
of local tickets in `ids` that held that status. -/
theorem bulkCloseTickets_success_effect (st : Store) (ids : List Nat) (data : Payload)
    (hnd : (st.tickets.map (·.id)).Nodup) :
    (bulkCloseTickets st ids (.ok data)).1.tickets =
      st.tickets.map (fun t => if t.id ∈ ids then { t with status := some .s_closed } else t) ∧
    (bulkCloseTickets st ids (.ok data)).1.stats.total = st.stats.total ∧
    (bulkCloseTickets st ids (.ok data)).1.stats.n_closed =
      st.stats.n_closed +
        st.tickets.countP (fun t => decide (t.id ∈ ids) && decide (t.status ≠ some .s_closed)) ∧
    (∀ x : Status, x ≠ .s_closed →
      (bulkCloseTickets st ids (.ok data)).1.stats.counter x =
        st.stats.counter x -
          st.tickets.countP (fun t => decide (t.id ∈ ids) && decide (t.status = some x))) := by
  have hA : ∀ t ∈ st.tickets.filter
      (fun t => decide (t.id ∈ ids) && decide (t.status ≠ some .s_closed)),
      t.status ≠ some .s_closed := by
    intro t ht
    have := (List.mem_filter.mp ht).2
    simp at this
    exact this.2
  rw [bulkCloseTickets_ok]
  simp only []
  refine ⟨?_, (foldl_updateStats_frame _ _ _).1, ?_, ?_⟩
  · rw [foldl_updateById_eq_map (fun a : Ticket => a.id)
      (fun _ t => { t with status := some .s_closed }) (fun _ _ => rfl) _ _ hnd]
    apply List.map_congr_left
    intro t ht
    rw [foldl_setStatus_pointwise]
    by_cases hin : t.id ∈ ids
    · rw [if_pos hin]
      by_cases hs : t.status = some .s_closed
      · have : ({ t with status := some .s_closed } : Ticket) = t := by
          cases t; simp_all
        rw [this]; simp
      · have hmem : t.id ∈ (st.tickets.filter
            (fun t => decide (t.id ∈ ids) && decide (t.status ≠ some .s_closed))).map (·.id) := by
          apply List.mem_map_of_mem
          exact List.mem_filter.mpr ⟨ht, by simp [hin, hs]⟩
        rw [if_pos hmem]
    · rw [if_neg hin]
      have hmem : ¬ t.id ∈ (st.tickets.filter
          (fun t => decide (t.id ∈ ids) && decide (t.status ≠ some .s_closed))).map (·.id) := by
        intro h
        obtain ⟨a, ha, hid⟩ := List.mem_map.mp h
        have := (List.mem_filter.mp ha).2
        simp at this
        exact hin (hid ▸ this.1)
      rw [if_neg hmem]
  · have := foldl_updateStats_counter .s_closed _ st.stats hA .s_closed
    simp only [TicketStats.counter, if_true] at this
    rw [this, ← List.countP_eq_length_filter]
  · intro x hx
    rw [foldl_updateStats_counter .s_closed _ st.stats hA x, if_neg hx, List.countP_filter]
    congr 2
    funext t
    by_cases hs : t.status = some x
    · have : t.status ≠ some .s_closed := by rw [hs]; simpa using hx
      simp [hs, hx]
    · simp [hs]

/-- C2 at the scenario of the spec: stats `{total: 10, new: 3, open: 4, closed: 3}`, ticket 1
`new`, ticket 2 `open`; closing both gives `{total: 10, new: 2, open: 3, closed: 5}` and both
statuses `closed`. -/
theorem bulkCloseTickets_success_effect_witness :
    (sampleStore.tickets.map (·.id)).Nodup ∧
    ((bulkCloseTickets sampleStore [1, 2] (.ok "ok")).1.tickets.map (·.status) =
      [some .s_closed, some .s_closed]) ∧
    (bulkCloseTickets sampleStore [1, 2] (.ok "ok")).1.stats.total = 10 ∧
    (bulkCloseTickets sampleStore [1, 2] (.ok "ok")).1.stats.n_closed = 5 ∧
    (bulkCloseTickets sampleStore [1, 2] (.ok "ok")).1.stats.counter .s_new = 2 ∧
    (bulkCloseTickets sampleStore [1, 2] (.ok "ok")).1.stats.counter .s_open = 3 :=
  have h := bulkCloseTickets_success_effect sampleStore [1, 2] "ok" (by decide)
  ⟨by decide, by rw [h.1]; decide, by rw [h.2.1]; decide, by rw [h.2.2.1]; decide,
    by rw [h.2.2.2 .s_new (by decide)]; decide, by rw [h.2.2.2 .s_open (by decide)]; decide⟩

theorem autoOpen_id (u : Option Nat) (t : Ticket) : (autoOpen u t).id = t.id := by
  unfold autoOpen; split <;> rfl

/-- Shape of one round of the optimistic loop of `bulkAssignTickets`. -/
theorem assignStep_cases (u : Option Nat) (st : Store) (a : Ticket) :
    ((∀ x ∈ st.tickets, x.id ≠ a.id) ∧ assignStep u st a = st) ∨
    ∃ pre t post, st.tickets = pre ++ t :: post ∧ (∀ x ∈ pre, x.id ≠ a.id) ∧ t.id = a.id ∧
      assignStep u st a =
        { st with
          tickets := pre ++ autoOpen u t :: post
          stats := if t.status = some .s_new then
              updateStatsForStatusChange st.stats (some .s_new) (some .s_open) 1
            else st.stats } := by
  cases h : findIndex st.tickets a.id with
  | none =>
    left
    exact ⟨(findIndex_none_iff _ _).mp h, by simp [assignStep, h]⟩
  | some i =>
    right
    obtain ⟨pre, t, post, hts, hlen, htid, hpre⟩ := findIndex_split _ _ _ h
    subst hlen
    refine ⟨pre, t, post, hts, hpre, htid, ?_⟩
    simp only [assignStep, h]
    rw [hts, modifyAt_append]
    have hg := get?_append_length pre post ({ t with assigned_to_id := u })
    rw [hg]
    by_cases hs : t.status = some .s_new
    · simp only [Option.bind, hs, if_true]
      rw [modifyAt_append]
      simp [autoOpen, hs]
    · simp only [Option.bind, hs, if_false]
      simp [autoOpen, hs]

theorem assignStep_tickets (u : Option Nat) (st : Store) (a : Ticket) :
    (assignStep u st a).tickets = updateById st.tickets a.id (autoOpen u) := by
  rcases assignStep_cases u st a with ⟨hne, hu⟩ | ⟨pre, t, post, hts, hpre, htid, hu⟩
  · rw [hu]
    have : findIndex st.tickets a.id = none := (findIndex_none_iff _ _).mpr hne
    simp [updateById, this]
  · rw [hu]
    have hfi := findIndex_append pre post t a.id hpre htid
    simp only [updateById, hts, hfi, modifyAt_append]

theorem foldl_assignStep_tickets (u : Option Nat) (A : List Ticket) (st : Store) :
    (A.foldl (assignStep u) st).tickets =
      A.foldl (fun l (a : Ticket) => updateById l a.id (autoOpen u)) st.tickets := by
  induction A generalizing st with
  | nil => rfl
  | cons a A ih => simp only [List.foldl_cons, ih, assignStep_tickets]

theorem foldl_restoreAssignment (O : List OriginalState) (st : Store) :
    O.foldl restoreAssignment st =
      { st with
        tickets := (O.foldl (fun l (o : OriginalState) => updateById l o.id (fun t =>
          { t with assigned_to_id := o.assigned_to_id, status := o.status })) st.tickets) } := by
  induction O generalizing st with
  | nil => rfl
  | cons o O ih => simp only [List.foldl_cons, ih]; rfl

theorem foldl_step_id {β : Type} (key : β → Nat) (F : β → Ticket → Ticket)
    (hF : ∀ b t, (F b t).id = t.id) (O : List β) (t : Ticket) :
    (O.foldl (fun u o => if u.id = key o then F o u else u) t).id = t.id := by
  induction O generalizing t with
  | nil => rfl
  | cons o O ih =>
    simp only [List.foldl_cons]
    rw [ih]
    split
    · exact hF o t
    · rfl

theorem foldl_step_noop {β : Type} (key : β → Nat) (F : β → Ticket → Ticket)
    (O : List β) (t : Ticket) (h : ∀ o ∈ O, key o ≠ t.id) :
    O.foldl (fun u o => if u.id = key o then F o u else u) t = t := by
  induction O generalizing t with
  | nil => rfl
  | cons o O ih =>
    simp only [List.foldl_cons]
    have ho : ¬ t.id = key o := fun e => h o (List.mem_cons_self _ _) e.symm
    rw [if_neg ho]
    exact ih t (fun o' ho' => h o' (List.mem_cons_of_mem _ ho'))

/-- The optimistic loop of `bulkAssignTickets` changes at most the assignee and the status of
a record. -/
theorem foldl_autoOpen_fields (u : Option Nat) (A : List Ticket) (t : Ticket) :
    ∃ x y, A.foldl (fun v (a : Ticket) => if v.id = a.id then autoOpen u v else v) t =
      { t with assigned_to_id := x, status := y } := by
  induction A generalizing t with
  | nil => exact ⟨t.assigned_to_id, t.status, rfl⟩
  | cons a A ih =>
    simp only [List.foldl_cons]
    by_cases h : t.id = a.id
    · rw [if_pos h]
      obtain ⟨x, y, hxy⟩ := ih (autoOpen u t)
      refine ⟨x, y, ?_⟩
      rw [hxy]
      unfold autoOpen
      split <;> rfl
    · rw [if_neg h]; exact ih t

/-- The rollback loop of `bulkAssignTickets` puts the saved assignee and status back. -/
theorem foldl_restore_pointwise (A : List Ticket) (t v : Ticket)
    (hv : ∃ x y, v = { t with assigned_to_id := x, status := y })
    (huniq : ∀ a ∈ A, a.id = t.id → a = t) :
    (A.map (fun a => ({ id := a.id, assigned_to_id := a.assigned_to_id, status := a.status } :
        OriginalState))).foldl
      (fun w (o : OriginalState) => if w.id = o.id then
        { w with assigned_to_id := o.assigned_to_id, status := o.status } else w) v =
      if t.id ∈ A.map (·.id) then t else v := by
  induction A generalizing v with
  | nil => simp
  | cons a A ih =>
    obtain ⟨x, y, hxy⟩ := hv
    have hvid : v.id = t.id := by rw [hxy]
    simp only [List.map_cons, List.foldl_cons, List.mem_cons]
    have huniq' : ∀ b ∈ A, b.id = t.id → b = t :=
      fun b hb => huniq b (List.mem_cons_of_mem _ hb)
    by_cases h : v.id = a.id
    · have hat : a = t := huniq a (List.mem_cons_self _ _) (h.symm.trans hvid)
      rw [if_pos h]
      have hback : ({ v with assigned_to_id := a.assigned_to_id, status := a.status } : Ticket)
          = t := by
        rw [hat, hxy]
      rw [hback, ih t ⟨t.assigned_to_id, t.status, rfl⟩ huniq']
      simp [hat]
    · rw [if_neg h, ih v ⟨x, y, hxy⟩ huniq']
      have : ¬ t.id = a.id := fun e => h (hvid.trans e)
      simp [this]

/-- C4: with unique ticket ids, when the remote call of `bulkAssignTickets(ids, userId)`
fails, the collection after the operation is the collection before it: the same records in
the same order, each with the assignee and the status it had. -/
theorem bulkAssignTickets_failure_restores_tickets (st : Store) (ids : List Nat) (userId : Option Nat) (err : ApiError)
    (hnd : (st.tickets.map (·.id)).Nodup) :
    (bulkAssignTickets st ids userId (.error err)).1.tickets = st.tickets := by
  simp only [bulkAssignTickets, foldl_restoreAssignment, foldl_assignStep_tickets]
  rw [foldl_updateById_eq_map (fun a : Ticket => a.id) (fun _ => autoOpen userId)
    (fun _ t => autoOpen_id userId t) _ _ hnd]
  rw [foldl_updateById_eq_map (fun o : OriginalState => o.id)
    (fun o t => { t with assigned_to_id := o.assigned_to_id, status := o.status })
    (fun _ _ => rfl)]
  · rw [List.map_map]
    conv_rhs => rw [← List.map_id st.tickets]
    apply List.map_congr_left
    intro t ht
    simp only [Function.comp, id]
    have huniq : ∀ a ∈ st.tickets.filter (fun t => decide (t.id ∈ ids)), a.id = t.id → a = t :=
      fun a ha hid =>
        List.inj_on_of_nodup_map hnd (List.mem_filter.mp ha).1 ht hid
    rw [foldl_restore_pointwise _ t _ (foldl_autoOpen_fields userId _ t) huniq]
    split
    · rfl
    · rename_i hmem
      apply foldl_step_noop (fun a : Ticket => a.id) (fun _ => autoOpen userId)
      intro o ho hid
      exact hmem (hid ▸ List.mem_map_of_mem _ ho)
  · rw [List.map_map]
    have : ((fun x : Ticket => x.id) ∘ fun t =>
        List.foldl (fun u (o : Ticket) => if u.id = o.id then autoOpen userId u else u) t
          (st.tickets.filter (fun t => decide (t.id ∈ ids)))) = fun x => x.id := by
      funext t
      exact foldl_step_id (fun a : Ticket => a.id) (fun _ => autoOpen userId)
        (fun _ t => autoOpen_id userId t) _ t
    rw [this]; exact hnd

/-- C4 at the sample store: the `new` ticket 1 and the `open` ticket 2, assigned to user 9. -/
theorem bulkAssignTickets_failure_restores_tickets_witness :
    (sampleStore.tickets.map (·.id)).Nodup ∧
    (bulkAssignTickets sampleStore [1, 2] (some 9) (.error { detail := none })).1.tickets =
      [sampleT1, sampleT2] :=
  ⟨by decide,
    bulkAssignTickets_failure_restores_tickets sampleStore [1, 2] (some 9) { detail := none }
      (by decide)⟩

/-- C3 (evaluation of the code where it departs from the claim): on the sample store, whose
stats have `new` = 3 and `open` = 4, a failed `bulkAssignTickets([1], 9)` puts ticket 1 back
to `new` and unassigned but leaves the stats at `new` = 2 and `open` = 5: the counter
transition of the optimistic auto-open is not undone. -/
theorem bulkAssignTickets_failure_keeps_stats_edit :
    (bulkAssignTickets sampleStore [1] (some 9) (.error { detail := none })).1.tickets =
      sampleStore.tickets ∧
    sampleStore.stats.n_new = 3 ∧ sampleStore.stats.n_open = 4 ∧
    (bulkAssignTickets sampleStore [1] (some 9) (.error { detail := none })).1.stats.n_new = 2 ∧
    (bulkAssignTickets sampleStore [1] (some 9) (.error { detail := none })).1.stats.n_open = 5 ∧
    (bulkAssignTickets sampleStore [1] (some 9) (.error { detail := none })).1.stats ≠
      sampleStore.stats := by
  decide

/-- C6 at the sample store: deleting ticket 1, the first record, whose SLA is breached. -/
theorem deleteTicket_success_effect_witness :
    sampleStore.tickets = [] ++ sampleT1 :: [sampleT2] ∧
    (deleteTicket sampleStore 1 (.ok ())).1.tickets = [sampleT2] ∧
    (deleteTicket sampleStore 1 (.ok ())).1.stats.total = 9 ∧
    (deleteTicket sampleStore 1 (.ok ())).1.stats.counter .s_new = 2 ∧
    (deleteTicket sampleStore 1 (.ok ())).1.stats.sla_breached + 1 = 1 :=
  have h := deleteTicket_success_effect sampleStore 1 [] [sampleT2] sampleT1 rfl
    (by simp) rfl
  ⟨rfl, h.1, h.2.1, by rw [h.2.2.1]; decide, h.2.2.2.2.2.1 rfl (by decide)⟩

/-! ## The stats invariant -/

theorem tagSum_assignTag (m : List (String × Nat)) (k : String) (v : Nat) :
    tagSum (assignTag m k v) + tagCount m k = tagSum m + v := by
  induction m with
  | nil => simp [assignTag, tagSum, tagCount, lookupTag]
  | cons a m ih =>
    obtain ⟨a1, a2⟩ := a
    by_cases h : a1 = k
    · simp [assignTag, tagSum, tagCount, lookupTag, h]; omega
    · simp only [tagSum, tagCount] at ih
      simp [assignTag, tagSum, tagCount, lookupTag, h]; omega

theorem tagSum_bumpTag (m : List (String × Nat)) (k : String) :
    tagSum (bumpTag m k) = tagSum m + 1 := by
  have h := tagSum_assignTag m k
  unfold bumpTag
  cases hl : lookupTag m k with
  | none =>
    have := h 1
    simp [tagCount, hl] at this
    simpa using this
  | some c =>
    have := h (c + 1)
    simp [tagCount, hl] at this
    simp only []
    omega

theorem tagSum_raiseTag (m : List (String × Nat)) (k : String) :
    tagSum (raiseTag m k) = tagSum m + 1 := by
  have h := tagSum_assignTag m k (tagCount m k + 1)
  unfold raiseTag
  unfold tagCount at h
  omega

theorem tagSum_dropTag (m : List (String × Nat)) (p : String) (h : 1 ≤ tagCount m p) :
    tagSum (dropTag m (some p)) + 1 = tagSum m := by
  simp only [dropTag]
  cases hl : lookupTag m p with
  | none => simp [tagCount, hl] at h
  | some c =>
    have h1 := tagSum_assignTag m p (c - 1)
    simp [tagCount, hl] at h h1
    simp only []
    omega

theorem tagCount_raiseTag (m : List (String × Nat)) (n k : String) :
    tagCount (raiseTag m n) k = if k = n then tagCount m k + 1 else tagCount m k := by
  unfold raiseTag tagCount
  rw [lookupTag_assignTag]
  by_cases h : k = n
  · simp [h]
  · simp [h]

/-- The sum of the five status counters. -/
theorem statusSum_updateStats (s : TicketStats) (x n : Status) (hx : x ≠ n)
    (h1 : 1 ≤ s.counter x) :
    (updateStatsForStatusChange s (some x) (some n) 1).n_new +
      (updateStatsForStatusChange s (some x) (some n) 1).n_open +
      (updateStatsForStatusChange s (some x) (some n) 1).n_pending +
      (updateStatsForStatusChange s (some x) (some n) 1).n_resolved +
      (updateStatsForStatusChange s (some x) (some n) 1).n_closed =
    s.n_new + s.n_open + s.n_pending + s.n_resolved + s.n_closed := by
  cases x <;> cases n <;>
    simp_all [updateStatsForStatusChange, TicketStats.setCounter, TicketStats.counter] <;>
    omega

theorem statsConsistent_updateStats (s : TicketStats) (x n : Status) (hx : x ≠ n)
    (h1 : 1 ≤ s.counter x) (hs : statsConsistent s) :
    statsConsistent (updateStatsForStatusChange s (some x) (some n) 1) := by
  obtain ⟨a, b, c⟩ := hs
  obtain ⟨g1, -, g3, g4⟩ := updateStats_frame s (some x) (some n) 1
  refine ⟨?_, ?_, ?_⟩
  · rw [g1, statusSum_updateStats s x n hx h1]; exact a
  · rw [g1, g3]; exact b
  · rw [g1, g4]; exact c

theorem statsConsistent_increment (s : TicketStats) (x : Status) (p k : String)
    (hs : statsConsistent s) : statsConsistent (incrementStatsForNewTicket s x p k) := by
  obtain ⟨a, b, c⟩ := hs
  refine ⟨?_, ?_, ?_⟩
  · cases x <;> simp [incrementStatsForNewTicket, TicketStats.setCounter, TicketStats.counter] <;>
      omega
  · cases x <;>
      simp [incrementStatsForNewTicket, TicketStats.setCounter, tagSum_bumpTag] <;> omega
  · cases x <;>
      simp [incrementStatsForNewTicket, TicketStats.setCounter, tagSum_bumpTag] <;> omega

theorem statsConsistent_decrement (s : TicketStats) (t : Ticket) (x : Status) (p k : String)
    (hx : t.status = some x) (hp : t.priority = some p) (hk : t.ticket_type = some k)
    (h1 : 1 ≤ s.counter x) (h2 : 1 ≤ tagCount s.by_priority p) (h3 : 1 ≤ tagCount s.by_type k)
    (hs : statsConsistent s) : statsConsistent (decrementStatsForDeletedTicket s t) := by
  obtain ⟨a, b, c⟩ := hs
  obtain ⟨g1, g2, g3, -⟩ := decrement_fields s t
  have e2 := tagSum_dropTag _ _ h2
  have e3 := tagSum_dropTag _ _ h3
  have cn := decrement_counter s t
  have c1 := cn .s_new
  have c2 := cn .s_open
  have c3 := cn .s_pending
  have c4 := cn .s_resolved
  have c5 := cn .s_closed
  simp only [TicketStats.counter, hx] at c1 c2 c3 c4 c5
  refine ⟨?_, ?_, ?_⟩
  · rw [g1, c1, c2, c3, c4, c5]
    cases x <;> simp [TicketStats.counter] at h1 ⊢ <;> omega
  · rw [g1, g2, hp]; omega
  · rw [g1, g3, hk]; omega

theorem statsCover_mem (st : Store) (h : statsCover st = true) (t : Ticket)
    (ht : t ∈ st.tickets) :
    ∃ x p k, t.status = some x ∧ t.priority = some p ∧ t.ticket_type = some k ∧
      st.tickets.countP (fun u => decide (u.status = some x)) ≤ st.stats.counter x ∧
      st.tickets.countP (fun u => decide (u.priority = some p)) ≤
        tagCount st.stats.by_priority p ∧
      st.tickets.countP (fun u => decide (u.ticket_type = some k)) ≤
        tagCount st.stats.by_type k := by
  unfold statsCover at h
  have h1 := List.all_eq_true.mp h t ht
  cases hx : t.status with
  | none => simp [hx] at h1
  | some x =>
    cases hp : t.priority with
    | none => simp [hx, hp] at h1
    | some p =>
      cases hk : t.ticket_type with
      | none => simp [hx, hp, hk] at h1
      | some k =>
        simp only [hx, hp, hk, Bool.and_eq_true, decide_eq_true_eq] at h1
        exact ⟨x, p, k, rfl, rfl, rfl, h1.1.1, h1.1.2, h1.2⟩

theorem statsCover_pos (st : Store) (h : statsCover st = true) (t : Ticket)
    (ht : t ∈ st.tickets) :
    ∃ x p k, t.status = some x ∧ t.priority = some p ∧ t.ticket_type = some k ∧
      1 ≤ st.stats.counter x ∧ 1 ≤ tagCount st.stats.by_priority p ∧
      1 ≤ tagCount st.stats.by_type k := by
  obtain ⟨x, p, k, hx, hp, hk, c1, c2, c3⟩ := statsCover_mem st h t ht
  refine ⟨x, p, k, hx, hp, hk, ?_, ?_, ?_⟩
  · exact le_trans (List.countP_pos_iff.mpr ⟨t, ht, by simp [hx]⟩) c1
  · exact le_trans (List.countP_pos_iff.mpr ⟨t, ht, by simp [hp]⟩) c2
  · exact le_trans (List.countP_pos_iff.mpr ⟨t, ht, by simp [hk]⟩) c3

theorem findTicket_mem (ts : List Ticket) (id : Nat) (t : Ticket)
    (h : findTicket ts id = some t) : t ∈ ts := by
  induction ts with
  | nil => simp [findTicket] at h
  | cons a ts ih =>
    by_cases ha : a.id = id
    · simp [findTicket, ha] at h
      simp [h]
    · simp [findTicket, ha] at h
      exact List.mem_cons_of_mem _ (ih h)

theorem createTicket_consistent (st : Store) (r : Ticket) (hs : statsConsistent st.stats) :
    statsConsistent (createTicket st (.ok r)).1.stats := by
  simp only [createTicket]
  exact statsConsistent_increment _ _ _ _ hs

theorem deleteTicket_consistent (st : Store) (id : Nat) (hs : statsConsistent st.stats)
    (hc : statsCover st = true) :
    statsConsistent (deleteTicket st id (.ok ())).1.stats := by
  cases h : findIndex st.tickets id with
  | none =>
    have : (deleteTicket st id (.ok ())).1.stats = st.stats := by
      simp only [deleteTicket, h, Option.bind]
      split <;> rfl
    rw [this]; exact hs
  | some i =>
    obtain ⟨pre, t, post, hts, hlen, -, -⟩ := findIndex_split _ _ _ h
    subst hlen
    have hg := get?_append_length pre post t
    have hmem : t ∈ st.tickets := by rw [hts]; simp
    have : (deleteTicket st id (.ok ())).1.stats = decrementStatsForDeletedTicket st.stats t := by
      rw [hts] at h
      simp only [deleteTicket, hts, h, Option.bind, hg]
      split <;> rfl
    rw [this]
    obtain ⟨x, p, k, hx, hp, hk, c1, c2, c3⟩ := statsCover_pos st hc t hmem
    exact statsConsistent_decrement _ _ x p k hx hp hk c1 c2 c3 hs

/-- The shared tail of `resolveTicket`, `closeTicket` and `reopenTicket`. -/
theorem transition_consistent (st : Store) (ticketId : Nat) (target : Status)
    (hs : statsConsistent st.stats) (hc : statsCover st = true) :
    statsConsistent
      (if ((findTicket st.tickets ticketId).bind (·.status)).isSome ∧
          (findTicket st.tickets ticketId).bind (·.status) ≠ some target then
        updateStatsForStatusChange st.stats ((findTicket st.tickets ticketId).bind (·.status))
          (some target) 1
      else st.stats) := by
  split
  · rename_i hcond
    cases hf : findTicket st.tickets ticketId with
    | none => simp [hf] at hcond
    | some t =>
      obtain ⟨x, p, k, hx, -, -, c1, -, -⟩ :=
        statsCover_pos st hc t (findTicket_mem _ _ _ hf)
      simp only [hf, Option.bind, hx] at hcond ⊢
      have hne : x ≠ target := by
        intro e; exact hcond.2 (by rw [e])
      exact statsConsistent_updateStats _ _ _ hne c1 hs
  · exact hs

theorem resolveTicket_consistent (st : Store) (ticketId : Nat) (data : Payload) (d : Ticket)
    (hs : statsConsistent st.stats) (hc : statsCover st = true) :
    statsConsistent (resolveTicket st ticketId (.ok data) (.ok d)).1.stats := by
  have := transition_consistent st ticketId .s_resolved hs hc
  simp only [resolveTicket, fetchTicket]
  split <;> simp_all

theorem closeTicket_consistent (st : Store) (ticketId : Nat) (data : Payload) (d : Ticket)
    (hs : statsConsistent st.stats) (hc : statsCover st = true) :
    statsConsistent (closeTicket st ticketId (.ok data) (.ok d)).1.stats := by
  have := transition_consistent st ticketId .s_closed hs hc
  simp only [closeTicket, fetchTicket]
  split <;> simp_all

theorem reopenTicket_consistent (st : Store) (ticketId : Nat) (data : Payload) (d : Ticket)
    (hs : statsConsistent st.stats) (hc : statsCover st = true) :
    statsConsistent (reopenTicket st ticketId (.ok data) (.ok d)).1.stats := by
  have := transition_consistent st ticketId .s_open hs hc
  simp only [reopenTicket, fetchTicket]
  split <;> simp_all

theorem countP_filter_le (p q : Ticket → Bool) (ts : List Ticket) :
    (ts.filter q).countP p ≤ ts.countP p :=
  List.Sublist.countP_le p (List.filter_sublist ts)

/-- The optimistic counter loop of `bulkCloseTickets` / `bulkUpdateStatus` keeps the
invariant when every counter covers the tickets still to be moved. -/
theorem foldl_updateStats_consistent (ns : Status) (A : List Ticket) (s : TicketStats)
    (hA : ∀ t ∈ A, ∃ x, t.status = some x ∧ x ≠ ns)
    (hcov : ∀ x, A.countP (fun t => decide (t.status = some x)) ≤ s.counter x)
    (hs : statsConsistent s) :
    statsConsistent
      (A.foldl (fun s (t : Ticket) => updateStatsForStatusChange s t.status (some ns) 1) s) := by
  induction A generalizing s with
  | nil => exact hs
  | cons a A ih =>
    obtain ⟨x, hx, hne⟩ := hA a (List.mem_cons_self _ _)
    have hA' : ∀ t ∈ A, ∃ x, t.status = some x ∧ x ≠ ns :=
      fun t ht => hA t (List.mem_cons_of_mem _ ht)
    have h1 : 1 ≤ s.counter x := by
      have := hcov x
      rw [List.countP_cons] at this
      simp only [hx, decide_True, if_true] at this
      omega
    simp only [List.foldl_cons]
    rw [hx]
    apply ih _ hA'
    · intro y
      have hy := hcov y
      rw [List.countP_cons] at hy
      rw [updateStats_counter _ _ _ _ (by simpa using hne)]
      by_cases hyn : y = ns
      · rw [if_pos hyn]; omega
      · rw [if_neg hyn]
        by_cases hxy : x = y
        · subst hxy
          simp only [hx, decide_True, if_true] at hy ⊢
          omega
        · have hxy' : ¬ (some x = some y) := by simpa using hxy
          have hay : ¬ (a.status = some y) := by rw [hx]; exact hxy'
          simp only [hay, decide_False, if_false, hxy'] at hy ⊢
          simpa using hy
    · exact statsConsistent_updateStats _ _ _ hne h1 hs

theorem bulkUpdateStatus_ok (st : Store) (ids : List Nat) (ns : Status) (data : Payload) :
    (bulkUpdateStatus st ids ns (.ok data)).1 =
      { st with
        stats := ((st.tickets.filter
            (fun t => decide (t.id ∈ ids) && decide (t.status ≠ some ns))).foldl
          (fun s (t : Ticket) => updateStatsForStatusChange s t.status (some ns) 1)
          st.stats)
        tickets := ((st.tickets.filter
            (fun t => decide (t.id ∈ ids) && decide (t.status ≠ some ns))).foldl
          (fun l a => updateById l a.id (fun t => { t with status := some ns }))
          st.tickets) } := by
  simp only [bulkUpdateStatus]
  rw [foldl_stats_only
    (fun s (t : Ticket) => updateStatsForStatusChange s t.status (some ns) 1),
    foldl_writeStatus]

theorem bulkStatus_fold_consistent (st : Store) (ids : List Nat) (ns : Status)
    (hs : statsConsistent st.stats) (hc : statsCover st = true) :
    statsConsistent
      ((st.tickets.filter (fun t => decide (t.id ∈ ids) && decide (t.status ≠ some ns))).foldl
        (fun s (t : Ticket) => updateStatsForStatusChange s t.status (some ns) 1) st.stats) := by
  apply foldl_updateStats_consistent _ _ _ _ _ hs
  · intro t ht
    obtain ⟨hmem, hp⟩ := List.mem_filter.mp ht
    obtain ⟨x, p, k, hx, -⟩ := statsCover_mem st hc t hmem
    refine ⟨x, hx, ?_⟩
    intro e
    simp [hx, e] at hp
  · intro x
    by_cases h0 : (st.tickets.filter
        (fun t => decide (t.id ∈ ids) && decide (t.status ≠ some ns))).countP
        (fun t => decide (t.status = some x)) = 0
    · omega
    · obtain ⟨t, ht, hp⟩ := List.countP_pos_iff.mp (Nat.pos_of_ne_zero h0)
      have hmem := (List.mem_filter.mp ht).1
      obtain ⟨x', p, k, hx', -, -, c1, -, -⟩ := statsCover_mem st hc t hmem
      have : x' = x := by
        have : t.status = some x := by simpa using hp
        rw [hx'] at this
        exact Option.some.inj this
      subst this
      exact le_trans (countP_filter_le _ _ _) c1

theorem bulkCloseTickets_consistent (st : Store) (ids : List Nat) (data : Payload)
    (hs : statsConsistent st.stats) (hc : statsCover st = true) :
    statsConsistent (bulkCloseTickets st ids (.ok data)).1.stats := by
  rw [bulkCloseTickets_ok]
  exact bulkStatus_fold_consistent st ids .s_closed hs hc

theorem bulkUpdateStatus_consistent (st : Store) (ids : List Nat) (ns : Status)
    (data : Payload) (hs : statsConsistent st.stats) (hc : statsCover st = true) :
    statsConsistent (bulkUpdateStatus st ids ns (.ok data)).1.stats := by
  rw [bulkUpdateStatus_ok]
  exact bulkStatus_fold_consistent st ids ns hs hc

theorem autoOpen_status (u : Option Nat) (t : Ticket) :
    (autoOpen u t).status = if t.status = some .s_new then some .s_open else t.status := by
  unfold autoOpen; split <;> rfl

/-- The optimistic loop of `bulkAssignTickets` keeps the invariant as long as the `new`
counter covers the local `new` tickets. -/
theorem foldl_assignStep_consistent (u : Option Nat) (A : List Ticket) (st : Store)
    (hcov : st.tickets.countP (fun t => decide (t.status = some .s_new)) ≤ st.stats.n_new)
    (hs : statsConsistent st.stats) :
    statsConsistent (A.foldl (assignStep u) st).stats := by
  induction A generalizing st with
  | nil => exact hs
  | cons a A ih =>
    simp only [List.foldl_cons]
    rcases assignStep_cases u st a with ⟨-, hu⟩ | ⟨pre, t, post, hts, -, -, hu⟩
    · rw [hu]; exact ih st hcov hs
    · rw [hu]
      rw [hts] at hcov
      simp only [List.countP_append, List.countP_cons] at hcov
      by_cases hn : t.status = some .s_new
      · simp only [hn, decide_True, if_true] at hcov ⊢
        apply ih
        · simp only [List.countP_append, List.countP_cons, autoOpen_status, hn, if_true]
          have := updateStats_counter st.stats (some .s_new) .s_open .s_new (by decide)
          simp only [TicketStats.counter] at this
          rw [this]
          simp
          omega
        · exact statsConsistent_updateStats _ _ _ (by decide)
            (by simp only [TicketStats.counter]; omega) hs
      · simp only [hn, decide_False, if_false] at hcov ⊢
        apply ih
        · simp only [List.countP_append, List.countP_cons, autoOpen_status, hn, if_false,
            decide_False]
          exact hcov
        · exact hs

theorem statsCover_new (st : Store) (hc : statsCover st = true) :
    st.tickets.countP (fun t => decide (t.status = some .s_new)) ≤ st.stats.n_new := by
  by_cases h0 : st.tickets.countP (fun t => decide (t.status = some .s_new)) = 0
  · omega
  · obtain ⟨t, ht, hp⟩ := List.countP_pos_iff.mp (Nat.pos_of_ne_zero h0)
    obtain ⟨x, p, k, hx, -, -, c1, -, -⟩ := statsCover_mem st hc t ht
    have : x = .s_new := by
      have h2 : t.status = some .s_new := by simpa using hp
      rw [hx] at h2
      exact Option.some.inj h2
    subst this
    exact c1

theorem bulkAssignTickets_consistent (st : Store) (ids : List Nat) (u : Option Nat)
    (data : Payload) (hs : statsConsistent st.stats) (hc : statsCover st = true) :
    statsConsistent (bulkAssignTickets st ids u (.ok data)).1.stats := by
  simp only [bulkAssignTickets]
  exact foldl_assignStep_consistent u _ st (statsCover_new st hc) hs

theorem priorityStep_stats (n : String) (st : Store) (a : Ticket) :
    (priorityStep n st a).stats = st.stats ∨
    (priorityStep n st a).stats =
      { st.stats with by_priority := raiseTag (dropTag st.stats.by_priority a.priority) n } := by
  unfold priorityStep
  cases findIndex st.tickets a.id with
  | none => left; rfl
  | some i => right; rfl

theorem statsConsistent_priorityStep_edit (s : TicketStats) (p n : String)
    (h1 : 1 ≤ tagCount s.by_priority p) (hs : statsConsistent s) :
    statsConsistent { s with by_priority := raiseTag (dropTag s.by_priority (some p)) n } := by
  obtain ⟨a, b, c⟩ := hs
  have e1 := tagSum_dropTag _ _ h1
  have e2 := tagSum_raiseTag (dropTag s.by_priority (some p)) n
  refine ⟨?_, ?_, ?_⟩ <;> simp only [] <;> omega

/-- The optimistic loop of `bulkUpdatePriority` keeps the invariant when every `by_priority` count
covers the tickets still to be retagged. -/
theorem foldl_priorityStep_consistent (n : String) (A : List Ticket) (st : Store)
    (hA : ∀ t ∈ A, ∃ p, t.priority = some p)
    (hcov : ∀ k, A.countP (fun t => decide (t.priority = some k)) ≤ tagCount st.stats.by_priority k)
    (hs : statsConsistent st.stats) :
    statsConsistent (A.foldl (priorityStep n) st).stats := by
  induction A generalizing st with
  | nil => exact hs
  | cons a A ih =>
    obtain ⟨p, hp⟩ := hA a (List.mem_cons_self _ _)
    have hA' : ∀ t ∈ A, ∃ p, t.priority = some p :=
      fun t ht => hA t (List.mem_cons_of_mem _ ht)
    simp only [List.foldl_cons]
    rcases priorityStep_stats n st a with h | h
    · apply ih _ hA'
      · intro k
        rw [h]
        have := hcov k
        rw [List.countP_cons] at this
        omega
      · rw [h]; exact hs
    · have h1 : 1 ≤ tagCount st.stats.by_priority p := by
        have := hcov p
        rw [List.countP_cons] at this
        simp only [hp, decide_True, if_true] at this
        omega
      apply ih _ hA'
      · intro k
        rw [h, hp]
        simp only []
        rw [tagCount_raiseTag, tagCount_dropTag_some]
        have hk := hcov k
        rw [List.countP_cons] at hk
        by_cases hkp : k = p
        · subst hkp
          simp only [hp, decide_True, if_true] at hk
          simp only [if_true]
          split <;> omega
        · have hne : ¬ (a.priority = some k) := by
            rw [hp]; intro e; exact hkp (Option.some.inj e).symm
          simp only [hne, decide_False, if_false, hkp] at hk ⊢
          split <;> omega
      · rw [h, hp]
        exact statsConsistent_priorityStep_edit _ _ _ h1 hs

theorem bulkUpdatePriority_consistent (st : Store) (ids : List Nat) (n : String) (data : Payload)
    (refetch : Except ApiError TicketStats) (hs : statsConsistent st.stats)
    (hc : statsCover st = true) :
    statsConsistent (bulkUpdatePriority st ids n (.ok data) refetch).1.stats := by
  simp only [bulkUpdatePriority]
  apply foldl_priorityStep_consistent _ _ _ _ _ hs
  · intro t ht
    obtain ⟨x, p, k, -, hp, hk, -⟩ := statsCover_mem st hc t (List.mem_filter.mp ht).1
    exact ⟨_, hp⟩
  · intro q
    by_cases h0 : (st.tickets.filter (fun t => decide (t.id ∈ ids))).countP
        (fun t => decide (t.priority = some q)) = 0
    · omega
    · obtain ⟨t, ht, hq⟩ := List.countP_pos_iff.mp (Nat.pos_of_ne_zero h0)
      obtain ⟨x, p, k, -, hp, hk, -, c2, c3⟩ :=
        statsCover_mem st hc t (List.mem_filter.mp ht).1
      have hq' : t.priority = some q := by simpa using hq
      rw [hp] at hq'
      have := Option.some.inj hq'
      subst this
      exact le_trans (countP_filter_le _ _ _) c2

theorem typeStep_stats (n : String) (st : Store) (a : Ticket) :
    (typeStep n st a).stats = st.stats ∨
    (typeStep n st a).stats =
      { st.stats with by_type := raiseTag (dropTag st.stats.by_type a.ticket_type) n } := by
  unfold typeStep
  cases findIndex st.tickets a.id with
  | none => left; rfl
  | some i => right; rfl

theorem statsConsistent_typeStep_edit (s : TicketStats) (p n : String)
    (h1 : 1 ≤ tagCount s.by_type p) (hs : statsConsistent s) :
    statsConsistent { s with by_type := raiseTag (dropTag s.by_type (some p)) n } := by
  obtain ⟨a, b, c⟩ := hs
  have e1 := tagSum_dropTag _ _ h1
  have e2 := tagSum_raiseTag (dropTag s.by_type (some p)) n
  refine ⟨?_, ?_, ?_⟩ <;> simp only [] <;> omega

/-- The optimistic loop of `bulkUpdateType` keeps the invariant when every `by_type` count
covers the tickets still to be retagged. -/
theorem foldl_typeStep_consistent (n : String) (A : List Ticket) (st : Store)
    (hA : ∀ t ∈ A, ∃ p, t.ticket_type = some p)
    (hcov : ∀ k, A.countP (fun t => decide (t.ticket_type = some k)) ≤ tagCount st.stats.by_type k)
    (hs : statsConsistent st.stats) :
    statsConsistent (A.foldl (typeStep n) st).stats := by
  induction A generalizing st with
  | nil => exact hs
  | cons a A ih =>
    obtain ⟨p, hp⟩ := hA a (List.mem_cons_self _ _)
    have hA' : ∀ t ∈ A, ∃ p, t.ticket_type = some p :=
      fun t ht => hA t (List.mem_cons_of_mem _ ht)
    simp only [List.foldl_cons]
    rcases typeStep_stats n st a with h | h
    · apply ih _ hA'
      · intro k
        rw [h]
        have := hcov k
        rw [List.countP_cons] at this
        omega
      · rw [h]; exact hs
    · have h1 : 1 ≤ tagCount st.stats.by_type p := by
        have := hcov p
        rw [List.countP_cons] at this
        simp only [hp, decide_True, if_true] at this
        omega
      apply ih _ hA'
      · intro k
        rw [h, hp]
        simp only []
        rw [tagCount_raiseTag, tagCount_dropTag_some]
        have hk := hcov k
        rw [List.countP_cons] at hk
        by_cases hkp : k = p
        · subst hkp
          simp only [hp, decide_True, if_true] at hk
          simp only [if_true]
          split <;> omega
        · have hne : ¬ (a.ticket_type = some k) := by
            rw [hp]; intro e; exact hkp (Option.some.inj e).symm
          simp only [hne, decide_False, if_false, hkp] at hk ⊢
          split <;> omega
      · rw [h, hp]
        exact statsConsistent_typeStep_edit _ _ _ h1 hs

theorem bulkUpdateType_consistent (st : Store) (ids : List Nat) (n : String) (data : Payload)
    (refetch : Except ApiError TicketStats) (hs : statsConsistent st.stats)
    (hc : statsCover st = true) :
    statsConsistent (bulkUpdateType st ids n (.ok data) refetch).1.stats := by
  simp only [bulkUpdateType]
  apply foldl_typeStep_consistent _ _ _ _ _ hs
  · intro t ht
    obtain ⟨x, p, k, -, hp, hk, -⟩ := statsCover_mem st hc t (List.mem_filter.mp ht).1
    exact ⟨_, hk⟩
  · intro q
    by_cases h0 : (st.tickets.filter (fun t => decide (t.id ∈ ids))).countP
        (fun t => decide (t.ticket_type = some q)) = 0
    · omega
    · obtain ⟨t, ht, hq⟩ := List.countP_pos_iff.mp (Nat.pos_of_ne_zero h0)
      obtain ⟨x, p, k, -, hp, hk, -, c2, c3⟩ :=
        statsCover_mem st hc t (List.mem_filter.mp ht).1
      have hq' : t.ticket_type = some q := by simpa using hq
      rw [hk] at hq'
      have := Option.some.inj hq'
      subst this
      exact le_trans (countP_filter_le _ _ _) c3

/-- C9 as stated fails: the stats of `staleStore` satisfy the three equalities
(10 = 3 + 4 + 0 + 0 + 3 = 6 + 4 = 5 + 5), and after a successful `deleteTicket(1)` of its
`pending` ticket `total` is 9 while the status counters, `pending` being floored at 0, still
sum to 10. -/
theorem stats_invariant_broken_by_floor :
    statsConsistent staleStore.stats ∧
    (deleteTicket staleStore 1 (.ok ())).1.stats.total = 9 ∧
    (deleteTicket staleStore 1 (.ok ())).1.stats.n_pending = 0 ∧
    ¬ statsConsistent (deleteTicket staleStore 1 (.ok ())).1.stats := by
  unfold statsConsistent
  decide

/-- C9, amended: in every store state whose stats satisfy the three equalities (`total` = sum
of the five status counters = sum of the `by_priority` counts = sum of the `by_type` counts),
the state reached by a successful `createTicket` satisfies them again; and when moreover the
stats account for the local collection (`statsCover`), so does the state reached by a
successful `deleteTicket`, `resolveTicket`, `closeTicket`, `reopenTicket`, `bulkCloseTickets`,
`bulkUpdateStatus`, `bulkAssignTickets`, `bulkUpdatePriority` or `bulkUpdateType`. -/
theorem stats_invariant_preserved_when_covered (st : Store)
    (hs : statsConsistent st.stats) :
    (∀ r : Ticket, statsConsistent (createTicket st (.ok r)).1.stats) ∧
    (statsCover st = true →
      (∀ id : Nat, statsConsistent (deleteTicket st id (.ok ())).1.stats) ∧
      (∀ (id : Nat) (data : Payload) (d : Ticket),
        statsConsistent (resolveTicket st id (.ok data) (.ok d)).1.stats) ∧
      (∀ (id : Nat) (data : Payload) (d : Ticket),
        statsConsistent (closeTicket st id (.ok data) (.ok d)).1.stats) ∧
      (∀ (id : Nat) (data : Payload) (d : Ticket),
        statsConsistent (reopenTicket st id (.ok data) (.ok d)).1.stats) ∧
      (∀ (ids : List Nat) (data : Payload),
        statsConsistent (bulkCloseTickets st ids (.ok data)).1.stats) ∧
      (∀ (ids : List Nat) (newStatus : Status) (data : Payload),
        statsConsistent (bulkUpdateStatus st ids newStatus (.ok data)).1.stats) ∧
      (∀ (ids : List Nat) (userId : Option Nat) (data : Payload),
        statsConsistent (bulkAssignTickets st ids userId (.ok data)).1.stats) ∧
      (∀ (ids : List Nat) (newPriority : String) (data : Payload)
          (refetch : Except ApiError TicketStats),
        statsConsistent (bulkUpdatePriority st ids newPriority (.ok data) refetch).1.stats) ∧
      (∀ (ids : List Nat) (newType : String) (data : Payload)
          (refetch : Except ApiError TicketStats),
        statsConsistent (bulkUpdateType st ids newType (.ok data) refetch).1.stats)) := by
  refine ⟨fun r => createTicket_consistent st r hs, fun hc => ⟨?_, ?_, ?_, ?_, ?_, ?_, ?_, ?_, ?_⟩⟩
  · exact fun id => deleteTicket_consistent st id hs hc
  · exact fun id data d => resolveTicket_consistent st id data d hs hc
  · exact fun id data d => closeTicket_consistent st id data d hs hc
  · exact fun id data d => reopenTicket_consistent st id data d hs hc
  · exact fun ids data => bulkCloseTickets_consistent st ids data hs hc
  · exact fun ids ns data => bulkUpdateStatus_consistent st ids ns data hs hc
  · exact fun ids u data => bulkAssignTickets_consistent st ids u data hs hc
  · exact fun ids n data refetch => bulkUpdatePriority_consistent st ids n data refetch hs hc
  · exact fun ids n data refetch => bulkUpdateType_consistent st ids n data refetch hs hc

/-- C9, amended, at the sample store, whose stats satisfy the invariant and cover its two
tickets: the invariant holds after deleting ticket 1, after closing tickets 1 and 2 in bulk
and after retagging both to priority `urgent`. -/
theorem stats_invariant_preserved_when_covered_witness :
    statsConsistent sampleStore.stats ∧ statsCover sampleStore = true ∧
    statsConsistent (deleteTicket sampleStore 1 (.ok ())).1.stats ∧
    statsConsistent (bulkCloseTickets sampleStore [1, 2] (.ok "ok")).1.stats ∧
    statsConsistent
      (bulkUpdatePriority sampleStore [1, 2] "urgent" (.ok "ok")
        (.error { detail := none })).1.stats :=
  have hs : statsConsistent sampleStore.stats := by unfold statsConsistent; decide
  have h := (stats_invariant_preserved_when_covered sampleStore hs).2 (by decide)
  ⟨hs, by decide, h.1 1, h.2.2.2.2.1 [1, 2] "ok",
    h.2.2.2.2.2.2.2.1 [1, 2] "urgent" "ok" (.error { detail := none })⟩

/-! ## Data cache -/

/-- C11: for every cache state, key, value and TTL, `getCachedData(k)` performed at the
timestamp of the preceding `setCachedData(k, v, t)` returns `v` and leaves the store as the
set left it, whether or not `k` was present (fresh or expired) before the set. -/
theorem getCachedData_setCachedData_roundtrip (c : DataCache) (k : String) (v : Payload)
    (ttl : Option Nat) (now : Nat) :
    getCachedData (setCachedData c k v ttl now) k now =
      (setCachedData c k v ttl now, some v) := by
  rw [getCachedData_after_set, if_neg (by omega)]

theorem mapSet_fresh (c : DataCache) (k : String) (e : CacheEntry)
    (h : k ∉ c.map Prod.fst) : mapSet c k e = c ++ [(k, e)] := by
  induction c with
  | nil => rfl
  | cons a c ih =>
    obtain ⟨a1, a2⟩ := a
    simp only [List.map_cons, List.mem_cons, not_or] at h
    have h1 : ¬ a1 = k := fun e => h.1 e.symm
    simp [mapSet, h1, ih h.2]

theorem foldl_keep_eq_filter (pre : String) (rest acc : DataCache)
    (hnd : ((acc ++ rest).map Prod.fst).Nodup) :
    rest.foldl
      (fun newCache kv => if startsWith kv.1 pre then newCache else mapSet newCache kv.1 kv.2)
      acc = acc ++ rest.filter (fun kv => !startsWith kv.1 pre) := by
  induction rest generalizing acc with
  | nil => simp
  | cons a rest ih =>
    simp only [List.foldl_cons]
    by_cases hp : startsWith a.1 pre = true
    · rw [if_pos hp]
      have hnd' : ((acc ++ rest).map Prod.fst).Nodup := by
        simp only [List.map_append, List.map_cons] at hnd ⊢
        exact (List.nodup_middle.mp hnd).of_cons
      rw [ih acc hnd']
      simp [List.filter_cons, hp]
    · rw [if_neg hp]
      have hfresh : a.1 ∉ acc.map Prod.fst := by
        simp only [List.map_append, List.map_cons] at hnd
        have := (List.nodup_middle.mp hnd)
        have h2 := (List.nodup_cons.mp this).1
        intro hmem
        exact h2 (List.mem_append_left _ hmem)
      rw [mapSet_fresh acc a.1 a.2 hfresh]
      have hnd' : (((acc ++ [(a.1, a.2)]) ++ rest).map Prod.fst).Nodup := by
        simpa using hnd
      rw [ih _ hnd']
      simp [List.filter_cons, hp]

/-- C12: for every cache (a `Map`, so with pairwise distinct keys) and every prefix,
after `invalidateCachePrefix` the store holds exactly the entries of the previous store whose
key does not start with the prefix, each with its value, timestamp and TTL and in the same
relative order; no key starting with the prefix remains. -/
theorem invalidateCachePrefix_keeps_others (c : DataCache) (pre : String)
    (hnd : (c.map Prod.fst).Nodup) :
    invalidateCachePrefix c pre = c.filter (fun kv => !startsWith kv.1 pre) ∧
    ∀ kv ∈ invalidateCachePrefix c pre, startsWith kv.1 pre = false := by
  have h : invalidateCachePrefix c pre = c.filter (fun kv => !startsWith kv.1 pre) := by
    unfold invalidateCachePrefix
    rw [foldl_keep_eq_filter pre c [] (by simpa using hnd)]
    simp
  refine ⟨h, ?_⟩
  intro kv hkv
  rw [h] at hkv
  simpa using (List.mem_filter.mp hkv).2

/-- C12 at the prefix `ticket:`: of the three sample entries only `user:2` remains. -/
theorem invalidateCachePrefix_keeps_others_witness :
    (sampleCache.map Prod.fst).Nodup ∧
    invalidateCachePrefix sampleCache "ticket:" =
      [("user:2", { data := "b", timestamp := 0, ttl := 30000 })] :=
  ⟨by decide,
    (invalidateCachePrefix_keeps_others sampleCache "ticket:" (by decide)).1.trans (by decide)⟩

theorem mapGet_mapSet_other (c : DataCache) (k k' : String) (e : CacheEntry) (h : k' ≠ k) :
    mapGet (mapSet c k e) k' = mapGet c k' := by
  have h3 : ¬ k = k' := fun e => h e.symm
  induction c with
  | nil => simp [mapSet, mapGet, h3]
  | cons a c ih =>
    obtain ⟨a1, a2⟩ := a
    by_cases h1 : a1 = k
    · subst h1
      simp [mapSet, mapGet, h3]
    · by_cases h2 : a1 = k'
      · subst h2
        simp [mapSet, mapGet, h]
      · simp [mapSet, mapGet, h1, h2, ih]

theorem mapGet_mapDelete_other (c : DataCache) (k k' : String) (h : k' ≠ k) :
    mapGet (mapDelete c k) k' = mapGet c k' := by
  have h3 : ¬ k = k' := fun e => h e.symm
  induction c with
  | nil => rfl
  | cons a c ih =>
    obtain ⟨a1, a2⟩ := a
    by_cases h1 : a1 = k
    · subst h1
      simp [mapDelete, mapGet, h3]
    · by_cases h2 : a1 = k'
      · subst h2
        simp [mapDelete, mapGet, h]
      · simp [mapDelete, mapGet, h1, h2, ih]

/-- What `getCachedData` does to the store: nothing, or the removal of the entry read,
the latter only for an entry older than `CACHE_TTL`; entries under other keys stay. -/
theorem getCachedData_store (c : DataCache) (k : String) (now : Nat) :
    ((getCachedData c k now).1 = c ∨
      ((getCachedData c k now).1 = mapDelete c k ∧
        ∃ e, mapGet c k = some e ∧ e.timestamp + CACHE_TTL < now)) ∧
    ∀ k', k' ≠ k → mapGet (getCachedData c k now).1 k' = mapGet c k' := by
  cases h : mapGet c k with
  | none =>
    have hval : getCachedData c k now = (c, none) := by simp only [getCachedData, h]
    rw [hval]
    exact ⟨Or.inl rfl, fun _ _ => rfl⟩
  | some e =>
    by_cases hx : (now : Int) - (e.timestamp : Int) > (CACHE_TTL : Int)
    · have hval : getCachedData c k now = (mapDelete c k, none) := by
        simp only [getCachedData, h, if_pos hx]
      rw [hval]
      exact ⟨Or.inr ⟨rfl, e, rfl, by omega⟩, fun k' hk => mapGet_mapDelete_other c k k' hk⟩
    · have hval : getCachedData c k now = (c, some e.data) := by
        simp only [getCachedData, h, if_neg hx]
      rw [hval]
      exact ⟨Or.inl rfl, fun _ _ => rfl⟩

/-- C13 (evaluation of the code where it departs from the claim): the sample entry
`ticket:1` was set at time 0 with a TTL of 60000 ms, so at time 40000 it has not expired;
`getCachedData('ticket:1')` at that time nevertheless removes it from the store and reports
it absent. The entries under the other keys stay in place. -/
theorem getCachedData_removes_unexpired_entry :
    mapGet sampleCache "ticket:1" = some { data := "a", timestamp := 0, ttl := 60000 } ∧
    40000 - 0 ≤ 60000 ∧
    getCachedData sampleCache "ticket:1" 40000 =
      ([("user:2", { data := "b", timestamp := 0, ttl := 30000 }),
        ("ticket:3", { data := "c", timestamp := 10, ttl := 30000 })], none) := by
  decide

/-! ## Overlay stack -/

theorem freezeTop_nil : freezeTop [] = [] := rfl

theorem freezeTop_concat (init : List OverlayEntry) (top : OverlayEntry) :
    freezeTop (init ++ [top]) =
      (top.freezeCallback.map (fun f => Effect.invoke .freeze init.length f)).toList := by
  cases h : top.freezeCallback <;> simp [freezeTop, h]

theorem unfreezeTop_nil : unfreezeTop [] = [] := rfl

theorem unfreezeTop_concat (init : List OverlayEntry) (top : OverlayEntry) :
    unfreezeTop (init ++ [top]) =
      (top.unfreezeCallback.map (fun u => Effect.invoke .unfreeze init.length u)).toList := by
  cases h : top.unfreezeCallback <;> simp [unfreezeTop, h]

/-- C14: `registerOverlay(type, closeHandler)` yields the stack it found followed by one new
entry with that type and close handler and no freeze or unfreeze handler, so `overlayCount`
grows by exactly 1 and the earlier entries are unchanged. When the stack it found is
non-empty and its top entry has a freeze handler, that handler is called exactly once, before
the new stack is written, and nothing else is called; in every other case nothing is
called at all. -/
theorem registerOverlay_effect (s : List OverlayEntry) (type : String) (closeHandler now : Nat) :
    (registerOverlay s type closeHandler now).1 =
      s ++ [{ type := type, closeHandler := some closeHandler, timestamp := now,
              freezeCallback := none, unfreezeCallback := none }] ∧
    overlayCount (registerOverlay s type closeHandler now).1 = overlayCount s + 1 ∧
    (s = [] →
      (registerOverlay s type closeHandler now).2 =
        [.assign (registerOverlay s type closeHandler now).1]) ∧
    (∀ init top, s = init ++ [top] → top.freezeCallback = none →
      (registerOverlay s type closeHandler now).2 =
        [.assign (registerOverlay s type closeHandler now).1]) ∧
    (∀ init top f, s = init ++ [top] → top.freezeCallback = some f →
      (registerOverlay s type closeHandler now).2 =
        [.invoke .freeze init.length f,
         .assign (registerOverlay s type closeHandler now).1]) := by
  refine ⟨rfl, by simp [registerOverlay, overlayCount], ?_, ?_, ?_⟩
  · intro h
    subst h
    simp [registerOverlay, freezeTop_nil]
  · intro init top h hf
    subst h
    simp only [registerOverlay, freezeTop_concat, hf]
    rfl
  · intro init top f h hf
    subst h
    simp only [registerOverlay, freezeTop_concat, hf]
    rfl

/-- C14 at the scenario of the spec: two registrations from the empty stack give
`overlayCount` 2; the first calls nothing, the second calls nothing either because
`modal-a` has no freeze handler yet, and a registration over `modal-a` with its freeze handler
11 attached calls that handler once, first. -/
theorem registerOverlay_effect_witness :
    overlayCount (registerOverlay (registerOverlay [] "modal-a" 1 100).1 "modal-b" 2 200).1
      = 2 ∧
    (registerOverlay [] "modal-a" 1 100).2 = [.assign (registerOverlay [] "modal-a" 1 100).1] ∧
    (registerOverlay (registerOverlay [] "modal-a" 1 100).1 "modal-b" 2 200).2 =
      [.assign (registerOverlay (registerOverlay [] "modal-a" 1 100).1 "modal-b" 2 200).1] ∧
    (registerOverlay [sampleOverlayA] "modal-b" 2 200).2 =
      [.invoke .freeze 0 11, .assign (registerOverlay [sampleOverlayA] "modal-b" 2 200).1] :=
  ⟨(registerOverlay_effect (registerOverlay [] "modal-a" 1 100).1 "modal-b" 2 200).2.1.trans
      (by decide),
    (registerOverlay_effect [] "modal-a" 1 100).2.2.1 rfl,
    (registerOverlay_effect (registerOverlay [] "modal-a" 1 100).1 "modal-b" 2 200).2.2.2.1
      [] _ rfl rfl,
    (registerOverlay_effect [sampleOverlayA] "modal-b" 2 200).2.2.2.2 [] sampleOverlayA 11
      rfl rfl⟩

theorem findLastIndex_none_iff (s : List OverlayEntry) (type : String) :
    findLastIndex s type = none ↔ ∀ x ∈ s, x.type ≠ type := by
  induction s with
  | nil => simp [findLastIndex]
  | cons a s ih =>
    simp only [findLastIndex]
    cases h : findLastIndex s type with
    | some i =>
      simp only [false_iff, reduceCtorEq]
      intro hall
      exact absurd (ih.mpr (fun x hx => hall x (List.mem_cons_of_mem _ hx))) (by simp [h])
    | none =>
      have hs := ih.mp h
      by_cases ha : a.type = type
      · simp [ha]
      · simp only [ha, if_false, true_iff]
        intro x hx
        rcases List.mem_cons.mp hx with rfl | hx
        · exact ha
        · exact hs x hx

theorem findLastIndex_append (pre post : List OverlayEntry) (e : OverlayEntry) (type : String)
    (he : e.type = type) (hpost : ∀ x ∈ post, x.type ≠ type) :
    findLastIndex (pre ++ e :: post) type = some pre.length := by
  have hnone := (findLastIndex_none_iff post type).mpr hpost
  induction pre with
  | nil => simp [findLastIndex, hnone, he]
  | cons a pre ih => simp [findLastIndex, ih]

theorem findLastIndex_split (s : List OverlayEntry) (type : String) (i : Nat)
    (h : findLastIndex s type = some i) :
    ∃ pre e post, s = pre ++ e :: post ∧ pre.length = i ∧ e.type = type ∧
      ∀ x ∈ post, x.type ≠ type := by
  induction s generalizing i with
  | nil => simp [findLastIndex] at h
  | cons a s ih =>
    simp only [findLastIndex] at h
    cases hs : findLastIndex s type with
    | some j =>
      rw [hs] at h
      obtain ⟨pre, e, post, hsp, hlen, he, hpost⟩ := ih j hs
      refine ⟨a :: pre, e, post, by simp [hsp], ?_, he, hpost⟩
      simp only [List.length_cons, hlen]
      exact Option.some.inj h
    | none =>
      rw [hs] at h
      by_cases ha : a.type = type
      · simp only [ha, if_true] at h
        refine ⟨[], a, s, rfl, ?_, ha, (findLastIndex_none_iff s type).mp hs⟩
        simpa using Option.some.inj h
      · simp [ha] at h

theorem eraseIdx_append_length (pre post : List OverlayEntry) (e : OverlayEntry) :
    (pre ++ e :: post).eraseIdx pre.length = pre ++ post := by
  induction pre with
  | nil => rfl
  | cons a pre ih => simp [List.eraseIdx, ih]

/-- C15: `unregisterOverlay(type)` removes exactly one entry, the one at the greatest index
whose type is the given one, and leaves every other entry, with its handlers, in its relative
position; when no entry has that type the stack is unchanged, nothing is written and no
handler is called. -/
theorem unregisterOverlay_removes_last_match (s : List OverlayEntry) (type : String) :
    (∀ pre e post, s = pre ++ e :: post → e.type = type → (∀ x ∈ post, x.type ≠ type) →
      (unregisterOverlay s type).1 = pre ++ post) ∧
    ((∀ x ∈ s, x.type ≠ type) → unregisterOverlay s type = (s, [])) := by
  constructor
  · intro pre e post hs he hpost
    subst hs
    simp only [unregisterOverlay, findLastIndex_append pre post e type he hpost,
      eraseIdx_append_length]
  · intro hall
    simp only [unregisterOverlay, (findLastIndex_none_iff s type).mpr hall]

/-- C16: when `unregisterOverlay(type)` removes an entry, the new stack is written first;
then, if that stack is non-empty and its top entry has an unfreeze handler, that handler is
called exactly once; no close handler, no freeze handler and no handler of an entry below the
top is called. -/
theorem unregisterOverlay_unfreezes_new_top (s pre post : List OverlayEntry) (e : OverlayEntry)
    (type : String) (hs : s = pre ++ e :: post) (he : e.type = type)
    (hpost : ∀ x ∈ post, x.type ≠ type) :
    (pre ++ post = [] → (unregisterOverlay s type).2 = [.assign []]) ∧
    (∀ init top, pre ++ post = init ++ [top] → top.unfreezeCallback = none →
      (unregisterOverlay s type).2 = [.assign (pre ++ post)]) ∧
    (∀ init top u, pre ++ post = init ++ [top] → top.unfreezeCallback = some u →
      (unregisterOverlay s type).2 =
        [.assign (pre ++ post), .invoke .unfreeze init.length u]) := by
  subst hs
  have hlog : (unregisterOverlay (pre ++ e :: post) type).2 =
      .assign (pre ++ post) :: unfreezeTop (pre ++ post) := by
    simp only [unregisterOverlay, findLastIndex_append pre post e type he hpost,
      eraseIdx_append_length]
  rw [hlog]
  refine ⟨?_, ?_, ?_⟩
  · intro h
    rw [h, unfreezeTop_nil]
  · intro init top h hu
    rw [h, unfreezeTop_concat, hu]; rfl
  · intro init top u h hu
    rw [h, unfreezeTop_concat, hu]; rfl

/-- C15 at the scenario of the spec: on `[modal-a, modal-b]`, `unregisterOverlay('modal-a')`
leaves `[modal-b]`, the entry of `modal-b` being the one it was, callbacks included; a type
that is not on the stack changes nothing and calls nothing. -/
theorem unregisterOverlay_removes_last_match_witness :
    (unregisterOverlay [sampleOverlayA, sampleOverlayB] "modal-a").1 = [sampleOverlayB] ∧
    unregisterOverlay [sampleOverlayA, sampleOverlayB] "modal-c" =
      ([sampleOverlayA, sampleOverlayB], []) :=
  ⟨(unregisterOverlay_removes_last_match [sampleOverlayA, sampleOverlayB] "modal-a").1
      [] sampleOverlayA [sampleOverlayB] rfl rfl (by decide),
    (unregisterOverlay_removes_last_match [sampleOverlayA, sampleOverlayB] "modal-c").2
      (by decide)⟩

/-- C16 at three stacks: removing the only entry calls nothing; removing `modal-a` from under
an entry without unfreeze handler calls nothing; removing `modal-a` from under `modal-b`
calls the unfreeze handler 22 of `modal-b`, once, after the write. -/
theorem unregisterOverlay_unfreezes_new_top_witness :
    (unregisterOverlay [sampleOverlayA] "modal-a").2 = [.assign []] ∧
    (unregisterOverlay [sampleOverlayA, { sampleOverlayB with unfreezeCallback := none }]
      "modal-a").2 = [.assign [{ sampleOverlayB with unfreezeCallback := none }]] ∧
    (unregisterOverlay [sampleOverlayA, sampleOverlayB] "modal-a").2 =
      [.assign [sampleOverlayB], .invoke .unfreeze 0 22] :=
  ⟨(unregisterOverlay_unfreezes_new_top [sampleOverlayA] [] [] sampleOverlayA "modal-a"
      rfl rfl (by decide)).1 rfl,
    (unregisterOverlay_unfreezes_new_top
      [sampleOverlayA, { sampleOverlayB with unfreezeCallback := none }] []
      [{ sampleOverlayB with unfreezeCallback := none }] sampleOverlayA "modal-a"
      rfl rfl (by decide)).2.1 [] _ rfl rfl,
    (unregisterOverlay_unfreezes_new_top [sampleOverlayA, sampleOverlayB] []
      [sampleOverlayB] sampleOverlayA "modal-a" rfl rfl (by decide)).2.2 [] sampleOverlayB 22
      rfl rfl⟩

theorem closeEach_reverse (s : List OverlayEntry) :
    closeEach s.reverse =
      (List.range s.length).reverse.filterMap
        (fun i => ((s.get? i).bind (·.closeHandler)).map (fun h => Effect.invoke .close i h)) := by
  induction s using List.reverseRecOn with
  | nil => rfl
  | append_singleton init top ih =>
    rw [List.reverse_append, List.reverse_singleton, List.singleton_append, closeEach, ih,
      List.length_append, List.length_singleton, List.range_succ, List.reverse_append,
      List.reverse_singleton, List.singleton_append, List.filterMap_cons, List.length_reverse]
    have htop : (init ++ [top]).get? init.length = some top := by simp
    have hrest : (List.range init.length).reverse.filterMap
        (fun i => (((init ++ [top]).get? i).bind (·.closeHandler)).map
          (fun h => Effect.invoke .close i h)) =
        (List.range init.length).reverse.filterMap
        (fun i => ((init.get? i).bind (·.closeHandler)).map
          (fun h => Effect.invoke .close i h)) := by
      apply List.filterMap_congr
      intro i hi
      have hlt : i < init.length := by simpa using hi
      have : (init ++ [top]).get? i = init.get? i := by
        simp [List.getElem?_append_left hlt]
      rw [this]
    rw [hrest, htop]
    cases hc : top.closeHandler <;> simp [hc]

/-- C17: `closeAllOverlays()` calls the close handler of every entry that has one exactly
once, from the top of the stack (the greatest index) to the bottom, calls no freeze or
unfreeze handler, then writes the empty stack: `overlayCount` is 0 and `hasActiveOverlay`
is false afterwards. -/
theorem closeAllOverlays_effect (s : List OverlayEntry) :
    (closeAllOverlays s).1 = [] ∧
    overlayCount (closeAllOverlays s).1 = 0 ∧
    hasActiveOverlay (closeAllOverlays s).1 = false ∧
    (closeAllOverlays s).2 =
      (List.range s.length).reverse.filterMap
        (fun i => ((s.get? i).bind (·.closeHandler)).map (fun h => Effect.invoke .close i h))
      ++ [.assign []] := by
  refine ⟨rfl, rfl, rfl, ?_⟩
  simp only [closeAllOverlays, closeEach_reverse]

/-- The sample stack `[modal-a, modal-b]`: handler 2 of `modal-b` is called first, then
handler 1 of `modal-a`, then the empty stack is written. -/
theorem closeAllOverlays_sample :
    (closeAllOverlays [sampleOverlayA, sampleOverlayB]).2 =
      [.invoke .close 1 2, .invoke .close 0 1, .assign []] := by
  decide

/-! ## The overlay invariant -/

theorem set_last_true (k : Nat) :
    (List.replicate k true ++ [false]).set k true = List.replicate (k + 1) true := by
  induction k with
  | zero => rfl
  | succ k ih => simp only [List.replicate_succ, List.cons_append, List.set_cons_succ, ih]

theorem set_last_false (k : Nat) :
    (List.replicate (k + 1) true).set k false = List.replicate k true ++ [false] := by
  induction k with
  | zero => rfl
  | succ k ih =>
    rw [List.replicate_succ, List.set_cons_succ, ih]
    rfl

theorem set_last_false_again (k : Nat) :
    (List.replicate k true ++ [false]).set k false = List.replicate k true ++ [false] := by
  induction k with
  | zero => rfl
  | succ k ih => simp only [List.replicate_succ, List.cons_append, List.set_cons_succ, ih]

theorem eraseIdx_flag_below (a b : Nat) :
    (List.replicate (a + 1 + b) true ++ [false]).eraseIdx a =
      List.replicate (a + b) true ++ [false] := by
  induction a with
  | zero =>
    have : 0 + 1 + b = b + 1 := by omega
    rw [this, List.replicate_succ]
    simp
  | succ a ih =>
    have h1 : a + 1 + 1 + b = (a + 1 + b) + 1 := by omega
    have h2 : a + 1 + b = (a + b) + 1 := by omega
    rw [h1, List.replicate_succ, List.cons_append, List.eraseIdx_cons_succ, ih, h2,
      List.replicate_succ]
    rfl

theorem eraseIdx_flag_top (k : Nat) :
    (List.replicate k true ++ [false]).eraseIdx k = List.replicate k true := by
  induction k with
  | zero => rfl
  | succ k ih =>
    rw [List.replicate_succ, List.cons_append, List.eraseIdx_cons_succ, ih]

theorem eq_nil_or_snoc {α : Type} (l : List α) : l = [] ∨ ∃ init top, l = init ++ [top] := by
  rcases List.eq_nil_or_concat l with h | ⟨init, top, h⟩
  · exact Or.inl h
  · exact Or.inr ⟨init, top, by rw [h, List.concat_eq_append]⟩

theorem foldl_applyEffect_assign (flags : List Bool) (s : List OverlayEntry) :
    [Effect.assign s].foldl applyEffect flags = flags := rfl

/-- The invariant carried along a run: every entry has both handlers attached, and the
flags read `true, …, true, false`. -/
theorem reachable_flags (t : Tracked) (h : Reachable t) :
    (∀ e ∈ t.stack, ∃ f u, e.freezeCallback = some f ∧ e.unfreezeCallback = some u) ∧
    t.frozen = List.replicate (t.stack.length - 1) true ++
      List.replicate (min t.stack.length 1) false := by
  induction h with
  | empty => exact ⟨by simp, rfl⟩
  | register t type c now f u _ ih =>
    obtain ⟨hcb, hfl⟩ := ih
    rcases eq_nil_or_snoc t.stack with hs | ⟨init, top, hs⟩
    · rw [hs] at hfl
      simp only [List.length_nil, Nat.zero_sub, List.replicate_zero, List.append_nil,
        Nat.zero_min] at hfl
      have hst : (t.register type c now f u) =
          { stack := [{ type := type, closeHandler := some c, timestamp := now,
                        freezeCallback := some f, unfreezeCallback := some u }],
            frozen := [false] } := by
        simp [Tracked.register, registerOverlay, setOverlayCallbacks, hs, hfl, freezeTop,
          applyEffect]
      rw [hst]
      refine ⟨?_, rfl⟩
      intro e he
      simp only [List.mem_singleton] at he
      subst he
      exact ⟨f, u, rfl, rfl⟩
    · obtain ⟨f0, u0, hf0, -⟩ := hcb top (by rw [hs]; simp)
      rw [hs] at hfl
      have hfl' : t.frozen = List.replicate init.length true ++ [false] := by
        rw [hfl]; simp
      have hst : (t.register type c now f u) =
          { stack := (init ++ [top]) ++
              [{ type := type, closeHandler := some c, timestamp := now,
                 freezeCallback := some f, unfreezeCallback := some u }],
            frozen := List.replicate (init.length + 1) true ++ [false] } := by
        simp only [Tracked.register, registerOverlay, setOverlayCallbacks, hs,
          freezeTop_concat, hf0, List.getLast?_concat, List.dropLast_concat, hfl',
          Option.map_some', Option.toList_some, List.singleton_append, List.foldl_cons,
          List.foldl_nil, applyEffect, set_last_true]
      rw [hst]
      refine ⟨?_, by simp⟩
      intro e he
      rcases List.mem_append.mp he with he | he
      · exact hcb e (by rw [hs]; exact he)
      · simp only [List.mem_singleton] at he
        subst he
        exact ⟨f, u, rfl, rfl⟩
  | unregister t type _ ih =>
    obtain ⟨hcb, hfl⟩ := ih
    cases hfi : findLastIndex t.stack type with
    | none =>
      have hst : t.unregister type = t := by
        simp [Tracked.unregister, unregisterOverlay, hfi]
      rw [hst]
      exact ⟨hcb, hfl⟩
    | some i =>
      obtain ⟨pre, e, post, hs, hlen, -, -⟩ := findLastIndex_split _ _ _ hfi
      subst hlen
      have hfi' := hfi
      rw [hs] at hfi'
      have hstack : (t.unregister type).stack = pre ++ post := by
        simp [Tracked.unregister, unregisterOverlay, hfi', hs, eraseIdx_append_length]
      have hfrozen : (t.unregister type).frozen =
          (unfreezeTop (pre ++ post)).foldl applyEffect (t.frozen.eraseIdx pre.length) := by
        simp [Tracked.unregister, unregisterOverlay, hfi', hs, eraseIdx_append_length,
          applyEffect]
      have hcb' : ∀ x ∈ pre ++ post,
          ∃ f u, x.freezeCallback = some f ∧ x.unfreezeCallback = some u := by
        intro x hx
        apply hcb x
        rw [hs]
        rcases List.mem_append.mp hx with hx | hx
        · exact List.mem_append_left _ hx
        · exact List.mem_append_right _ (List.mem_cons_of_mem _ hx)
      rw [hstack, hfrozen]
      refine ⟨hcb', ?_⟩
      rw [hs] at hfl
      rcases eq_nil_or_snoc post with hp | ⟨post', last, hp⟩
      · subst hp
        have hfl' : t.frozen = List.replicate pre.length true ++ [false] := by
          rw [hfl]; simp
        rw [hfl', eraseIdx_flag_top, List.append_nil]
        rcases eq_nil_or_snoc pre with hpre | ⟨init, top, hpre⟩
        · subst hpre; rfl
        · subst hpre
          obtain ⟨f0, u0, -, hu0⟩ := hcb' top (by simp)
          simp only [unfreezeTop_concat, hu0, Option.map_some', Option.toList_some,
            List.foldl_cons, List.foldl_nil, applyEffect, List.length_append,
            List.length_singleton, set_last_false]
          simp
      · subst hp
        have hfl' : t.frozen =
            List.replicate (pre.length + 1 + post'.length) true ++ [false] := by
          rw [hfl]
          simp only [List.length_append, List.length_cons, List.length_singleton,
            List.length_nil]
          have h1 : pre.length + (post'.length + (0 + 1) + 1) - 1 =
              pre.length + 1 + post'.length := by omega
          have h2 : min (pre.length + (post'.length + (0 + 1) + 1)) 1 = 1 := by omega
          rw [h1, h2]
          rfl
        obtain ⟨f0, u0, -, hu0⟩ := hcb' last (by simp)
        rw [hfl', eraseIdx_flag_below, ← List.append_assoc, unfreezeTop_concat, hu0]
        simp only [Option.map_some', Option.toList_some, List.foldl_cons, List.foldl_nil,
          applyEffect, List.length_append, set_last_false_again, List.length_singleton]
        have h1 : pre.length + post'.length + 1 - 1 = pre.length + post'.length := by omega
        have h2 : min (pre.length + post'.length + 1) 1 = 1 := by omega
        rw [h1, h2]
        rfl
  | closeAll t _ _ =>
    have hst : t.closeAll = { stack := [], frozen := [] } := by
      simp [Tracked.closeAll, closeAllOverlays]
    rw [hst]
    exact ⟨by simp, rfl⟩

/-- C18: with the frozen flag of each entry set by the call of its freeze handler and cleared
by the call of its unfreeze handler, in every state reachable from the empty stack by
registrations (each immediately followed by `setOverlayCallbacks`), `unregisterOverlay` and
`closeAllOverlays`, every entry has a flag, the topmost entry is not frozen and every entry
below it is frozen. -/
theorem overlay_only_top_interactive (t : Tracked) (h : Reachable t) :
    t.frozen.length = t.stack.length ∧
    ∀ i, i < t.stack.length → t.frozen.get? i = some (decide (i + 1 < t.stack.length)) := by
  obtain ⟨-, hfl⟩ := reachable_flags t h
  constructor
  · rw [hfl]
    simp only [List.length_append, List.length_replicate]
    omega
  · intro i hi
    rw [hfl, List.get?_eq_getElem?]
    by_cases hlt : i + 1 < t.stack.length
    · rw [List.getElem?_append_left (by simp; omega)]
      rw [List.getElem?_replicate, if_pos (by omega)]
      simp [hlt]
    · have h1 : min t.stack.length 1 = 1 := by omega
      rw [List.getElem?_append_right (by simp; omega), h1]
      have h2 : i - (List.replicate (t.stack.length - 1) true).length = 0 := by
        simp; omega
      rw [h2]
      simp [hlt]

/-- C18 at the stack `[modal-a, modal-b]` built by two registrations: `modal-a` is frozen,
`modal-b` is not. -/
theorem overlay_only_top_interactive_witness :
    Reachable sampleTracked ∧
    sampleTracked.stack.map (·.type) = ["modal-a", "modal-b"] ∧
    sampleTracked.frozen.get? 0 = some true ∧
    sampleTracked.frozen.get? 1 = some false :=
  have hr : Reachable sampleTracked :=
    Reachable.register _ "modal-b" 2 200 21 22
      (Reachable.register _ "modal-a" 1 100 11 12 Reachable.empty)
  ⟨hr, by decide,
    ((overlay_only_top_interactive sampleTracked hr).2 0 (by decide)).trans (by decide),
    ((overlay_only_top_interactive sampleTracked hr).2 1 (by decide)).trans (by decide)⟩

/-! ## Single-ticket status actions -/

theorem movedOne_transition (s0 : TicketStats) (s t : Status) :
    movedOne s0
      (if (some s).isSome ∧ some s ≠ some t then
        updateStatsForStatusChange s0 (some s) (some t) 1 else s0) s t := by
  constructor
  · intro h
    subst h
    simp
  · intro h
    have hne : (some s : Option Status) ≠ some t := by simpa using h
    have hcond : (some s).isSome ∧ some s ≠ some t := ⟨rfl, hne⟩
    rw [if_pos hcond]
    obtain ⟨g1, g2, g3, g4⟩ := updateStats_frame s0 (some s) (some t) 1
    refine ⟨?_, g1, g2, g3, g4⟩
    intro x
    rw [updateStats_counter s0 (some s) t x hne]
    by_cases hx : x = t
    · simp [hx]
    · by_cases hxs : x = s
      · subst hxs; simp [hx]
      · have : ¬ (some s = some x) := by
          intro e; exact hxs (Option.some.inj e).symm
        simp [hx, hxs, this]

/-- C19: when the first local record with the given id has status `s`, a successful
`resolveTicket` / `closeTicket` / `reopenTicket` (remote call and detail re-fetch both
succeed) with target `t` = `resolved` / `closed` / `open` leaves the stats unchanged when
`s = t` and otherwise lowers the counter of `s` by one, floored at zero, raises the counter of
`t` by one and changes no other counter; when the remote call fails the stats are
unchanged. -/
theorem status_action_moves_one (st : Store) (ticketId : Nat) (tk : Ticket) (s : Status)
    (hf : findTicket st.tickets ticketId = some tk) (hs : tk.status = some s)
    (data : Payload) (d : Ticket) (err : ApiError) (detail : Except ApiError Ticket) :
    movedOne st.stats (resolveTicket st ticketId (.ok data) (.ok d)).1.stats s .s_resolved ∧
    movedOne st.stats (closeTicket st ticketId (.ok data) (.ok d)).1.stats s .s_closed ∧
    movedOne st.stats (reopenTicket st ticketId (.ok data) (.ok d)).1.stats s .s_open ∧
    (resolveTicket st ticketId (.error err) detail).1.stats = st.stats ∧
    (closeTicket st ticketId (.error err) detail).1.stats = st.stats ∧
    (reopenTicket st ticketId (.error err) detail).1.stats = st.stats := by
  refine ⟨?_, ?_, ?_, rfl, rfl, rfl⟩
  · have h := movedOne_transition st.stats s .s_resolved
    simp only [resolveTicket, fetchTicket, hf, Option.bind, hs]
    split <;> simp_all
  · have h := movedOne_transition st.stats s .s_closed
    simp only [closeTicket, fetchTicket, hf, Option.bind, hs]
    split <;> simp_all
  · have h := movedOne_transition st.stats s .s_open
    simp only [reopenTicket, fetchTicket, hf, Option.bind, hs]
    split <;> simp_all

/-- C19 at the sample store: closing the `open` ticket 2 moves one unit from `open` (4 to 3)
to `closed` (3 to 4); reopening it changes nothing. -/
theorem status_action_moves_one_witness :
    findTicket sampleStore.tickets 2 = some sampleT2 ∧
    (closeTicket sampleStore 2 (.ok "ok") (.ok sampleT2)).1.stats.counter .s_open = 3 ∧
    (closeTicket sampleStore 2 (.ok "ok") (.ok sampleT2)).1.stats.counter .s_closed = 4 ∧
    (reopenTicket sampleStore 2 (.ok "ok") (.ok sampleT2)).1.stats = sampleStore.stats :=
  have h := status_action_moves_one sampleStore 2 sampleT2 .s_open rfl rfl "ok" sampleT2
    { detail := none } (.ok sampleT2)
  ⟨rfl, ((h.2.1.2 (by decide)).1 .s_open).trans (by decide),
    ((h.2.1.2 (by decide)).1 .s_closed).trans (by decide), h.2.2.1.1 rfl⟩

/-! ## The optimistic step of `bulkAssignTickets` -/

theorem autoOpen_eq (u : Option Nat) (t : Ticket) :
    autoOpen u t =
      { t with
        assigned_to_id := u
        status := if t.status = some .s_new then some .s_open else t.status } := by
  unfold autoOpen
  split <;> rename_i h <;> simp [h]

theorem autoOpen_idem (u : Option Nat) (t : Ticket) : autoOpen u (autoOpen u t) = autoOpen u t := by
  rw [autoOpen_eq, autoOpen_eq]
  by_cases h : t.status = some .s_new <;> simp [h]

theorem foldl_idem_pointwise (f : Ticket → Ticket) (hid : ∀ t, (f t).id = t.id)
    (hidem : ∀ t, f (f t) = f t) (A : List Ticket) (t : Ticket) :
    A.foldl (fun v (a : Ticket) => if v.id = a.id then f v else v) t =
      if t.id ∈ A.map (·.id) then f t else t := by
  induction A generalizing t with
  | nil => simp
  | cons a A ih =>
    simp only [List.foldl_cons, List.map_cons, List.mem_cons]
    by_cases h : t.id = a.id
    · rw [if_pos h, ih, hid, hidem]
      simp [h]
    · rw [if_neg h, ih]
      simp [h]

theorem updateStats_new_open (s : TicketStats) :
    updateStatsForStatusChange s (some .s_new) (some .s_open) 1 =
      { s with n_new := s.n_new - 1, n_open := s.n_open + 1 } := by
  simp [updateStatsForStatusChange, TicketStats.setCounter, TicketStats.counter]

/-- With unique ids, every affected ticket is found as itself, so the loop moves one unit
from `new` to `open` for each affected ticket that is `new`. -/
theorem foldl_assignStep_stats (u : Option Nat) (A : List Ticket) (st : Store)
    (hnd : (st.tickets.map (·.id)).Nodup) (hA : ∀ a ∈ A, a ∈ st.tickets)
    (hAnd : (A.map (·.id)).Nodup) :
    (A.foldl (assignStep u) st).stats =
      { st.stats with
        n_new := st.stats.n_new - A.countP (fun t => decide (t.status = some .s_new))
        n_open := st.stats.n_open + A.countP (fun t => decide (t.status = some .s_new)) } := by
  induction A generalizing st with
  | nil => simp
  | cons a A ih =>
    simp only [List.foldl_cons]
    have ha : a ∈ st.tickets := hA a (List.mem_cons_self _ _)
    have hAnd' : (A.map (·.id)).Nodup := (List.nodup_cons.mp hAnd).2
    have hanot : a.id ∉ A.map (·.id) := (List.nodup_cons.mp hAnd).1
    rcases assignStep_cases u st a with ⟨hne, -⟩ | ⟨pre, t, post, hts, hpre, htid, hu⟩
    · exact absurd rfl (hne a ha)
    · have ht : t ∈ st.tickets := by rw [hts]; simp
      have hta : t = a := List.inj_on_of_nodup_map hnd ht ha htid
      subst hta
      rw [hu]
      have hnd1 : ((pre ++ autoOpen u t :: post).map (·.id)).Nodup := by
        have : (pre ++ autoOpen u t :: post).map (·.id) = st.tickets.map (·.id) := by
          rw [hts]; simp [autoOpen_id]
        rw [this]; exact hnd
      have hA1 : ∀ b ∈ A, b ∈ pre ++ autoOpen u t :: post := by
        intro b hb
        have hb' : b ∈ st.tickets := hA b (List.mem_cons_of_mem _ hb)
        rw [hts] at hb'
        have hbt : b ≠ t := by
          intro e
          exact hanot (e ▸ List.mem_map_of_mem _ hb)
        rcases List.mem_append.mp hb' with h1 | h1
        · exact List.mem_append_left _ h1
        · rcases List.mem_cons.mp h1 with h2 | h2
          · exact absurd h2 hbt
          · exact List.mem_append_right _ (List.mem_cons_of_mem _ h2)
      rw [ih _ hnd1 hA1 hAnd', List.countP_cons]
      by_cases hs : t.status = some .s_new
      · simp only [hs, if_true, decide_True, updateStats_new_open]
        congr 1 <;> omega
      · simp only [hs, if_false, decide_False]
        simp

/-- C20: with unique ticket ids, right after the optimistic step of
`bulkAssignTickets(ids, userId)`, which is also the state after a successful remote call,
every local ticket whose id is in `ids` has `assigned_to_id = userId` and, if it was `new`,
status `open`, its other fields and every other ticket being unchanged; and with `n` the
number of local tickets in `ids` that were `new`, the `new` counter is `max(0, new - n)`, the
`open` counter has grown by `n`, and no other field of the stats has changed. -/
theorem bulkAssignTickets_optimistic_effect (st : Store) (ids : List Nat) (userId : Option Nat)
    (data : Payload) (hnd : (st.tickets.map (·.id)).Nodup) :
    (bulkAssignTickets st ids userId (.ok data)).1.tickets =
      st.tickets.map (fun t =>
        if t.id ∈ ids then
          { t with
            assigned_to_id := userId
            status := if t.status = some .s_new then some .s_open else t.status }
        else t) ∧
    (bulkAssignTickets st ids userId (.ok data)).1.stats =
      { st.stats with
        n_new := st.stats.n_new -
          st.tickets.countP (fun t => decide (t.id ∈ ids) && decide (t.status = some .s_new))
        n_open := st.stats.n_open +
          st.tickets.countP (fun t => decide (t.id ∈ ids) && decide (t.status = some .s_new)) }
    := by
  constructor
  · simp only [bulkAssignTickets, foldl_assignStep_tickets]
    rw [foldl_updateById_eq_map (fun a : Ticket => a.id) (fun _ => autoOpen userId)
      (fun _ t => autoOpen_id userId t) _ _ hnd]
    apply List.map_congr_left
    intro t ht
    rw [foldl_idem_pointwise (autoOpen userId) (autoOpen_id userId) (autoOpen_idem userId)]
    by_cases hin : t.id ∈ ids
    · have hmem : t.id ∈ (st.tickets.filter (fun t => decide (t.id ∈ ids))).map (·.id) :=
        List.mem_map_of_mem _ (List.mem_filter.mpr ⟨ht, by simpa using hin⟩)
      rw [if_pos hmem, if_pos hin, autoOpen_eq]
    · have hmem : ¬ t.id ∈ (st.tickets.filter (fun t => decide (t.id ∈ ids))).map (·.id) := by
        intro h
        obtain ⟨a, ha, hid⟩ := List.mem_map.mp h
        have := (List.mem_filter.mp ha).2
        simp only [decide_eq_true_eq] at this
        exact hin (hid ▸ this)
      rw [if_neg hmem, if_neg hin]
  · have hAnd : ((st.tickets.filter (fun t => decide (t.id ∈ ids))).map (·.id)).Nodup :=
      List.Nodup.sublist ((List.filter_sublist st.tickets).map _) hnd
    simp only [bulkAssignTickets]
    rw [foldl_assignStep_stats userId _ st hnd (fun a ha => (List.mem_filter.mp ha).1) hAnd,
      List.countP_filter]
    have : (fun t : Ticket => decide (t.status = some Status.s_new) && decide (t.id ∈ ids)) =
        (fun t : Ticket => decide (t.id ∈ ids) && decide (t.status = some Status.s_new)) := by
      funext t; exact Bool.and_comm _ _
    rw [this]

/-- C20 at the sample store, assigning tickets 1 and 2 to user 9: ticket 1, which was `new`,
is `open` and assigned; ticket 2 keeps its status; `new` goes from 3 to 2 and `open` from 4
to 5. -/
theorem bulkAssignTickets_optimistic_effect_witness :
    (sampleStore.tickets.map (·.id)).Nodup ∧
    (bulkAssignTickets sampleStore [1, 2] (some 9) (.ok "ok")).1.tickets =
      [{ sampleT1 with assigned_to_id := some 9, status := some .s_open },
       { sampleT2 with assigned_to_id := some 9 }] ∧
    (bulkAssignTickets sampleStore [1, 2] (some 9) (.ok "ok")).1.stats =
      { sampleStats with n_new := 2, n_open := 5 } :=
  have h := bulkAssignTickets_optimistic_effect sampleStore [1, 2] (some 9) "ok" (by decide)
  ⟨by decide, h.1.trans (by decide), h.2.trans (by decide)⟩

/-! ## The optimistic step of the retagging bulk operations -/

theorem findIndex_isSome_of_mem (ts : List Ticket) (id : Nat) (h : id ∈ ts.map (·.id)) :
    ∃ i, findIndex ts id = some i := by
  cases hf : findIndex ts id with
  | some i => exact ⟨i, rfl⟩
  | none =>
    obtain ⟨x, hx, hid⟩ := List.mem_map.mp h
    exact absurd hid ((findIndex_none_iff ts id).mp hf x hx)

/-- Every affected ticket is found, so the optimistic loop of `bulkUpdatePriority` is a loop over the
`by_priority` object on one side and over the collection on the other. -/
theorem foldl_priorityStep_split (n : String) (A : List Ticket) (st : Store)
    (hA : ∀ a ∈ A, a.id ∈ st.tickets.map (·.id)) :
    A.foldl (priorityStep n) st =
      { st with
        stats := { st.stats with
          by_priority := (A.foldl (fun m (a : Ticket) => raiseTag (dropTag m a.priority) n)
            st.stats.by_priority) }
        tickets := (A.foldl
          (fun l (a : Ticket) => updateById l a.id (fun t => { t with priority := some n }))
          st.tickets) } := by
  induction A generalizing st with
  | nil => rfl
  | cons a A ih =>
    simp only [List.foldl_cons]
    obtain ⟨i, hi⟩ := findIndex_isSome_of_mem st.tickets a.id (hA a (List.mem_cons_self _ _))
    have hstep : priorityStep n st a =
        { st with
          stats := { st.stats with
            by_priority := raiseTag (dropTag st.stats.by_priority a.priority) n }
          tickets := updateById st.tickets a.id (fun t => { t with priority := some n }) } := by
      simp only [priorityStep, updateById, hi]
    rw [hstep, ih]
    intro b hb
    have hmap := map_id_updateById st.tickets a.id (fun t => { t with priority := some n })
      (fun _ => rfl)
    show b.id ∈ (updateById st.tickets a.id (fun t => { t with priority := some n })).map (·.id)
    rw [hmap]
    exact hA b (List.mem_cons_of_mem _ hb)

/-- Every affected ticket is found, so the optimistic loop of `bulkUpdateType` is a loop over the
`by_type` object on one side and over the collection on the other. -/
theorem foldl_typeStep_split (n : String) (A : List Ticket) (st : Store)
    (hA : ∀ a ∈ A, a.id ∈ st.tickets.map (·.id)) :
    A.foldl (typeStep n) st =
      { st with
        stats := { st.stats with
          by_type := (A.foldl (fun m (a : Ticket) => raiseTag (dropTag m a.ticket_type) n)
            st.stats.by_type) }
        tickets := (A.foldl
          (fun l (a : Ticket) => updateById l a.id (fun t => { t with ticket_type := some n }))
          st.tickets) } := by
  induction A generalizing st with
  | nil => rfl
  | cons a A ih =>
    simp only [List.foldl_cons]
    obtain ⟨i, hi⟩ := findIndex_isSome_of_mem st.tickets a.id (hA a (List.mem_cons_self _ _))
    have hstep : typeStep n st a =
        { st with
          stats := { st.stats with
            by_type := raiseTag (dropTag st.stats.by_type a.ticket_type) n }
          tickets := updateById st.tickets a.id (fun t => { t with ticket_type := some n }) } := by
      simp only [typeStep, updateById, hi]
    rw [hstep, ih]
    intro b hb
    have hmap := map_id_updateById st.tickets a.id (fun t => { t with ticket_type := some n })
      (fun _ => rfl)
    show b.id ∈ (updateById st.tickets a.id (fun t => { t with ticket_type := some n })).map (·.id)
    rw [hmap]
    exact hA b (List.mem_cons_of_mem _ hb)

theorem mem_filter_ids_iff (ts : List Ticket) (ids : List Nat) (t : Ticket) (ht : t ∈ ts) :
    t.id ∈ (ts.filter (fun t => decide (t.id ∈ ids))).map (·.id) ↔ t.id ∈ ids := by
  constructor
  · intro h
    obtain ⟨a, ha, hid⟩ := List.mem_map.mp h
    have := (List.mem_filter.mp ha).2
    simp only [decide_eq_true_eq] at this
    exact hid ▸ this
  · intro h
    exact List.mem_map_of_mem _ (List.mem_filter.mpr ⟨ht, by simpa using h⟩)

/-- C21: with unique ticket ids, the optimistic step of `bulkUpdatePriority(ids, p)`, which
is also the state after a successful remote call, sets `priority = p` on every local ticket
whose id is in `ids` and changes no other ticket; the `by_priority` object is the result of
taking the affected tickets in collection order and, for each, decrementing the entry of its
previous priority (floored at zero, skipped when the ticket has no priority or the tag has no
entry) and then incrementing the entry of `p` (created at 1 when absent); no other field of
the stats changes. `bulkUpdateType(ids, tag)` does the same with `ticket_type` and
`by_type`. -/
theorem bulk_retag_optimistic_effect (st : Store) (ids : List Nat) (p : String)
    (data : Payload) (refetch : Except ApiError TicketStats)
    (hnd : (st.tickets.map (·.id)).Nodup) :
    ((bulkUpdatePriority st ids p (.ok data) refetch).1.tickets =
        st.tickets.map (fun t => if t.id ∈ ids then { t with priority := some p } else t) ∧
      (bulkUpdatePriority st ids p (.ok data) refetch).1.stats =
        { st.stats with
          by_priority := ((st.tickets.filter (fun t => decide (t.id ∈ ids))).foldl
            (fun m (a : Ticket) => raiseTag (dropTag m a.priority) p) st.stats.by_priority) }) ∧
    ((bulkUpdateType st ids p (.ok data) refetch).1.tickets =
        st.tickets.map (fun t => if t.id ∈ ids then { t with ticket_type := some p } else t) ∧
      (bulkUpdateType st ids p (.ok data) refetch).1.stats =
        { st.stats with
          by_type := ((st.tickets.filter (fun t => decide (t.id ∈ ids))).foldl
            (fun m (a : Ticket) => raiseTag (dropTag m a.ticket_type) p) st.stats.by_type) }) ∧
    (∀ (m : List (String × Nat)) (prev : Option String) (k : String),
      lookupTag (dropTag m prev) k =
        if prev = some k then (lookupTag m k).map (· - 1) else lookupTag m k) ∧
    (∀ (m : List (String × Nat)) (k : String),
      lookupTag (raiseTag m p) k = if k = p then some (tagCount m p + 1) else lookupTag m k) := by
  have hA : ∀ a ∈ st.tickets.filter (fun t => decide (t.id ∈ ids)),
      a.id ∈ st.tickets.map (·.id) :=
    fun a ha => List.mem_map_of_mem _ (List.mem_filter.mp ha).1
  refine ⟨⟨?_, ?_⟩, ⟨?_, ?_⟩, fun m prev k => lookupTag_dropTag m prev k, ?_⟩
  · simp only [bulkUpdatePriority, foldl_priorityStep_split p _ st hA]
    rw [foldl_updateById_eq_map (fun a : Ticket => a.id)
      (fun _ t => { t with priority := some p }) (fun _ _ => rfl) _ _ hnd]
    apply List.map_congr_left
    intro t ht
    rw [foldl_idem_pointwise (fun t => { t with priority := some p }) (fun _ => rfl)
      (fun _ => rfl)]
    by_cases hin : t.id ∈ ids
    · rw [if_pos ((mem_filter_ids_iff _ _ t ht).mpr hin), if_pos hin]
    · rw [if_neg (fun h => hin ((mem_filter_ids_iff _ _ t ht).mp h)), if_neg hin]
  · simp only [bulkUpdatePriority, foldl_priorityStep_split p _ st hA]
  · simp only [bulkUpdateType, foldl_typeStep_split p _ st hA]
    rw [foldl_updateById_eq_map (fun a : Ticket => a.id)
      (fun _ t => { t with ticket_type := some p }) (fun _ _ => rfl) _ _ hnd]
    apply List.map_congr_left
    intro t ht
    rw [foldl_idem_pointwise (fun t => { t with ticket_type := some p }) (fun _ => rfl)
      (fun _ => rfl)]
    by_cases hin : t.id ∈ ids
    · rw [if_pos ((mem_filter_ids_iff _ _ t ht).mpr hin), if_pos hin]
    · rw [if_neg (fun h => hin ((mem_filter_ids_iff _ _ t ht).mp h)), if_neg hin]
  · simp only [bulkUpdateType, foldl_typeStep_split p _ st hA]
  · intro m k
    unfold raiseTag
    rw [lookupTag_assignTag]
    by_cases hk : k = p
    · simp [hk, tagCount]
    · simp [hk]

/-- C21 at the sample store, retagging tickets 1 and 2 to priority `urgent`: both carry it
afterwards, `high` goes from 6 to 5, `low` from 4 to 3, and `urgent` is created and counts
2. -/
theorem bulk_retag_optimistic_effect_witness :
    (sampleStore.tickets.map (·.id)).Nodup ∧
    (bulkUpdatePriority sampleStore [1, 2] "urgent" (.ok "ok")
        (.error { detail := none })).1.tickets =
      [{ sampleT1 with priority := some "urgent" }, { sampleT2 with priority := some "urgent" }] ∧
    (bulkUpdatePriority sampleStore [1, 2] "urgent" (.ok "ok")
        (.error { detail := none })).1.stats =
      { sampleStats with by_priority := [("high", 5), ("low", 3), ("urgent", 2)] } :=
  have h := bulk_retag_optimistic_effect sampleStore [1, 2] "urgent" "ok"
    (.error { detail := none }) (by decide)
  ⟨by decide, h.1.1.trans (by decide), h.1.2.trans (by decide)⟩

/-! ## The failure path of the retagging bulk operations -/

/-- A rollback loop that writes a saved field back: a record that differs from its original
`t` at most in that field, and whose id is saved only for `t`, becomes `t` again. -/
theorem foldl_restoreField_pointwise (proj : Ticket → Option String)
    (put : Option String → Ticket → Ticket)
    (hput : ∀ b c t, put c (put b t) = put c t) (hproj : ∀ t, put (proj t) t = t)
    (hid : ∀ b t, (put b t).id = t.id)
    (A : List Ticket) (t v : Ticket) (hv : ∃ x, v = put x t)
    (huniq : ∀ a ∈ A, a.id = t.id → a = t) :
    (A.map (fun a => (a.id, proj a))).foldl
      (fun w (o : Nat × Option String) => if w.id = o.1 then put o.2 w else w) v =
      if t.id ∈ A.map (·.id) then t else v := by
  induction A generalizing v with
  | nil => simp
  | cons a A ih =>
    obtain ⟨x, hx⟩ := hv
    have hvid : v.id = t.id := by rw [hx, hid]
    simp only [List.map_cons, List.foldl_cons, List.mem_cons]
    have huniq' : ∀ b ∈ A, b.id = t.id → b = t :=
      fun b hb => huniq b (List.mem_cons_of_mem _ hb)
    by_cases h : v.id = a.id
    · have hat : a = t := huniq a (List.mem_cons_self _ _) (h.symm.trans hvid)
      rw [if_pos h]
      have hback : put (proj a) v = t := by rw [hat, hx, hput, hproj]
      rw [hback, ih t ⟨proj t, (hproj t).symm⟩ huniq']
      simp [hat]
    · rw [if_neg h, ih v ⟨x, hx⟩ huniq']
      have : ¬ t.id = a.id := fun e => h (hvid.trans e)
      simp [this]

theorem foldl_restorePriority (O : List (Nat × Option String)) (st : Store) :
    O.foldl restorePriority st =
      { st with
        tickets := (O.foldl (fun l (o : Nat × Option String) =>
          updateById l o.1 (fun t => { t with priority := o.2 })) st.tickets) } := by
  induction O generalizing st with
  | nil => rfl
  | cons o O ih => simp only [List.foldl_cons, ih]; rfl

/-- With unique ids the rollback loop of `bulkUpdatePriority` undoes the optimistic loop on the
collection. -/
theorem bulkUpdatePriority_rollback_tickets (st : Store) (ids : List Nat) (n : String)
    (hnd : (st.tickets.map (·.id)).Nodup) :
    (((st.tickets.filter (fun t => decide (t.id ∈ ids))).map
        (fun t => (t.id, t.priority))).foldl restorePriority
      ((st.tickets.filter (fun t => decide (t.id ∈ ids))).foldl (priorityStep n) st)).tickets =
      st.tickets := by
  have hA : ∀ a ∈ st.tickets.filter (fun t => decide (t.id ∈ ids)),
      a.id ∈ st.tickets.map (·.id) :=
    fun a ha => List.mem_map_of_mem _ (List.mem_filter.mp ha).1
  rw [foldl_restorePriority, foldl_priorityStep_split n _ st hA]
  simp only []
  rw [foldl_updateById_eq_map (fun a : Ticket => a.id)
    (fun _ t => { t with priority := some n }) (fun _ _ => rfl) _ _ hnd]
  rw [foldl_updateById_eq_map (fun o : Nat × Option String => o.1)
    (fun o t => { t with priority := o.2 }) (fun _ _ => rfl)]
  · rw [List.map_map]
    conv_rhs => rw [← List.map_id st.tickets]
    apply List.map_congr_left
    intro t ht
    simp only [Function.comp, id]
    rw [foldl_idem_pointwise (fun t => { t with priority := some n }) (fun _ => rfl)
      (fun _ => rfl)]
    have huniq : ∀ a ∈ st.tickets.filter (fun t => decide (t.id ∈ ids)), a.id = t.id → a = t :=
      fun a ha hid => List.inj_on_of_nodup_map hnd (List.mem_filter.mp ha).1 ht hid
    by_cases hin : t.id ∈ (st.tickets.filter (fun t => decide (t.id ∈ ids))).map (·.id)
    · rw [if_pos hin]
      rw [foldl_restoreField_pointwise (fun t => t.priority)
        (fun b t => { t with priority := b }) (fun _ _ _ => rfl) (fun _ => rfl) (fun _ _ => rfl)
        _ t _ ⟨some n, rfl⟩ huniq, if_pos hin]
    · rw [if_neg hin]
      rw [foldl_restoreField_pointwise (fun t => t.priority)
        (fun b t => { t with priority := b }) (fun _ _ _ => rfl) (fun _ => rfl) (fun _ _ => rfl)
        _ t _ ⟨t.priority, rfl⟩ huniq, if_neg hin]
  · rw [List.map_map]
    have : ((fun x : Ticket => x.id) ∘ fun t =>
        List.foldl (fun u (o : Ticket) => if u.id = o.id then
          { u with priority := some n } else u) t
          (st.tickets.filter (fun t => decide (t.id ∈ ids)))) = fun x => x.id := by
      funext t
      exact foldl_step_id (fun a : Ticket => a.id) (fun _ t => { t with priority := some n })
        (fun _ _ => rfl) _ t
    rw [this]; exact hnd

theorem foldl_restoreType (O : List (Nat × Option String)) (st : Store) :
    O.foldl restoreType st =
      { st with
        tickets := (O.foldl (fun l (o : Nat × Option String) =>
          updateById l o.1 (fun t => { t with ticket_type := o.2 })) st.tickets) } := by
  induction O generalizing st with
  | nil => rfl
  | cons o O ih => simp only [List.foldl_cons, ih]; rfl

/-- With unique ids the rollback loop of `bulkUpdateType` undoes the optimistic loop on the
collection. -/
theorem bulkUpdateType_rollback_tickets (st : Store) (ids : List Nat) (n : String)
    (hnd : (st.tickets.map (·.id)).Nodup) :
    (((st.tickets.filter (fun t => decide (t.id ∈ ids))).map
        (fun t => (t.id, t.ticket_type))).foldl restoreType
      ((st.tickets.filter (fun t => decide (t.id ∈ ids))).foldl (typeStep n) st)).tickets =
      st.tickets := by
  have hA : ∀ a ∈ st.tickets.filter (fun t => decide (t.id ∈ ids)),
      a.id ∈ st.tickets.map (·.id) :=
    fun a ha => List.mem_map_of_mem _ (List.mem_filter.mp ha).1
  rw [foldl_restoreType, foldl_typeStep_split n _ st hA]
  simp only []
  rw [foldl_updateById_eq_map (fun a : Ticket => a.id)
    (fun _ t => { t with ticket_type := some n }) (fun _ _ => rfl) _ _ hnd]
  rw [foldl_updateById_eq_map (fun o : Nat × Option String => o.1)
    (fun o t => { t with ticket_type := o.2 }) (fun _ _ => rfl)]
  · rw [List.map_map]
    conv_rhs => rw [← List.map_id st.tickets]
    apply List.map_congr_left
    intro t ht
    simp only [Function.comp, id]
    rw [foldl_idem_pointwise (fun t => { t with ticket_type := some n }) (fun _ => rfl)
      (fun _ => rfl)]
    have huniq : ∀ a ∈ st.tickets.filter (fun t => decide (t.id ∈ ids)), a.id = t.id → a = t :=
      fun a ha hid => List.inj_on_of_nodup_map hnd (List.mem_filter.mp ha).1 ht hid
    by_cases hin : t.id ∈ (st.tickets.filter (fun t => decide (t.id ∈ ids))).map (·.id)
    · rw [if_pos hin]
      rw [foldl_restoreField_pointwise (fun t => t.ticket_type)
        (fun b t => { t with ticket_type := b }) (fun _ _ _ => rfl) (fun _ => rfl) (fun _ _ => rfl)
        _ t _ ⟨some n, rfl⟩ huniq, if_pos hin]
    · rw [if_neg hin]
      rw [foldl_restoreField_pointwise (fun t => t.ticket_type)
        (fun b t => { t with ticket_type := b }) (fun _ _ _ => rfl) (fun _ => rfl) (fun _ _ => rfl)
        _ t _ ⟨t.ticket_type, rfl⟩ huniq, if_neg hin]
  · rw [List.map_map]
    have : ((fun x : Ticket => x.id) ∘ fun t =>
        List.foldl (fun u (o : Ticket) => if u.id = o.id then
          { u with ticket_type := some n } else u) t
          (st.tickets.filter (fun t => decide (t.id ∈ ids)))) = fun x => x.id := by
      funext t
      exact foldl_step_id (fun a : Ticket => a.id) (fun _ t => { t with ticket_type := some n })
        (fun _ _ => rfl) _ t
    rw [this]; exact hnd

/-- C22: with unique ticket ids, when the remote call of `bulkUpdatePriority` (resp.
`bulkUpdateType`) fails, the collection after the operation is the collection before it, so
every local ticket has the priority (resp. type) it had, whether the stats refetch succeeds
or not; and when the refetch succeeds the stats afterwards are the refetched stats, whatever
the optimistic loop did to the counters. -/
theorem bulk_retag_failure_restores (st : Store) (ids : List Nat) (p : String)
    (err : ApiError) (hnd : (st.tickets.map (·.id)).Nodup) :
    (∀ refetch, (bulkUpdatePriority st ids p (.error err) refetch).1.tickets = st.tickets) ∧
    (∀ server, (bulkUpdatePriority st ids p (.error err) (.ok server)).1.stats = server) ∧
    (∀ refetch, (bulkUpdateType st ids p (.error err) refetch).1.tickets = st.tickets) ∧
    (∀ server, (bulkUpdateType st ids p (.error err) (.ok server)).1.stats = server) := by
  refine ⟨?_, ?_, ?_, ?_⟩
  · intro refetch
    have h := bulkUpdatePriority_rollback_tickets st ids p hnd
    cases refetch with
    | ok server => simpa [bulkUpdatePriority, fetchTicketStats] using h
    | error e2 => simpa [bulkUpdatePriority, fetchTicketStats] using h
  · intro server
    simp [bulkUpdatePriority, fetchTicketStats]
  · intro refetch
    have h := bulkUpdateType_rollback_tickets st ids p hnd
    cases refetch with
    | ok server => simpa [bulkUpdateType, fetchTicketStats] using h
    | error e2 => simpa [bulkUpdateType, fetchTicketStats] using h
  · intro server
    simp [bulkUpdateType, fetchTicketStats]

/-- C22 at the sample store: a failed retagging of tickets 1 and 2 leaves both tickets as
they were and, the refetch answering with the sample stats, restores the stats. -/
theorem bulk_retag_failure_restores_witness :
    (sampleStore.tickets.map (·.id)).Nodup ∧
    (bulkUpdatePriority sampleStore [1, 2] "urgent" (.error { detail := none })
        (.ok sampleStats)).1.tickets = [sampleT1, sampleT2] ∧
    (bulkUpdatePriority sampleStore [1, 2] "urgent" (.error { detail := none })
        (.ok sampleStats)).1.stats = sampleStats :=
  have h := bulk_retag_failure_restores sampleStore [1, 2] "urgent" { detail := none }
    (by decide)
  ⟨by decide, h.1 (.ok sampleStats), h.2.1 sampleStats⟩

/-! ## Recording of remote failures -/

/-- What the catch blocks do when the operation's own call is rejected and, for the two
retagging bulk operations, the stats refetch of the catch block succeeds: the last-error
field takes the detail of the error, or the operation's default message, and the error is
thrown again. -/
theorem remote_failure_recorded (st : Store) (err : ApiError) (id : Nat) (ids : List Nat)
    (server : TicketStats) :
    ((createTicket st (.error err)).1.error = some (errorMessage err "Failed to create ticket") ∧
      (createTicket st (.error err)).2 = .error err) ∧
    (∀ refetch, (updateTicket st id (.error err) refetch).1.error =
        some (errorMessage err "Failed to update ticket") ∧
      (updateTicket st id (.error err) refetch).2 = .error err) ∧
    ((deleteTicket st id (.error err)).1.error =
        some (errorMessage err "Failed to delete ticket") ∧
      (deleteTicket st id (.error err)).2 = .error err) ∧
    ((addComment st id (.error err)).1.error = some (errorMessage err "Failed to add comment") ∧
      (addComment st id (.error err)).2 = .error err) ∧
    (∀ u detail, (assignTicket st id u (.error err) detail).1.error =
        some (errorMessage err "Failed to assign ticket") ∧
      (assignTicket st id u (.error err) detail).2 = .error err) ∧
    (∀ detail, (resolveTicket st id (.error err) detail).1.error =
        some (errorMessage err "Failed to resolve ticket") ∧
      (resolveTicket st id (.error err) detail).2 = .error err) ∧
    (∀ detail, (closeTicket st id (.error err) detail).1.error =
        some (errorMessage err "Failed to close ticket") ∧
      (closeTicket st id (.error err) detail).2 = .error err) ∧
    (∀ detail, (reopenTicket st id (.error err) detail).1.error =
        some (errorMessage err "Failed to reopen ticket") ∧
      (reopenTicket st id (.error err) detail).2 = .error err) ∧
    ((bulkCloseTickets st ids (.error err)).1.error =
        some (errorMessage err "Failed to close tickets") ∧
      (bulkCloseTickets st ids (.error err)).2 = .error err) ∧
    (∀ ns, (bulkUpdateStatus st ids ns (.error err)).1.error =
        some (errorMessage err "Failed to update ticket status") ∧
      (bulkUpdateStatus st ids ns (.error err)).2 = .error err) ∧
    (∀ u, (bulkAssignTickets st ids u (.error err)).1.error =
        some (errorMessage err "Failed to assign tickets") ∧
      (bulkAssignTickets st ids u (.error err)).2 = .error err) ∧
    (∀ p, (bulkUpdatePriority st ids p (.error err) (.ok server)).1.error =
        some (errorMessage err "Failed to update ticket priority") ∧
      (bulkUpdatePriority st ids p (.error err) (.ok server)).2 = .error err) ∧
    (∀ p, (bulkUpdateType st ids p (.error err) (.ok server)).1.error =
        some (errorMessage err "Failed to update ticket type") ∧
      (bulkUpdateType st ids p (.error err) (.ok server)).2 = .error err) := by
  refine ⟨⟨rfl, rfl⟩, fun _ => ⟨rfl, rfl⟩, ⟨rfl, rfl⟩, ⟨rfl, rfl⟩, fun _ _ => ⟨rfl, rfl⟩,
    fun _ => ⟨rfl, rfl⟩, fun _ => ⟨rfl, rfl⟩, fun _ => ⟨rfl, rfl⟩, ⟨rfl, rfl⟩,
    fun _ => ⟨rfl, rfl⟩, fun _ => ⟨rfl, rfl⟩, fun _ => ⟨rfl, rfl⟩, fun _ => ⟨rfl, rfl⟩⟩

/-- C23 (evaluation of the code where it departs from the claim): on the sample store, whose
last-error field is empty, `bulkUpdatePriority([1], 'urgent')` is rejected with detail
`boom` and the stats refetch of its catch block is rejected too. The operation ends with the
last-error field still empty and throws the error of the refetch, not the one of its own
call; with a refetch that succeeds the field holds `boom` and that error is thrown. -/
theorem bulkUpdatePriority_failed_refetch_loses_error :
    sampleStore.error = none ∧
    (bulkUpdatePriority sampleStore [1] "urgent" (.error { detail := some "boom" })
        (.error { detail := some "stats down" })).1.error = none ∧
    (bulkUpdatePriority sampleStore [1] "urgent" (.error { detail := some "boom" })
        (.error { detail := some "stats down" })).2 = .error { detail := some "stats down" } ∧
    (bulkUpdatePriority sampleStore [1] "urgent" (.error { detail := some "boom" })
        (.ok sampleStats)).1.error = some "boom" ∧
    (bulkUpdatePriority sampleStore [1] "urgent" (.error { detail := some "boom" })
        (.ok sampleStats)).2 = .error { detail := some "boom" } := by
  exact ⟨rfl, by decide, rfl, by decide, rfl⟩

/-! ## `updateTicket` -/

theorem lookupField_assignField (m : List (String × String)) (k k' : String) (v : String) :
    lookupField (assignField m k v) k' = if k' = k then some v else lookupField m k' := by
  induction m with
  | nil =>
    by_cases h : k' = k
    · simp [assignField, lookupField, h]
    · have h' : ¬ k = k' := fun e => h e.symm
      simp [assignField, lookupField, h, h']
  | cons a m ih =>
    obtain ⟨a1, a2⟩ := a
    by_cases h1 : a1 = k
    · by_cases h : k' = k
      · simp [assignField, lookupField, h1, h]
      · have h' : ¬ k = k' := fun e => h e.symm
        simp [assignField, lookupField, h1, h, h']
    · by_cases h2 : a1 = k'
      · have h : ¬ k' = k := fun e => h1 (h2.trans e)
        simp [assignField, lookupField, h1, h2, h]
      · simp [assignField, lookupField, h1, h2, ih]

theorem lookupField_merge_absent (r acc : List (String × String)) (k : String)
    (h : k ∉ r.map Prod.fst) :
    lookupField (r.foldl (fun a kv => assignField a kv.1 kv.2) acc) k = lookupField acc k := by
  induction r generalizing acc with
  | nil => rfl
  | cons x r ih =>
    simp only [List.map_cons, List.mem_cons, not_or] at h
    simp only [List.foldl_cons]
    rw [ih _ h.2, lookupField_assignField, if_neg h.1]

theorem lookupField_merge_present (r acc : List (String × String)) (k v : String)
    (hnd : (r.map Prod.fst).Nodup) (h : (k, v) ∈ r) :
    lookupField (r.foldl (fun a kv => assignField a kv.1 kv.2) acc) k = some v := by
  induction r generalizing acc with
  | nil => simp at h
  | cons x r ih =>
    simp only [List.map_cons, List.nodup_cons] at hnd
    simp only [List.foldl_cons]
    rcases List.mem_cons.mp h with hx | hx
    · subst hx
      rw [lookupField_merge_absent r _ k hnd.1, lookupField_assignField, if_pos rfl]
    · exact ih _ hnd.2 hx

/-- C24: a successful `updateTicket(id, data)` with response `r` replaces the first local
record with that id by the shallow merge of that record with `r` and leaves every other
record and the order unchanged; when no local record has the id the collection is unchanged
and the operation succeeds all the same. In the merge every key of `r` wins and every key
absent from `r` keeps its old value. -/
theorem updateTicket_merges_response (st : Store) (id : Nat) (r : TicketPatch)
    (server : TicketStats) :
    (∀ pre t post, st.tickets = pre ++ t :: post → (∀ x ∈ pre, x.id ≠ id) → t.id = id →
      (updateTicket st id (.ok r) (.ok server)).1.tickets = pre ++ shallowMerge t r :: post) ∧
    ((∀ x ∈ st.tickets, x.id ≠ id) →
      (updateTicket st id (.ok r) (.ok server)).1.tickets = st.tickets ∧
      (updateTicket st id (.ok r) (.ok server)).2 = .ok r ∧
      (updateTicket st id (.ok r) (.ok server)).1.error = none) ∧
    (∀ t : Ticket,
      (shallowMerge t r).id = r.id.getD t.id ∧
      (shallowMerge t r).status = r.status.getD t.status ∧
      (shallowMerge t r).priority = r.priority.getD t.priority ∧
      (shallowMerge t r).ticket_type = r.ticket_type.getD t.ticket_type ∧
      (shallowMerge t r).assigned_to_id = r.assigned_to_id.getD t.assigned_to_id ∧
      (shallowMerge t r).requester_id = r.requester_id.getD t.requester_id ∧
      (shallowMerge t r).sla_breached = r.sla_breached.getD t.sla_breached ∧
      (shallowMerge t r).comments = r.comments.getD t.comments ∧
      (∀ k, k ∉ r.rest.map Prod.fst →
        lookupField (shallowMerge t r).rest k = lookupField t.rest k) ∧
      ((r.rest.map Prod.fst).Nodup → ∀ k v, (k, v) ∈ r.rest →
        lookupField (shallowMerge t r).rest k = some v)) := by
  have htk : (updateTicket st id (.ok r) (.ok server)).1.tickets =
      updateById st.tickets id (fun t => shallowMerge t r) := by
    simp only [updateTicket, fetchTicketStats]
    split <;> rfl
  refine ⟨?_, ?_, ?_⟩
  · intro pre t post hts hpre htid
    rw [htk, hts]
    simp only [updateById, findIndex_append pre post t id hpre htid, modifyAt_append]
  · intro hall
    refine ⟨?_, ?_, ?_⟩
    · rw [htk]
      simp only [updateById, (findIndex_none_iff st.tickets id).mpr hall]
    · simp only [updateTicket, fetchTicketStats]
    · simp only [updateTicket, fetchTicketStats]
      split <;> rfl
  · intro t
    refine ⟨rfl, rfl, rfl, rfl, rfl, rfl, rfl, rfl, ?_, ?_⟩
    · intro k hk
      exact lookupField_merge_absent r.rest t.rest k hk
    · intro hnd k v hkv
      exact lookupField_merge_present r.rest t.rest k v hnd hkv

/-- C24 at the sample store: the response for ticket 2 carries the status `pending` and a
title; ticket 1 stays, ticket 2 takes both and keeps its other fields; an id that no local
record has leaves the collection as it is. -/
theorem updateTicket_merges_response_witness :
    (updateTicket sampleStore 2 (.ok samplePatch) (.ok sampleStats)).1.tickets =
      [sampleT1,
       { sampleT2 with status := some .s_pending, rest := [("title", "Printer on fire")] }] ∧
    (updateTicket sampleStore 5 (.ok samplePatch) (.ok sampleStats)).1.tickets =
      [sampleT1, sampleT2] ∧
    lookupField (shallowMerge sampleT2 samplePatch).rest "title" = some "Printer on fire" :=
  ⟨((updateTicket_merges_response sampleStore 2 samplePatch sampleStats).1
      [sampleT1] sampleT2 [] rfl (by decide) rfl).trans (by decide),
    ((updateTicket_merges_response sampleStore 5 samplePatch sampleStats).2.1
      (by decide)).1,
    ((updateTicket_merges_response sampleStore 2 samplePatch sampleStats).2.2
      sampleT2).2.2.2.2.2.2.2.2.2 (by decide) "title" "Printer on fire" (by decide)⟩

/-! ## `setOverlayCallbacks` and the keydown listener -/

/-- C25: `setOverlayCallbacks(freeze, unfreeze)` sets the freeze and unfreeze handlers of
the topmost entry to the given ones and changes nothing else: the entries below the top, the
order, and the type, close handler and timestamp of the top are as before, the new stack is
written and no handler is called; on the empty stack nothing is written or called. -/
theorem setOverlayCallbacks_effect (s : List OverlayEntry) (f u : Nat) :
    (s = [] → setOverlayCallbacks s f u = ([], [])) ∧
    (∀ init top, s = init ++ [top] →
      setOverlayCallbacks s f u =
        (init ++ [{ top with freezeCallback := some f, unfreezeCallback := some u }],
         [.assign
           (init ++ [{ top with freezeCallback := some f, unfreezeCallback := some u }])])) ∧
    overlayCount (setOverlayCallbacks s f u).1 = overlayCount s := by
  refine ⟨?_, ?_, ?_⟩
  · intro h
    subst h
    rfl
  · intro init top h
    subst h
    simp only [setOverlayCallbacks, List.getLast?_concat, List.dropLast_concat]
  · rcases eq_nil_or_snoc s with h | ⟨init, top, h⟩
    · subst h; rfl
    · subst h
      simp only [setOverlayCallbacks, List.getLast?_concat, List.dropLast_concat, overlayCount,
        List.length_append, List.length_singleton]

/-- C25 at the stack `[modal-a, modal-b]` and at the empty stack. -/
theorem setOverlayCallbacks_effect_witness :
    setOverlayCallbacks [] 31 32 = ([], []) ∧
    (setOverlayCallbacks [sampleOverlayA, sampleOverlayB] 31 32).1 =
      [sampleOverlayA,
       { sampleOverlayB with freezeCallback := some 31, unfreezeCallback := some 32 }] :=
  ⟨(setOverlayCallbacks_effect [] 31 32).1 rfl,
    congrArg Prod.fst
      ((setOverlayCallbacks_effect [sampleOverlayA, sampleOverlayB] 31 32).2.1
        [sampleOverlayA] sampleOverlayB rfl)⟩

/-- C28: a press of `Escape` calls the close handler of the topmost entry exactly once, and
nothing else, when the stack is non-empty and that entry has a close handler; it calls
nothing when the stack is empty (or the top has no close handler); any other key calls
nothing; in every case the listener leaves the stack as it is and writes nothing. -/
theorem onKeydown_effect (s : List OverlayEntry) (key : String) :
    (onKeydown s key).1 = s ∧
    (s = [] → (onKeydown s "Escape").2 = []) ∧
    (∀ init top h, s = init ++ [top] → top.closeHandler = some h →
      (onKeydown s "Escape").2 = [.invoke .close init.length h]) ∧
    (∀ init top, s = init ++ [top] → top.closeHandler = none →
      (onKeydown s "Escape").2 = []) ∧
    (key ≠ "Escape" → (onKeydown s key).2 = []) := by
  refine ⟨?_, ?_, ?_, ?_, ?_⟩
  · unfold onKeydown
    split
    · split
      · split <;> rfl
      · rfl
    · rfl
  · intro h
    subst h
    rfl
  · intro init top h hs hc
    subst hs
    simp [onKeydown, hc]
  · intro init top hs hc
    subst hs
    simp [onKeydown, hc]
  · intro hk
    simp [onKeydown, hk]

/-- C28 at the stack `[modal-a, modal-b]`, at a stack whose top has no close handler, at
the empty stack and at another key. -/
theorem onKeydown_effect_witness :
    (onKeydown [sampleOverlayA, sampleOverlayB] "Escape") =
      ([sampleOverlayA, sampleOverlayB], [.invoke .close 1 2]) ∧
    (onKeydown [sampleOverlayA, { sampleOverlayB with closeHandler := none }] "Escape").2 = [] ∧
    (onKeydown [] "Escape").2 = [] ∧
    (onKeydown [sampleOverlayA, sampleOverlayB] "Enter").2 = [] :=
  ⟨Prod.ext (onKeydown_effect [sampleOverlayA, sampleOverlayB] "Escape").1
      ((onKeydown_effect [sampleOverlayA, sampleOverlayB] "Escape").2.2.1
        [sampleOverlayA] sampleOverlayB 2 rfl rfl),
    (onKeydown_effect [sampleOverlayA, { sampleOverlayB with closeHandler := none }]
      "Escape").2.2.2.1 [sampleOverlayA] _ rfl rfl,
    (onKeydown_effect [] "Escape").2.1 rfl,
    (onKeydown_effect [sampleOverlayA, sampleOverlayB] "Enter").2.2.2.2 (by decide)⟩

/-! ## Getters -/

/-- C26 as stated fails: with the user identifier 0 supplied by the session, `myTickets` is
empty although the sample ticket 3 is assigned to that identifier; the guard `!userId`
treats the number 0 like a missing user. -/
theorem myTickets_empty_for_identifier_zero :
    sampleT0.assigned_to_id = some 0 ∧ sampleT0 ∈ [sampleT1, sampleT0] ∧
    myTickets [sampleT1, sampleT0] (some 0) = [] := by
  decide

/-- C26, amended: `openTickets` is the sub-list, in collection order, of exactly the tickets
whose status is `new`, `open` or `pending`; for every user identifier other than 0,
`myTickets` is the sub-list, in collection order, of exactly the tickets whose
`assigned_to_id` or `requester_id` equals it; without a user, or with the identifier 0,
`myTickets` is empty. -/
theorem getters_filter_collection (tickets : List Ticket) :
    openTickets tickets =
      tickets.filter (fun t =>
        decide (t.status = some .s_new ∨ t.status = some .s_open ∨
          t.status = some .s_pending)) ∧
    (∀ u : Nat, u ≠ 0 →
      myTickets tickets (some u) =
        tickets.filter (fun t =>
          decide (t.assigned_to_id = some u ∨ t.requester_id = some u))) ∧
    myTickets tickets none = [] ∧
    myTickets tickets (some 0) = [] := by
  refine ⟨?_, ?_, rfl, rfl⟩
  · unfold openTickets
    apply List.filter_congr
    intro t _
    cases h : t.status with
    | none => rfl
    | some x => cases x <;> rfl
  · intro u hu
    simp only [myTickets, if_neg hu]
    apply List.filter_congr
    intro t _
    by_cases h1 : t.assigned_to_id = some u <;> by_cases h2 : t.requester_id = some u <;>
      simp [h1, h2]

/-- C26, amended, at the sample tickets: both are open tickets, user 7 requested both, user
4 is assigned ticket 2. -/
theorem getters_filter_collection_witness :
    openTickets [sampleT1, sampleT2] = [sampleT1, sampleT2] ∧
    myTickets [sampleT1, sampleT2] (some 7) = [sampleT1, sampleT2] ∧
    myTickets [sampleT1, sampleT2] (some 4) = [sampleT2] :=
  ⟨(getters_filter_collection [sampleT1, sampleT2]).1.trans (by decide),
    ((getters_filter_collection [sampleT1, sampleT2]).2.1 7 (by decide)).trans (by decide),
    ((getters_filter_collection [sampleT1, sampleT2]).2.1 4 (by decide)).trans (by decide)⟩

/-! ## `assignTicket` and `addComment` -/

/-- C27 as stated fails: on a store whose last-error field holds a message and whose loading
flag is up, a successful `assignTicket` clears both, so more than the current-detail record
changes on success. -/
theorem assignTicket_success_clears_error :
    ({ sampleStore with error := some "Failed to fetch tickets", loading := true } :
      Store).error = some "Failed to fetch tickets" ∧
    (assignTicket { sampleStore with error := some "Failed to fetch tickets", loading := true }
      1 9 (.ok "ok") (.ok sampleT1)).1.error = none ∧
    (assignTicket { sampleStore with error := some "Failed to fetch tickets", loading := true }
      1 9 (.ok "ok") (.ok sampleT1)).1.loading = false := by
  decide

/-- C27, amended: `assignTicket(id, userId)`, whether it succeeds or fails, leaves the stats
and the ticket collection unchanged. On success the current-detail record is the re-fetched
record, the loading flag is down and the last-error field is cleared; when the assign call
fails only the last-error field changes; when the re-fetch fails the current-detail record
is kept, the loading flag is down and the last-error field holds the message. -/
theorem assignTicket_frame (st : Store) (id userId : Nat) (data : Payload) (d : Ticket)
    (err : ApiError) (remote : Except ApiError Payload) (detail : Except ApiError Ticket) :
    (assignTicket st id userId remote detail).1.tickets = st.tickets ∧
    (assignTicket st id userId remote detail).1.stats = st.stats ∧
    (assignTicket st id userId (.ok data) (.ok d)).1 =
      { st with currentTicket := some d, loading := false, error := none } ∧
    (assignTicket st id userId (.error err) detail).1 =
      { st with error := some (errorMessage err "Failed to assign ticket") } ∧
    (assignTicket st id userId (.ok data) (.error err)).1 =
      { st with loading := false, error := some (errorMessage err "Failed to assign ticket") }
    := by
  refine ⟨?_, ?_, rfl, rfl, rfl⟩
  · cases remote with
    | error e => rfl
    | ok v => cases detail <;> rfl
  · cases remote with
    | error e => rfl
    | ok v => cases detail <;> rfl

/-- C30: a successful `addComment(ticketId, data)` appends the returned comment at the end
of the comment list of the current-detail record when that record's id is `ticketId`, and
otherwise changes nothing; the ticket collection and the stats are unchanged either way. -/
theorem addComment_success_effect (st : Store) (ticketId : Nat) (comment : String) :
    (∀ cur, st.currentTicket = some cur → cur.id = ticketId →
      (addComment st ticketId (.ok comment)).1 =
        { st with currentTicket := some { cur with comments := cur.comments ++ [comment] } }) ∧
    (st.currentTicket.map (·.id) ≠ some ticketId →
      (addComment st ticketId (.ok comment)).1 = st) ∧
    (addComment st ticketId (.ok comment)).1.tickets = st.tickets ∧
    (addComment st ticketId (.ok comment)).1.stats = st.stats ∧
    (addComment st ticketId (.ok comment)).2 = .ok comment := by
  refine ⟨?_, ?_, ?_, ?_, ?_⟩
  · intro cur hcur hid
    simp [addComment, hcur, hid]
  · intro h
    simp [addComment, h]
  · simp only [addComment]
    split <;> rfl
  · simp only [addComment]
    split <;> rfl
  · simp only [addComment]
    split <;> rfl

/-- C30 at the sample store: with ticket 1 loaded as current detail, a comment for ticket 1
is appended to it and a comment for ticket 2 changes nothing. -/
theorem addComment_success_effect_witness :
    (addComment { sampleStore with currentTicket := some sampleT1 } 1
      (.ok "on it")).1.currentTicket = some { sampleT1 with comments := ["on it"] } ∧
    (addComment { sampleStore with currentTicket := some sampleT1 } 2 (.ok "on it")).1 =
      { sampleStore with currentTicket := some sampleT1 } :=
  ⟨congrArg Store.currentTicket
      ((addComment_success_effect { sampleStore with currentTicket := some sampleT1 } 1
        "on it").1 sampleT1 rfl rfl),
    (addComment_success_effect { sampleStore with currentTicket := some sampleT1 } 2
      "on it").2.1 (by decide)⟩

/-! ## `setCachedData` and `invalidateCache` on one key -/

theorem mapGet_eq_none_iff (c : DataCache) (k : String) :
    mapGet c k = none ↔ k ∉ c.map Prod.fst := by
  induction c with
  | nil => simp [mapGet]
  | cons a c ih =>
    obtain ⟨a1, a2⟩ := a
    by_cases h : a1 = k
    · simp [mapGet, h]
    · have h' : ¬ k = a1 := fun e => h e.symm
      simp [mapGet, h, h', ih]

theorem mapGet_mapDelete_self (c : DataCache) (k : String) (hnd : (c.map Prod.fst).Nodup) :
    mapGet (mapDelete c k) k = none := by
  induction c with
  | nil => rfl
  | cons a c ih =>
    obtain ⟨a1, a2⟩ := a
    simp only [List.map_cons, List.nodup_cons] at hnd
    by_cases h : a1 = k
    · subst h
      simp only [mapDelete, if_true]
      exact (mapGet_eq_none_iff c a1).mpr hnd.1
    · simp [mapDelete, mapGet, h, ih hnd.2]

theorem mapDelete_absent (c : DataCache) (k : String) (h : mapGet c k = none) :
    mapDelete c k = c := by
  induction c with
  | nil => rfl
  | cons a c ih =>
    obtain ⟨a1, a2⟩ := a
    by_cases h1 : a1 = k
    · simp [mapGet, h1] at h
    · simp only [mapGet, h1, if_false] at h
      simp [mapDelete, h1, ih h]

theorem mapDelete_mapSet (c : DataCache) (k : String) (e : CacheEntry) :
    mapDelete (mapSet c k e) k = mapDelete c k := by
  induction c with
  | nil => simp [mapSet, mapDelete]
  | cons a c ih =>
    obtain ⟨a1, a2⟩ := a
    by_cases h1 : a1 = k
    · simp [mapSet, mapDelete, h1]
    · simp [mapSet, mapDelete, h1, ih]

/-- C29: for every cache (a `Map`, so with pairwise distinct keys) and keys `k ≠ k'`:
`setCachedData(k, v, ttl)` makes the entry of `k` hold `v` with the current timestamp,
whatever it held before, and leaves the entry of `k'` unchanged; `invalidateCache(k)` leaves
the store without `k` and the entry of `k'` unchanged, and leaves the store as it is when `k`
was absent; `invalidateCache(k)` after `setCachedData(k, v)` gives the same store as
`invalidateCache(k)` alone. -/
theorem cache_single_key_ops (c : DataCache) (k k' : String) (v : Payload) (ttl : Option Nat)
    (now : Nat) (hk : k' ≠ k) (hnd : (c.map Prod.fst).Nodup) :
    mapGet (setCachedData c k v ttl now) k =
      some { data := v, timestamp := now, ttl := ttl.getD CACHE_TTL } ∧
    mapGet (setCachedData c k v ttl now) k' = mapGet c k' ∧
    mapGet (invalidateCache c k) k = none ∧
    mapGet (invalidateCache c k) k' = mapGet c k' ∧
    (mapGet c k = none → invalidateCache c k = c) ∧
    invalidateCache (setCachedData c k v ttl now) k = invalidateCache c k :=
  ⟨mapGet_mapSet_self c k _, mapGet_mapSet_other c k k' _ hk, mapGet_mapDelete_self c k hnd,
    mapGet_mapDelete_other c k k' hk, mapDelete_absent c k, mapDelete_mapSet c k _⟩

/-- C29 at the sample cache with `k = user:2` and `k' = ticket:3`. -/
theorem cache_single_key_ops_witness :
    "ticket:3" ≠ "user:2" ∧ (sampleCache.map Prod.fst).Nodup ∧
    mapGet (setCachedData sampleCache "user:2" "z" (some 500) 77) "user:2" =
      some { data := "z", timestamp := 77, ttl := 500 } ∧
    mapGet (invalidateCache sampleCache "user:2") "user:2" = none ∧
    mapGet (invalidateCache sampleCache "user:2") "ticket:3" =
      some { data := "c", timestamp := 10, ttl := 30000 } :=
  have h := cache_single_key_ops sampleCache "user:2" "ticket:3" "z" (some 500) 77
    (by decide) (by decide)
  ⟨by decide, by decide, h.1, h.2.2.1, h.2.2.2.1.trans (by decide)⟩

/-! ## Further properties of the bulk status operations -/

/-- C31: when the remote call of `bulkCloseTickets` or `bulkUpdateStatus` fails, the ticket
collection after the operation is the collection before it: the status fields are written
on the success path only, so the failed operation never changed one. -/
theorem bulk_status_failure_keeps_tickets (st : Store) (ids : List Nat) (newStatus : Status)
    (err : ApiError) :
    (bulkCloseTickets st ids (.error err)).1.tickets = st.tickets ∧
    (bulkUpdateStatus st ids newStatus (.error err)).1.tickets = st.tickets := by
  constructor
  · simp only [bulkCloseTickets]
    rw [foldl_stats_only
      (fun s (t : Ticket) => updateStatsForStatusChange s t.status (some .s_closed) 1)]
  · simp only [bulkUpdateStatus]
    rw [foldl_stats_only
      (fun s (t : Ticket) => updateStatsForStatusChange s t.status (some newStatus) 1)]

theorem filter_ids_congr (ts : List Ticket) (ids1 ids2 : List Nat) (q : Ticket → Bool)
    (h : ∀ t ∈ ts, (t.id ∈ ids1 ↔ t.id ∈ ids2)) :
    ts.filter (fun t => decide (t.id ∈ ids1) && q t) =
      ts.filter (fun t => decide (t.id ∈ ids2) && q t) := by
  apply List.filter_congr
  intro t ht
  have := h t ht
  by_cases h1 : t.id ∈ ids1
  · simp [h1, this.mp h1]
  · have h2 : t.id ∉ ids2 := fun h2 => h1 (this.mpr h2)
    simp [h1, h2]

theorem filter_ids_congr_plain (ts : List Ticket) (ids1 ids2 : List Nat)
    (h : ∀ t ∈ ts, (t.id ∈ ids1 ↔ t.id ∈ ids2)) :
    ts.filter (fun t => decide (t.id ∈ ids1)) = ts.filter (fun t => decide (t.id ∈ ids2)) := by
  apply List.filter_congr
  intro t ht
  have := h t ht
  by_cases h1 : t.id ∈ ids1
  · simp [h1, this.mp h1]
  · have h2 : t.id ∉ ids2 := fun h2 => h1 (this.mpr h2)
    simp [h1, h2]

/-- The three operations read the id list only through the test `ticketIds.includes(t.id)` on
local tickets. -/
theorem bulk_ops_congr (st : Store) (ids1 ids2 : List Nat)
    (h : ∀ t ∈ st.tickets, (t.id ∈ ids1 ↔ t.id ∈ ids2)) :
    (∀ remote, bulkCloseTickets st ids1 remote = bulkCloseTickets st ids2 remote) ∧
    (∀ newStatus remote,
      bulkUpdateStatus st ids1 newStatus remote = bulkUpdateStatus st ids2 newStatus remote) ∧
    (∀ userId remote,
      bulkAssignTickets st ids1 userId remote = bulkAssignTickets st ids2 userId remote) := by
  refine ⟨?_, ?_, ?_⟩
  · intro remote
    simp only [bulkCloseTickets]
    rw [filter_ids_congr st.tickets ids1 ids2 (fun t => decide (t.status ≠ some .s_closed)) h]
  · intro newStatus remote
    simp only [bulkUpdateStatus]
    rw [filter_ids_congr st.tickets ids1 ids2 (fun t => decide (t.status ≠ some newStatus)) h]
  · intro userId remote
    simp only [bulkAssignTickets]
    rw [filter_ids_congr_plain st.tickets ids1 ids2 h]

/-- C32: for two id lists that contain the same ids, in whatever order and however often,
`bulkCloseTickets`, `bulkUpdateStatus` and `bulkAssignTickets` end, for the same outcome of
the remote call, in the same ticket collection and the same stats (in the same store state
altogether); and the ids that match no local ticket can be left out of the list without
changing the result. -/
theorem bulk_ops_depend_on_id_set (st : Store) (ids1 ids2 : List Nat)
    (h : ∀ x, x ∈ ids1 ↔ x ∈ ids2) :
    (∀ remote, bulkCloseTickets st ids1 remote = bulkCloseTickets st ids2 remote) ∧
    (∀ newStatus remote,
      bulkUpdateStatus st ids1 newStatus remote = bulkUpdateStatus st ids2 newStatus remote) ∧
    (∀ userId remote,
      bulkAssignTickets st ids1 userId remote = bulkAssignTickets st ids2 userId remote) ∧
    (∀ remote, bulkCloseTickets st ids1 remote =
      bulkCloseTickets st (ids1.filter (fun x => decide (x ∈ st.tickets.map (·.id)))) remote) ∧
    (∀ newStatus remote, bulkUpdateStatus st ids1 newStatus remote =
      bulkUpdateStatus st (ids1.filter (fun x => decide (x ∈ st.tickets.map (·.id))))
        newStatus remote) ∧
    (∀ userId remote, bulkAssignTickets st ids1 userId remote =
      bulkAssignTickets st (ids1.filter (fun x => decide (x ∈ st.tickets.map (·.id))))
        userId remote) := by
  have h1 := bulk_ops_congr st ids1 ids2 (fun t _ => h t.id)
  have hlocal : ∀ t ∈ st.tickets,
      (t.id ∈ ids1 ↔ t.id ∈ ids1.filter (fun x => decide (x ∈ st.tickets.map (·.id)))) := by
    intro t ht
    constructor
    · intro hin
      exact List.mem_filter.mpr ⟨hin, by simpa using ⟨t, ht, rfl⟩⟩
    · intro hin
      exact (List.mem_filter.mp hin).1
  have h2 := bulk_ops_congr st ids1 _ hlocal
  exact ⟨h1.1, h1.2.1, h1.2.2, h2.1, h2.2.1, h2.2.2⟩

/-- C32 at the sample store: the lists `[1, 2]` and `[2, 1, 2, 8]`, which hold the same
local ids, give the same result. -/
theorem bulk_ops_depend_on_id_set_witness :
    (∀ x, x ∈ [2, 1, 2] ↔ x ∈ [1, 2]) ∧
    bulkCloseTickets sampleStore [2, 1, 2] (.ok "ok") =
      bulkCloseTickets sampleStore [1, 2] (.ok "ok") ∧
    bulkAssignTickets sampleStore [2, 1, 2, 8] (some 9) (.ok "ok") =
      bulkAssignTickets sampleStore [2, 1, 2] (some 9) (.ok "ok") :=
  have hset : ∀ x, x ∈ [2, 1, 2] ↔ x ∈ [1, 2] := by
    intro x
    simp only [List.mem_cons, List.mem_singleton, List.not_mem_nil, or_false]
    constructor
    · rintro (h | h | h)
      · exact Or.inr h
      · exact Or.inl h
      · exact Or.inr h
    · rintro (h | h)
      · exact Or.inr (Or.inl h)
      · exact Or.inl h
  ⟨hset, (bulk_ops_depend_on_id_set sampleStore [2, 1, 2] [1, 2] hset).1 (.ok "ok"),
    ((bulk_ops_depend_on_id_set sampleStore [2, 1, 2, 8] [2, 1, 2, 8]
      (fun _ => Iff.rfl)).2.2.2.2.2 (some 9) (.ok "ok")).trans (by rfl)⟩

/-! ## Repeated status actions and the counter transition -/

theorem closeTicket_open_ok (st : Store) (ticketId : Nat) (tk : Ticket) (data : Payload)
    (d : Ticket) (hf : findTicket st.tickets ticketId = some tk)
    (hs : tk.status = some .s_open) :
    (closeTicket st ticketId (.ok data) (.ok d)).1 =
      { st with
        currentTicket := some d
        loading := false
        error := none
        stats := { st.stats with n_open := st.stats.n_open - 1, n_closed := st.stats.n_closed + 1 } }
    := by
  simp [closeTicket, fetchTicket, hf, hs, updateStatsForStatusChange, TicketStats.setCounter,
    TicketStats.counter]

/-- C33: a successful `resolveTicket`, `closeTicket` or `reopenTicket` leaves the ticket
collection unchanged: the listed record keeps its old status, only the current-detail record
is replaced. Hence, for a listed ticket with status `open` and an `open` counter of at least
2, two consecutive successful `closeTicket` calls on it lower the `open` counter by 2 and
raise the `closed` counter by 2: the second call is not a no-op. -/
theorem status_action_keeps_collection (st : Store) (ticketId : Nat) (data data2 : Payload)
    (d d2 : Ticket) :
    (resolveTicket st ticketId (.ok data) (.ok d)).1.tickets = st.tickets ∧
    (closeTicket st ticketId (.ok data) (.ok d)).1.tickets = st.tickets ∧
    (reopenTicket st ticketId (.ok data) (.ok d)).1.tickets = st.tickets ∧
    (closeTicket st ticketId (.ok data) (.ok d)).1.currentTicket = some d ∧
    (∀ tk, findTicket st.tickets ticketId = some tk → tk.status = some .s_open →
      2 ≤ st.stats.n_open →
      (closeTicket (closeTicket st ticketId (.ok data) (.ok d)).1 ticketId (.ok data2)
        (.ok d2)).1.stats.n_open + 2 = st.stats.n_open ∧
      (closeTicket (closeTicket st ticketId (.ok data) (.ok d)).1 ticketId (.ok data2)
        (.ok d2)).1.stats.n_closed = st.stats.n_closed + 2 ∧
      (closeTicket (closeTicket st ticketId (.ok data) (.ok d)).1 ticketId (.ok data2)
        (.ok d2)).1.tickets = st.tickets) := by
  refine ⟨?_, ?_, ?_, ?_, ?_⟩
  · simp only [resolveTicket, fetchTicket]
    split <;> rfl
  · simp only [closeTicket, fetchTicket]
    split <;> rfl
  · simp only [reopenTicket, fetchTicket]
    split <;> rfl
  · simp only [closeTicket, fetchTicket]
    split <;> rfl
  · intro tk hf hs h2
    have e1 := closeTicket_open_ok st ticketId tk data d hf hs
    have e2 := closeTicket_open_ok (closeTicket st ticketId (.ok data) (.ok d)).1 ticketId tk
      data2 d2 (by rw [e1]; exact hf) hs
    rw [e2, e1]
    refine ⟨?_, ?_, rfl⟩
    · simp only []
      omega
    · simp only []

/-- C33 at the sample store: ticket 2 is `open` and the `open` counter is 4; after two
successful `closeTicket(2)` calls the counters read `open` 2 and `closed` 5 and ticket 2 is
still listed as `open`. -/
theorem status_action_keeps_collection_witness :
    findTicket sampleStore.tickets 2 = some sampleT2 ∧
    (closeTicket (closeTicket sampleStore 2 (.ok "ok") (.ok sampleT2)).1 2 (.ok "ok")
      (.ok sampleT2)).1.stats.n_open + 2 = 4 ∧
    (closeTicket (closeTicket sampleStore 2 (.ok "ok") (.ok sampleT2)).1 2 (.ok "ok")
      (.ok sampleT2)).1.stats.n_closed = 3 + 2 ∧
    (closeTicket (closeTicket sampleStore 2 (.ok "ok") (.ok sampleT2)).1 2 (.ok "ok")
      (.ok sampleT2)).1.tickets = [sampleT1, sampleT2] :=
  have h := (status_action_keeps_collection sampleStore 2 "ok" "ok" sampleT2 sampleT2).2.2.2.2
    sampleT2 rfl rfl (by decide)
  ⟨rfl, h.1, h.2.1, h.2.2⟩

/-- C34: for statuses `a ≠ b` and every count `c`, in particular every `c ≥ 1`,
`updateStatsForStatusChange(a, b, c)`
changes neither `total` nor `sla_breached` nor `by_priority` nor `by_type`; the counter of `a`
becomes `max(0, counter - c)`, so no counter is negative afterwards, and the counter of `b`
grows by `c`; the sum of the five status counters is preserved if and only if the counter of
`a` was at least `c`, and otherwise grows by `c` minus the old counter of `a`. -/
theorem status_change_counter_arithmetic (s : TicketStats) (a b : Status) (c : Nat)
    (hab : a ≠ b) :
    (updateStatsForStatusChange s (some a) (some b) c).total = s.total ∧
    (updateStatsForStatusChange s (some a) (some b) c).sla_breached = s.sla_breached ∧
    (updateStatsForStatusChange s (some a) (some b) c).by_priority = s.by_priority ∧
    (updateStatsForStatusChange s (some a) (some b) c).by_type = s.by_type ∧
    (((updateStatsForStatusChange s (some a) (some b) c).counter a : Int) =
      max 0 ((s.counter a : Int) - (c : Int))) ∧
    (updateStatsForStatusChange s (some a) (some b) c).counter b = s.counter b + c ∧
    (∀ x, x ≠ a → x ≠ b →
      (updateStatsForStatusChange s (some a) (some b) c).counter x = s.counter x) ∧
    (∀ x, (0 : Int) ≤ ((updateStatsForStatusChange s (some a) (some b) c).counter x : Int)) ∧
    (statusSum (updateStatsForStatusChange s (some a) (some b) c) = statusSum s ↔
      c ≤ s.counter a) ∧
    (s.counter a < c →
      statusSum (updateStatsForStatusChange s (some a) (some b) c) =
        statusSum s + (c - s.counter a)) := by
  obtain ⟨g1, g2, g3, g4⟩ := updateStats_frame s (some a) (some b) c
  have e : ∀ x, (updateStatsForStatusChange s (some a) (some b) c).counter x =
      if x = b then s.counter b + c else if x = a then s.counter a - c else s.counter x := by
    intro x
    simp only [updateStatsForStatusChange, counter_setCounter]
    by_cases hxb : x = b
    · subst hxb
      have hxa : ¬ x = a := fun h => hab h.symm
      simp [hxa]
    · simp [hxb]
  have ea : (updateStatsForStatusChange s (some a) (some b) c).counter a = s.counter a - c := by
    rw [e, if_neg hab, if_pos rfl]
  have eb : (updateStatsForStatusChange s (some a) (some b) c).counter b = s.counter b + c := by
    rw [e, if_pos rfl]
  have hsum : ∀ r : TicketStats, statusSum r =
      r.counter .s_new + r.counter .s_open + r.counter .s_pending + r.counter .s_resolved +
        r.counter .s_closed := fun _ => rfl
  have hsum' : statusSum (updateStatsForStatusChange s (some a) (some b) c) + min (s.counter a) c
      = statusSum s + c := by
    rw [hsum, hsum, e, e, e, e, e]
    clear g1 g2 g3 g4 e ea eb hsum
    cases a <;> cases b <;> simp at hab ⊢ <;> omega
  refine ⟨g1, g2, g3, g4, ?_, eb, ?_, fun x => Int.ofNat_nonneg _, ?_, ?_⟩
  · rw [ea]
    omega
  · intro x hxa hxb
    rw [e, if_neg hxb, if_neg hxa]
  · constructor
    · intro h
      omega
    · intro h
      omega
  · intro hlt
    omega

/-- C34 at the sample stats: moving 5 units from `new`, which counts 3, to `closed` floors
`new` at 0, raises `closed` to 8 and makes the sum of the status counters grow from 10 to
12; moving 2 units keeps the sum. -/
theorem status_change_counter_arithmetic_witness :
    (updateStatsForStatusChange sampleStats (some .s_new) (some .s_closed) 5).counter .s_closed
      = 8 ∧
    statusSum (updateStatsForStatusChange sampleStats (some .s_new) (some .s_closed) 5) =
      10 + (5 - 3) ∧
    statusSum (updateStatsForStatusChange sampleStats (some .s_new) (some .s_closed) 2) = 10 :=
  have h5 := status_change_counter_arithmetic sampleStats .s_new .s_closed 5 (by decide)
  have h2 := status_change_counter_arithmetic sampleStats .s_new .s_closed 2 (by decide)
  ⟨h5.2.2.2.2.2.1, h5.2.2.2.2.2.2.2.2.2 (by decide), h2.2.2.2.2.2.2.2.2.1.mpr (by decide)⟩

/-! ## Unfreezing a top entry that was never frozen -/

/-- C35: on a stack whose top entry has an unfreeze handler and a type other than the given
one, while some entry below the top has the given type, `unregisterOverlay(type)` removes an
entry below the top, keeps the top entry as top, and calls the unfreeze handler of that
same top entry, once, after the write; nothing else is called, no freeze handler in
particular. So an overlay can receive an unfreeze call that no freeze call preceded. -/
theorem unregisterOverlay_unfreezes_unchanged_top (s init : List OverlayEntry)
    (top : OverlayEntry) (type : String) (u : Nat)
    (hs : s = init ++ [top]) (htop : top.type ≠ type) (hin : ∃ e ∈ init, e.type = type)
    (hu : top.unfreezeCallback = some u) :
    s.getLast? = some top ∧
    (unregisterOverlay s type).1.getLast? = some top ∧
    (unregisterOverlay s type).1.length + 1 = s.length ∧
    (unregisterOverlay s type).2 =
      [.assign (unregisterOverlay s type).1, .invoke .unfreeze (init.length - 1) u] := by
  subst hs
  have hsome : ∃ i, findLastIndex init type = some i := by
    cases hf : findLastIndex init type with
    | some i => exact ⟨i, rfl⟩
    | none =>
      obtain ⟨e, he, hty⟩ := hin
      exact absurd hty ((findLastIndex_none_iff init type).mp hf e he)
  obtain ⟨i, hi⟩ := hsome
  obtain ⟨pre, e, post, hinit, -, hety, hpost⟩ := findLastIndex_split init type i hi
  subst hinit
  have hpost' : ∀ x ∈ post ++ [top], x.type ≠ type := by
    intro x hx
    rcases List.mem_append.mp hx with h | h
    · exact hpost x h
    · simp only [List.mem_singleton] at h
      subst h
      exact htop
  have hfi : findLastIndex ((pre ++ e :: post) ++ [top]) type = some pre.length := by
    have := findLastIndex_append pre (post ++ [top]) e type hety hpost'
    simpa using this
  have hres : unregisterOverlay ((pre ++ e :: post) ++ [top]) type =
      ((pre ++ post) ++ [top],
        [.assign ((pre ++ post) ++ [top]), .invoke .unfreeze (pre ++ post).length u]) := by
    have herase : ((pre ++ e :: post) ++ [top]).eraseIdx pre.length = (pre ++ post) ++ [top] := by
      have := eraseIdx_append_length pre (post ++ [top]) e
      simpa using this
    simp only [unregisterOverlay, hfi, herase, unfreezeTop_concat, hu]
    rfl
  rw [hres]
  refine ⟨List.getLast?_concat _, List.getLast?_concat _, by simp; omega, ?_⟩
  have : (pre ++ e :: post).length - 1 = (pre ++ post).length := by simp
  rw [this]

/-- C35 at the stack `[modal-a, modal-b]`: `unregisterOverlay('modal-a')` leaves `modal-b`
on top and calls its unfreeze handler 22 although `modal-b` was the top all along. -/
theorem unregisterOverlay_unfreezes_unchanged_top_witness :
    ([sampleOverlayA, sampleOverlayB] : List OverlayEntry).getLast? = some sampleOverlayB ∧
    (unregisterOverlay [sampleOverlayA, sampleOverlayB] "modal-a").1.getLast? =
      some sampleOverlayB ∧
    (unregisterOverlay [sampleOverlayA, sampleOverlayB] "modal-a").2 =
      [.assign (unregisterOverlay [sampleOverlayA, sampleOverlayB] "modal-a").1,
       .invoke .unfreeze 0 22] :=
  have h := unregisterOverlay_unfreezes_unchanged_top [sampleOverlayA, sampleOverlayB]
    [sampleOverlayA] sampleOverlayB "modal-a" 22 rfl (by decide)
    ⟨sampleOverlayA, by simp, rfl⟩ rfl
  ⟨h.1, h.2.1, h.2.2.2⟩

/-- A run from the empty stack: `modal-a` and `modal-b` are registered, each with its
handlers attached at once, then `modal-a` is unregistered. The calls of the run are the
freeze handler 11 of `modal-a` and the unfreeze handler 22 of `modal-b`; the freeze handler
21 of `modal-b` is never called. -/
theorem unfreeze_without_freeze_run :
    (registerOverlay [] "modal-a" 1 100).2 ++
      (setOverlayCallbacks (registerOverlay [] "modal-a" 1 100).1 11 12).2 ++
      (registerOverlay (setOverlayCallbacks (registerOverlay [] "modal-a" 1 100).1 11 12).1
        "modal-b" 2 200).2 ++
      (setOverlayCallbacks
        (registerOverlay (setOverlayCallbacks (registerOverlay [] "modal-a" 1 100).1 11 12).1
          "modal-b" 2 200).1 21 22).2 ++
      (unregisterOverlay
        (setOverlayCallbacks
          (registerOverlay (setOverlayCallbacks (registerOverlay [] "modal-a" 1 100).1 11 12).1
            "modal-b" 2 200).1 21 22).1 "modal-a").2 =
    [.assign [{ sampleOverlayA with freezeCallback := none, unfreezeCallback := none }],
     .assign [sampleOverlayA],
     .invoke .freeze 0 11,
     .assign [sampleOverlayA,
       { sampleOverlayB with freezeCallback := none, unfreezeCallback := none }],
     .assign [sampleOverlayA, sampleOverlayB],
     .assign [sampleOverlayB],
     .invoke .unfreeze 0 22] := by
  decide

end Inframate
